import Mathlib

/-!
# GPS tracker simulator: protocol encoder and session

A shallow embedding of the Go packages `protocol`, `simulation`, `device` and
of the start-up checks of `main` of the tracker simulator, followed by theorems
about the checksum, the record encoder, the packet framer, the generators, the
authentication and acknowledgment messages and the session loop.

Conventions of the embedding:

* a Go `byte` is a `Fin 256`; a `[]byte` is a `List Byte`;
* Go unsigned integers (`uint16`, `uint32`, `uint64`) are natural numbers, and
  every conversion to a fixed width is an explicit `% 2 ^ w`;
* Go `int` values are unbounded integers (`Int`); the code only ever converts
  them to a fixed width, which is the residue modulo `2 ^ w`;
* a `float64` is either a finite value, carried as an exact rational, or one
  of the three special values; arithmetic rounds to nearest, ties to even;
* a `time.Time` is an instant, carried as nanoseconds since the Unix epoch;
* the network connection is explicit state: the operations performed so far
  and the outcomes the peer will deliver next;
* the session loop is explicit state as well: the steps taken so far, the
  outcomes of the coming dials and the moment the stop channel is closed; its
  loops take a bound on their number of rounds;
* the stop channel is closed by another goroutine: `Run` and its methods are
  given twice, first with the channel closed during a blocking operation, then
  (`RunAsync`) with the channel closed at any moment, between two steps as well.
-/

/-! ## Bytes and `encoding/binary` -/

/-- A Go `byte`. -/
abbrev Byte := Fin 256

/-- Go conversion `byte(n)` of an unsigned value: the low eight bits. -/
def toByte (n : Nat) : Byte := ⟨n % 256, Nat.mod_lt n (by decide)⟩

/-- Go conversion `uint16(x)` of a signed integer: the residue modulo `2 ^ 16`. -/
def toUint16 (x : Int) : Nat := (x % 65536).toNat

/-- Go conversion `uint32(x)` of a signed integer: the residue modulo `2 ^ 32`. -/
def toUint32 (x : Int) : Nat := (x % 4294967296).toNat

/-- Go conversion `uint64(x)` of a signed integer: the residue modulo `2 ^ 64`. -/
def toUint64 (x : Int) : Nat := (x % 18446744073709551616).toNat

/-- Go conversion `byte(x)` of a signed integer: the residue modulo `2 ^ 8`. -/
def intToByte (x : Int) : Byte := toByte (x % 256).toNat

/-- The two bytes `binary.BigEndian.PutUint16` stores for a `uint16` value. -/
def PutUint16 (v : Nat) : List Byte := [toByte (v >>> 8), toByte v]

/-- The four bytes `binary.BigEndian.PutUint32` stores for a `uint32` value. -/
def PutUint32 (v : Nat) : List Byte :=
  [toByte (v >>> 24), toByte (v >>> 16), toByte (v >>> 8), toByte v]

/-- The eight bytes `binary.BigEndian.PutUint64` stores for a `uint64` value. -/
def PutUint64 (v : Nat) : List Byte :=
  [toByte (v >>> 56), toByte (v >>> 48), toByte (v >>> 40), toByte (v >>> 32),
   toByte (v >>> 24), toByte (v >>> 16), toByte (v >>> 8), toByte v]

/-- Reading a byte sequence as a big-endian unsigned integer. -/
def beUint (bs : List Byte) : Nat := bs.foldl (fun acc b => acc * 256 + b.val) 0

/-- Reading four bytes as a big-endian two's-complement signed integer. -/
def beInt32 (bs : List Byte) : Int :=
  if beUint bs < 2147483648 then (beUint bs : Int) else (beUint bs : Int) - 4294967296

/-! ## `float64` and `time.Time` -/

/-- A `float64` value. Finite values are carried as exact rationals (the sign
of zero is not tracked: no operation of this program observes it). -/
inductive Float64 where
  | finite (q : ℚ)
  | posInf
  | negInf
  | nan
  deriving DecidableEq

/-- Rounding a rational to the nearest integer, ties to the even one. -/
def roundHalfEven (q : ℚ) : Int :=
  let f := ⌊q⌋
  let r := q - f
  if r < 1 / 2 then f else if 1 / 2 < r then f + 1 else if f % 2 = 0 then f else f + 1

/-- The spacing of binary64 values around a non-zero rational `q`: `2 ^ (e - 52)`
where `e` is the binary exponent of `q`, held at `-1022` in the subnormal range. -/
def f64Quantum (q : ℚ) : ℚ := (2 : ℚ) ^ (max (Int.log 2 |q|) (-1022) - 52)

/-- IEEE 754 binary64 rounding of an exact result: to the nearest representable
value, ties to even, overflowing to an infinity from `2 ^ 1024` on. -/
def f64Round (q : ℚ) : Float64 :=
  if q = 0 then Float64.finite 0
  else
    let r : ℚ := roundHalfEven (q / f64Quantum q) * f64Quantum q
    if (2 : ℚ) ^ 1024 ≤ |r| then (if 0 < q then Float64.posInf else Float64.negInf)
    else Float64.finite r

/-- The product of an infinity with a finite factor of the given sign. -/
def f64InfTimes (positive : Bool) (a : ℚ) : Float64 :=
  if a = 0 then Float64.nan
  else if (0 < a) = positive then Float64.posInf else Float64.negInf

/-- Go `x * y` on `float64`. -/
def Float64.mul : Float64 → Float64 → Float64
  | Float64.nan, _ => Float64.nan
  | _, Float64.nan => Float64.nan
  | Float64.finite a, Float64.finite b => f64Round (a * b)
  | Float64.finite a, Float64.posInf => f64InfTimes true a
  | Float64.finite a, Float64.negInf => f64InfTimes false a
  | Float64.posInf, Float64.finite b => f64InfTimes true b
  | Float64.negInf, Float64.finite b => f64InfTimes false b
  | Float64.posInf, Float64.posInf => Float64.posInf
  | Float64.negInf, Float64.negInf => Float64.posInf
  | Float64.posInf, Float64.negInf => Float64.negInf
  | Float64.negInf, Float64.posInf => Float64.negInf

/-- Discarding the fraction of a rational (truncation towards zero). -/
def truncate (q : ℚ) : Int := if 0 ≤ q then ⌊q⌋ else ⌈q⌉

/-- Bringing an integer into the `int32` range by two's-complement wraparound. -/
def wrapInt32 (x : Int) : Int := (x + 2147483648) % 4294967296 - 2147483648

/-- Go conversion `int32(f)` of a `float64`: the fraction is discarded. When
the truncated value does not fit an `int32` (or `f` is not finite) the language
leaves the result to the implementation; `impl` is that choice. -/
def int32OfFloat64 (impl : Float64 → Int) (f : Float64) : Int :=
  match f with
  | Float64.finite q =>
    if -2147483648 ≤ truncate q ∧ truncate q < 2147483648 then truncate q
    else wrapInt32 (impl f)
  | _ => wrapInt32 (impl f)

/-- A `time.Time`: an instant, as nanoseconds since the Unix epoch. -/
structure Time where
  unixNano : Int
  deriving DecidableEq

/-- Bringing an integer into the `int64` range by two's-complement wraparound. -/
def wrapInt64 (x : Int) : Int :=
  (x + 9223372036854775808) % 18446744073709551616 - 9223372036854775808

/-- Go `t.UnixMilli()`: whole milliseconds since the epoch, as an `int64`. -/
def Time.UnixMilli (t : Time) : Int := wrapInt64 (t.unixNano / 1000000)

/-! ## Package `simulation` -/

/-- GPSData represents a single GPS position reading. -/
structure GPSData where
  Timestamp : Time
  Latitude : Float64
  Longitude : Float64
  Altitude : Int
  Speed : Int
  Heading : Int
  Satellites : Int
  Priority : Byte

/-! ## Package `protocol`: checksum -/

/-- The reflected CRC-16 polynomial of `init`. -/
def polynomial : Nat := 0xA001

/-- One pass of the inner loop of `init`: shift right by one bit, folding the
polynomial in when the bit shifted out is set. -/
def crcShift (crc : Nat) : Nat :=
  if crc &&& 1 ≠ 0 then (crc >>> 1) ^^^ polynomial else crc >>> 1

/-- The value `init` stores in `crc16Table[i]`: eight shifts of `uint16(i)`. -/
def crc16TableEntry (i : Nat) : Nat := crcShift^[8] i

/-- The 256-entry lookup table filled by `init`. -/
def crc16Table : List Nat := (List.range 256).map crc16TableEntry

/-- One pass of the loop of `CalculateCRC16`:
`crc = (crc >> 8) ^ crc16Table[byte(crc)^b]`. -/
def crcUpdate (crc : Nat) (b : Byte) : Nat :=
  (crc >>> 8) ^^^ crc16Table.getD ((crc % 256) ^^^ b.val) 0

/-- CalculateCRC16 computes CRC-16/IBM over the given data. -/
def CalculateCRC16 (data : List Byte) : Nat := data.foldl crcUpdate 0

/-- Reference CRC-16/ARC, one bit: the register moves right by one place and
the polynomial `0xA001` is folded in when the bit that left was set. -/
def crc16ArcBit (crc : Nat) : Nat :=
  if crc % 2 = 1 then (crc / 2) ^^^ 0xA001 else crc / 2

/-- Reference CRC-16/ARC, one byte: the byte is folded into the low bits of
the register, which is then processed bit by bit, eight times. -/
def crc16ArcByte (crc : Nat) (b : Byte) : Nat := crc16ArcBit^[8] (crc ^^^ b.val)

/-- Reference CRC-16/ARC of a byte sequence: reflected polynomial `0xA001`,
initial value `0`, no final XOR. -/
def crc16Arc (data : List Byte) : Nat := data.foldl crc16ArcByte 0

/-! ## Package `protocol`: record encoder -/

/-- AVLRecord is a fully encoded Codec 8 AVL record ready for packet assembly. -/
structure AVLRecord where
  Data : List Byte

/-- The timestamp as 8 bytes (milliseconds since the Unix epoch). -/
def buildTimestamp (gps : GPSData) : List Byte :=
  PutUint64 (toUint64 gps.Timestamp.UnixMilli)

/-- The 15-byte GPS element: longitude, latitude, altitude, angle, satellites,
speed. -/
def buildGPSElement (impl : Float64 → Int) (gps : GPSData) : List Byte :=
  let lon := int32OfFloat64 impl (gps.Longitude.mul (Float64.finite 10000000))
  let lat := int32OfFloat64 impl (gps.Latitude.mul (Float64.finite 10000000))
  PutUint32 (toUint32 lon) ++ PutUint32 (toUint32 lat) ++
    PutUint16 (toUint16 gps.Altitude) ++ PutUint16 (toUint16 gps.Heading) ++
    [intToByte gps.Satellites] ++ PutUint16 (toUint16 gps.Speed)

/-- An empty I/O element (no I/O properties). -/
def buildIOElement : List Byte := [0x00, 0x00, 0x00, 0x00, 0x00, 0x00]

/-- EncodeAVLRecord encodes a GPSData point into a Codec 8 AVL record. -/
def EncodeAVLRecord (impl : Float64 → Int) (gps : GPSData) : AVLRecord :=
  let buf : List Byte := []
  let buf := buf ++ buildTimestamp gps
  let buf := buf ++ [gps.Priority]
  let buf := buf ++ buildGPSElement impl gps
  let buf := buf ++ buildIOElement
  { Data := buf }

/-- The choice the amd64 compiler makes for `int32(f)` when `f` is out of
range or not finite: the smallest `int32`. -/
def amd64Indefinite (_ : Float64) : Int := -2147483648

/-- The report of the specification's scenario: latitude 40.7128, longitude
-74.0060 (as exact decimals), altitude 100, twelve satellites. -/
def scenarioReport : GPSData :=
  { Timestamp := { unixNano := 1700000000000000000 },
    Latitude := Float64.finite (407128 / 10000),
    Longitude := Float64.finite (-740060 / 10000),
    Altitude := 100, Speed := 0, Heading := 0, Satellites := 12, Priority := 0 }

/-- A report just east of the prime meridian: longitude `2 ^ (-24)` degrees
(about 5.96e-8), a binary64 value. -/
def reportNearMeridian : GPSData :=
  { Timestamp := { unixNano := 0 },
    Latitude := Float64.finite 0,
    Longitude := Float64.finite (1 / 16777216),
    Altitude := 0, Speed := 0, Heading := 0, Satellites := 0, Priority := 0 }

/-- A report just south of the equator: latitude `-3 * 2 ^ (-25)` degrees
(about -8.94e-8), a binary64 value. -/
def reportNearEquator : GPSData :=
  { Timestamp := { unixNano := 0 },
    Latitude := Float64.finite (-3 / 33554432),
    Longitude := Float64.finite 0,
    Altitude := 0, Speed := 0, Heading := 0, Satellites := 0, Priority := 0 }

/-! ## Package `protocol`: packet framer -/

/-- BuildAVLPacket constructs a complete Codec 8 AVL data packet. -/
def BuildAVLPacket (records : List AVLRecord) : List Byte :=
  let count := toByte records.length
  let data : List Byte := []
  let data := data ++ [0x08]
  let data := data ++ [count]
  let data := records.foldl (fun d r => d ++ r.Data) data
  let data := data ++ [count]
  let crc := CalculateCRC16 data
  let dataLen := PutUint32 (data.length % 4294967296)
  let crcBytes := PutUint32 crc
  let packet : List Byte := []
  let packet := packet ++ [0x00, 0x00, 0x00, 0x00]
  let packet := packet ++ dataLen
  let packet := packet ++ data
  let packet := packet ++ crcBytes
  packet

/-- The payload span of a packet of the given records: the codec identifier,
the record count, the records in order, and the record count again. -/
def payloadSpan (records : List AVLRecord) : List Byte :=
  [0x08, toByte records.length] ++ (records.map (fun r => r.Data)).flatten ++
    [toByte records.length]

/-! ## Package `device`: the connection and the authentication message -/

/-- An operation the tracker performs on its `net.Conn`. A read deadline is
recorded by its distance from now in seconds, `none` for the zero time. -/
inductive ConnEvent where
  | write (data : List Byte)
  | setReadDeadline (seconds : Option Nat)
  | read (size : Nat)
  | close
  deriving DecidableEq

/-- A `net.Conn` as explicit state: the operations performed on it so far,
whether each coming `Write` fails, and what each coming `Read` finds: `none`
for a failure (also a timeout), `some bs` for bytes that have arrived. -/
structure Conn where
  events : List ConnEvent
  writeFails : List Bool
  inbound : List (Option (List Byte))

/-- Go `conn.Write(data)`: the call is recorded; it reports whether it failed. -/
def Conn.Write (c : Conn) (data : List Byte) : Conn × Bool :=
  ({ c with events := c.events ++ [ConnEvent.write data], writeFails := c.writeFails.tail },
   c.writeFails.headD false)

/-- Go `conn.SetReadDeadline(t)`. -/
def Conn.SetReadDeadline (c : Conn) (seconds : Option Nat) : Conn :=
  { c with events := c.events ++ [ConnEvent.setReadDeadline seconds] }

/-- Go `conn.Read(buf)` into a zeroed buffer of `size` bytes: `none` when the
read fails, else the buffer afterwards. At most `size` of the arrived bytes are
taken; the others stay queued for the next read. -/
def Conn.Read (c : Conn) (size : Nat) : Conn × Option (List Byte) :=
  let events := c.events ++ [ConnEvent.read size]
  match c.inbound with
  | [] => ({ c with events := events }, none)
  | none :: rest => ({ c with events := events, inbound := rest }, none)
  | some bs :: rest =>
    let buf := bs.take size ++ List.replicate (size - bs.length) (0 : Byte)
    let left := if size < bs.length then some (bs.drop size) :: rest else rest
    ({ c with events := events, inbound := left }, some buf)

/-- The errors the tracker's methods return. -/
inductive TrackerError where
  | connect
  | sendIMEI
  | readIMEIResponse
  | imeiRejected (response : Byte)
  | sendAVLData
  | readAVLResponse
  deriving DecidableEq

/-- Tracker manages the TCP connection to the server. The IMEI, a Go string,
is carried as its bytes; `conn` is `none` for a nil connection. -/
structure Tracker where
  Server : String
  IMEI : List Byte
  Verbose : Bool
  conn : Option Conn

/-- SendIMEI sends the IMEI authentication message and reads the server
response. The result is `none` when the method is called on a nil connection
(a run-time panic), else the tracker afterwards and the error returned. -/
def Tracker.SendIMEI (t : Tracker) : Option (Tracker × Option TrackerError) :=
  match t.conn with
  | none => none
  | some c =>
    let imeiBytes := t.IMEI
    let msg := PutUint16 (imeiBytes.length % 65536) ++ imeiBytes
    let (c, failed) := c.Write msg
    if failed then some ({ t with conn := some c }, some TrackerError.sendIMEI)
    else
      let c := c.SetReadDeadline (some 10)
      let (c, r) := c.Read 1
      match r with
      | none => some ({ t with conn := some c }, some TrackerError.readIMEIResponse)
      | some resp =>
        let c := c.SetReadDeadline none
        if resp.headD 0 ≠ 0x01 then
          some ({ t with conn := some c }, some (TrackerError.imeiRejected (resp.headD 0)))
        else some ({ t with conn := some c }, none)

/-- Whether an operation on the connection is a write. -/
def ConnEvent.isWrite : ConnEvent → Bool
  | ConnEvent.write _ => true
  | _ => false

/-- SendAVLData sends an AVL data packet and reads the server acknowledgment.
The result is `none` when the method is called on a nil connection (a run-time
panic), else the tracker afterwards, the accepted count and the error returned.
The count is `int(binary.BigEndian.Uint32(resp))`, the big-endian value of the
four bytes of the buffer. -/
def Tracker.SendAVLData (t : Tracker) (packet : List Byte) :
    Option (Tracker × Int × Option TrackerError) :=
  match t.conn with
  | none => none
  | some c =>
    let (c, failed) := c.Write packet
    if failed then some ({ t with conn := some c }, 0, some TrackerError.sendAVLData)
    else
      let c := c.SetReadDeadline (some 10)
      let (c, r) := c.Read 4
      match r with
      | none => some ({ t with conn := some c }, 0, some TrackerError.readAVLResponse)
      | some resp =>
        let c := c.SetReadDeadline none
        let accepted : Int := (beUint resp : Int)
        some ({ t with conn := some c }, accepted, none)

/-- The bytes the peer has sent on a connection and that are still to be
read, in order, whatever the pieces they arrive in. -/
def Conn.pendingBytes (c : Conn) : List Byte :=
  (c.inbound.map (fun chunk => chunk.getD [])).flatten

/-- A connection on which the write succeeds and the acknowledgment
`00 00 00 01` arrives in two pieces, three bytes and then one. -/
def splitAckConn : Conn :=
  { events := [], writeFails := [false], inbound := [some [0, 0, 0], some [1]] }

/-! ## Package `simulation`: generators -/

/-- Go `t.Add(d)` for a duration `d` in nanoseconds. -/
def Time.Add (t : Time) (d : Int) : Time := { unixNano := t.unixNano + d }

/-- Go `time.Minute`, in nanoseconds. -/
def Minute : Int := 60000000000

/-- Number of buffered records. -/
def BufferSize : Nat := 30

/-- Distance in time between two buffered records. -/
def BufferInterval : Int := 10 * Minute

/-- Buffer is a GPSGenerator that simulates a device flushing its offline
buffer. -/
structure Buffer where
  Lat : Float64
  Lon : Float64
  Altitude : Int
  Heading : Int
  queue : List Time
  index : Nat

/-- NewBuffer creates a Buffer generator pre-loaded with 30 historical
timestamps; `now` is the reading of `time.Now()`. -/
def NewBuffer (now : Time) (lat lon : Float64) (altitude heading : Int) : Buffer :=
  { Lat := lat, Lon := lon, Altitude := altitude, Heading := heading,
    queue := (List.range BufferSize).map (fun i =>
      let offset : Int := ((BufferSize : Int) - 1 - (i : Int)) * BufferInterval
      now.Add (-offset)),
    index := 0 }

/-- One call of `Next` on a Buffer; `now` is what `time.Now()` reads during
the call. -/
def Buffer.Next (b : Buffer) (now : Time) : Buffer × GPSData :=
  let (b, ts) :=
    if b.index < b.queue.length then
      ({ b with index := b.index + 1 }, b.queue.getD b.index now)
    else (b, now)
  (b, { Timestamp := ts, Latitude := b.Lat, Longitude := b.Lon, Altitude := b.Altitude,
        Speed := 0, Heading := b.Heading, Satellites := 12, Priority := 0 })

/-- Successive calls of `Next` on a Buffer, one per clock reading, and the
reports they return in order. -/
def Buffer.calls (b : Buffer) : List Time → List GPSData
  | [] => []
  | now :: later => (b.Next now).2 :: Buffer.calls (b.Next now).1 later

/-- RecentFirst simulates a device flushing its offline buffer but sending
the most recent position first. -/
structure RecentFirst where
  Lat : Float64
  Lon : Float64
  Altitude : Int
  Heading : Int
  queue : List Time
  index : Nat

/-- NewRecentFirst creates a RecentFirst generator pre-loaded with 30
timestamps; `now` is the reading of `time.Now()`. -/
def NewRecentFirst (now : Time) (lat lon : Float64) (altitude heading : Int) : RecentFirst :=
  { Lat := lat, Lon := lon, Altitude := altitude, Heading := heading,
    queue := now :: ((List.range (BufferSize - 1)).map (fun k =>
      let i : Int := (k : Int) + 1
      let offset : Int := ((BufferSize : Int) - 1 - i) * BufferInterval
      now.Add (-offset))),
    index := 0 }

/-- One call of `Next` on a RecentFirst; `now` is what `time.Now()` reads
during the call. -/
def RecentFirst.Next (r : RecentFirst) (now : Time) : RecentFirst × GPSData :=
  let (r, ts) :=
    if r.index < r.queue.length then
      ({ r with index := r.index + 1 }, r.queue.getD r.index now)
    else (r, now)
  (r, { Timestamp := ts, Latitude := r.Lat, Longitude := r.Lon, Altitude := r.Altitude,
        Speed := 0, Heading := r.Heading, Satellites := 12, Priority := 0 })

/-- Successive calls of `Next` on a RecentFirst, one per clock reading, and
the reports they return in order. -/
def RecentFirst.calls (r : RecentFirst) : List Time → List GPSData
  | [] => []
  | now :: later => (r.Next now).2 :: RecentFirst.calls (r.Next now).1 later

/-! ## Package `main`: start-up validation -/

/-- The command-line flags `main` validates before it builds the tracker:
Go strings, carried as their bytes. -/
structure Flags where
  server : List Byte
  imei : List Byte
  verbose : Bool

/-- The start-up checks of `main` on the server and the identifier: the exit
status when a check fails (the error is printed and the process exits), else
the identifier handed on to the tracker. -/
def validateFlags (f : Flags) : Except Nat (List Byte) :=
  if f.server = [] then Except.error 1
  else if f.imei = [] ∨ f.imei.length ≠ 15 then Except.error 1
  else Except.ok f.imei

/-- Whether a byte is an ASCII decimal digit. -/
def isDigit (b : Byte) : Bool := 0x30 ≤ b.val && b.val ≤ 0x39

/-- The flags `--server=localhost:5027 --imei=abcdefghijklmno`. -/
def lettersFlags : Flags :=
  { server := [108, 111, 99, 97, 108, 104, 111, 115, 116, 58, 53, 48, 50, 55],
    imei := [97, 98, 99, 100, 101, 102, 103, 104, 105, 106, 107, 108, 109, 110, 111],
    verbose := false }

/-! ## Package `device`: the session

In this section the stop channel is closed, if at all, before `Run` is called
or during one of its blocking operations. A later section gives the methods
again with the channel closed at any moment. -/

/-- Connect establishes a TCP connection to the server; `dialed` is the
outcome of `net.DialTimeout`, `none` for a failure. -/
def Tracker.Connect (t : Tracker) (dialed : Option Conn) : Tracker × Option TrackerError :=
  match dialed with
  | none => (t, some TrackerError.connect)
  | some c => ({ t with conn := some c }, none)

/-- Close closes the TCP connection; the second component is the connection
that was closed, if there was one. -/
def Tracker.Close (t : Tracker) : Tracker × Option Conn :=
  match t.conn with
  | some c =>
    ({ t with conn := none }, some { c with events := c.events ++ [ConnEvent.close] })
  | none => (t, none)

/-- Why a data packet is sent: as the first send of a send loop, for a tick
the loop waited for, or for a tick that was already pending when the loop came
to its `select` with the stop channel closed. -/
inductive SendCause where
  | first
  | tick
  | pendingTick
  deriving DecidableEq

/-- The case the `select` of the send loop takes. -/
inductive TimerOutcome where
  | tick
  | pendingTick
  | stop
  deriving DecidableEq

/-- Where `t.Close()` is called from. -/
inductive CloseSite where
  | authFailure
  | afterSendLoop
  deriving DecidableEq

/-- What `Run` does, step by step. `signalled` tells whether the stop channel
was already closed when the step began.

* `connect`: `Connect` is called; `connOpen` tells whether `conn` was non-nil
  then, `ok` whether the dial succeeded;
* `sendIMEI`: `SendIMEI` is called, with the error it returned;
* `next`: `sendOne` begins and calls `Next` on the position source, for the
  `index`-th time;
* `sendAVLData`: `SendAVLData` is called, with the error it returned;
* `close`: `Close` is called;
* `stopCheck`: the `select` with a `default` case after the send loop;
* `wait`: `waitOrStop` is called; `elapsed` is its result;
* `timer`: the `select` of the send loop, with the case taken. -/
inductive RunEvent where
  | connect (signalled connOpen ok : Bool)
  | sendIMEI (signalled : Bool) (err : Option TrackerError)
  | next (signalled : Bool) (cause : SendCause) (index : Nat)
  | sendAVLData (signalled : Bool) (err : Option TrackerError)
  | close (site : CloseSite) (wasOpen : Bool)
  | stopCheck (signalled : Bool)
  | wait (seconds : Nat) (signalled elapsed : Bool)
  | timer (signalled : Bool) (outcome : TimerOutcome)
  deriving DecidableEq

/-- The tracker together with its surroundings during `Run`.

* `gen` and `genCalls`: the position source, as the report its n-th call of
  `Next` returns, and the number of calls made so far;
* `dials`: the outcomes of the coming connect attempts;
* `stopped`: whether the stop channel is closed; `signalIn = some k` says it
  will be closed during the `(k+1)`-th blocking operation from now (a connect,
  an authentication, a data send, a wait);
* `pendingTicks`: for each coming `select` of the send loop that is entered with
  the stop channel closed, whether a tick is pending as well and is the case
  taken (Go picks among ready cases at random);
* `closed`: the connections closed so far; `trace`: the steps taken so far. -/
structure Session where
  tracker : Tracker
  impl : Float64 → Int
  gen : Nat → GPSData
  genCalls : Nat
  dials : List (Option Conn)
  stopped : Bool
  signalIn : Option Nat
  pendingTicks : List Bool
  closed : List Conn
  trace : List RunEvent

/-- One blocking operation goes by: the stop channel is closed during it when
its turn has come. -/
def Session.pass (s : Session) : Session :=
  match s.signalIn with
  | some 0 => { s with stopped := true, signalIn := none }
  | some (k + 1) => { s with signalIn := some k }
  | none => s

/-- A step is appended to the trace. -/
def Session.log (s : Session) (e : RunEvent) : Session :=
  { s with trace := s.trace ++ [e] }

/-- `t.Connect()` within a session. -/
def Session.Connect (s : Session) : Session × Option TrackerError :=
  let r := s.tracker.Connect (s.dials.headD none)
  let s1 := (s.log (RunEvent.connect s.stopped s.tracker.conn.isSome r.2.isNone)).pass
  ({ s1 with tracker := r.1, dials := s.dials.tail }, r.2)

/-- `t.Close()` within a session. -/
def Session.Close (s : Session) (site : CloseSite) : Session :=
  let r := s.tracker.Close
  { s.log (RunEvent.close site s.tracker.conn.isSome) with
    tracker := r.1, closed := s.closed ++ r.2.toList }

/-- The outcome of a loop of the model: it returned, it is still running when
the fuel ran out, or the program panicked. -/
inductive Status where
  | returned
  | running
  | panicked
  deriving DecidableEq

/-- The method connectAndAuthenticate: `none` for a panic, else the session
afterwards and the error returned. -/
def Session.connectAndAuthenticate (s : Session) : Option (Session × Option TrackerError) :=
  match s.Connect with
  | (s1, some err) => some (s1, some err)
  | (s1, none) =>
    match s1.tracker.SendIMEI with
    | none => none
    | some (t, some err) =>
      some (({ s1.log (RunEvent.sendIMEI s1.stopped (some err)) with tracker := t }).pass.Close
        CloseSite.authFailure, some err)
    | some (t, none) =>
      some (({ s1.log (RunEvent.sendIMEI s1.stopped none) with tracker := t }).pass, none)

/-- The method sendOne: it generates a GPS point, encodes it, and sends it.
The result is `none` for a panic, else whether the send succeeded. -/
def Session.sendOne (s : Session) (cause : SendCause) : Session × Option Bool :=
  let gps := s.gen s.genCalls
  let s1 := { s.log (RunEvent.next s.stopped cause s.genCalls) with genCalls := s.genCalls + 1 }
  let record := EncodeAVLRecord s.impl gps
  let packet := BuildAVLPacket [record]
  match s1.tracker.SendAVLData packet with
  | none => (s1, none)
  | some (t, _, err) =>
    (({ s1.log (RunEvent.sendAVLData s1.stopped err) with tracker := t }).pass,
      some err.isNone)

/-- The method waitOrStop: it returns true if the wait completed, false if
stop was signalled. A channel that is already closed wins over a timer that
has just been started. Here the channel is closed, if at all, while the
`select` blocks; `waitOrStopAsync` lets it be closed after the timer case has
been taken as well. -/
def Session.waitOrStop (s : Session) (seconds : Nat) : Session × Bool :=
  if s.stopped then (s.log (RunEvent.wait seconds true false), false)
  else
    let s1 := s.pass
    ({ s1 with trace := s.trace ++ [RunEvent.wait seconds false (!s1.stopped)] }, !s1.stopped)

/-- The `for { select { ... } }` of sendLoop, for at most `fuel` rounds.
Here the stop channel is closed, if at all, while the `select` blocks or a send
is in flight; `sendLoopFromAsync` lets it be closed after the ticker case has
been taken as well. -/
def Session.sendLoopFrom : Nat → Session → Session × Status
  | 0, s => (s, Status.running)
  | fuel + 1, s =>
    if s.stopped then
      if s.pendingTicks.headD false then
        let s1 := { s.log (RunEvent.timer true TimerOutcome.pendingTick) with
          pendingTicks := s.pendingTicks.tail }
        match s1.sendOne SendCause.pendingTick with
        | (s2, none) => (s2, Status.panicked)
        | (s2, some false) => (s2, Status.returned)
        | (s2, some true) => Session.sendLoopFrom fuel s2
      else
        ({ s.log (RunEvent.timer true TimerOutcome.stop) with
          pendingTicks := s.pendingTicks.tail }, Status.returned)
    else
      let s1 := s.pass
      if s1.stopped then (s1.log (RunEvent.timer false TimerOutcome.stop), Status.returned)
      else
        match (s1.log (RunEvent.timer false TimerOutcome.tick)).sendOne SendCause.tick with
        | (s2, none) => (s2, Status.panicked)
        | (s2, some false) => (s2, Status.returned)
        | (s2, some true) => Session.sendLoopFrom fuel s2

/-- The method sendLoop: the first data point is sent immediately, then one
per tick. -/
def Session.sendLoop (fuel : Nat) (s : Session) : Session × Status :=
  match s.sendOne SendCause.first with
  | (s1, none) => (s1, Status.panicked)
  | (s1, some false) => (s1, Status.returned)
  | (s1, some true) => s1.sendLoopFrom fuel

/-- One round of the `for` loop of Run: `none` when the loop goes round
again, else how Run ends. -/
def Session.runOnce (fuel : Nat) (s : Session) : Session × Option Status :=
  match s.connectAndAuthenticate with
  | none => (s, some Status.panicked)
  | some (s1, some _) =>
    match s1.waitOrStop 5 with
    | (s2, false) => (s2, some Status.returned)
    | (s2, true) => (s2, none)
  | some (s1, none) =>
    match s1.sendLoop fuel with
    | (s2, Status.returned) =>
      let s3 := s2.Close CloseSite.afterSendLoop
      if s3.stopped then (s3.log (RunEvent.stopCheck true), some Status.returned)
      else
        match (s3.log (RunEvent.stopCheck false)).waitOrStop 5 with
        | (s4, false) => (s4, some Status.returned)
        | (s4, true) => (s4, none)
    | (s2, st) => (s2, some st)

/-- Run starts the main loop: it connects, authenticates, sends GPS data at
the interval and reconnects on failure, until stop is signalled. `fuel` bounds
the number of rounds of each loop. -/
def Session.Run : Nat → Session → Session × Status
  | 0, s => (s, Status.running)
  | fuel + 1, s =>
    match s.runOnce fuel with
    | (s1, some st) => (s1, st)
    | (s1, none) => Session.Run fuel s1

/-- A session at the start of a run: no connection, nothing done yet. -/
def Session.start (imei : List Byte) (impl : Float64 → Int) (gen : Nat → GPSData)
    (dials : List (Option Conn)) (stopped : Bool) (signalIn : Option Nat)
    (pendingTicks : List Bool) : Session :=
  { tracker := { Server := "localhost:5027", IMEI := imei, Verbose := false, conn := none },
    impl := impl, gen := gen, genCalls := 0, dials := dials, stopped := stopped,
    signalIn := signalIn, pendingTicks := pendingTicks, closed := [], trace := [] }

/-- The order of the steps of `Run`: whether step `b` may come right after
step `a`. -/
def RunEvent.mayFollow (a b : RunEvent) : Bool :=
  match a, b with
  | RunEvent.connect _ _ false, RunEvent.wait 5 sig el => !(sig && el)
  | RunEvent.connect _ _ true, RunEvent.sendIMEI _ _ => true
  | RunEvent.sendIMEI _ (some _), RunEvent.close CloseSite.authFailure true => true
  | RunEvent.sendIMEI _ none, RunEvent.next _ SendCause.first _ => true
  | RunEvent.next sig _ _, RunEvent.sendAVLData sig1 _ => sig == sig1
  | RunEvent.sendAVLData _ none, RunEvent.timer false TimerOutcome.tick => true
  | RunEvent.sendAVLData _ none, RunEvent.timer true TimerOutcome.pendingTick => true
  | RunEvent.sendAVLData _ none, RunEvent.timer _ TimerOutcome.stop => true
  | RunEvent.sendAVLData _ (some _), RunEvent.close CloseSite.afterSendLoop true => true
  | RunEvent.timer false TimerOutcome.tick, RunEvent.next false SendCause.tick _ => true
  | RunEvent.timer true TimerOutcome.pendingTick,
      RunEvent.next true SendCause.pendingTick _ => true
  | RunEvent.timer _ TimerOutcome.stop, RunEvent.close CloseSite.afterSendLoop true => true
  | RunEvent.close CloseSite.authFailure _, RunEvent.wait 5 sig el => !(sig && el)
  | RunEvent.close CloseSite.afterSendLoop _, RunEvent.stopCheck _ => true
  | RunEvent.stopCheck false, RunEvent.wait 5 false _ => true
  | RunEvent.wait _ _ true, RunEvent.connect false _ _ => true
  | _, _ => false

/-- Whether `Run` may stop right after a step, and how: it returns after a
wait that stop cut short or after a stop check that found the channel closed;
the fuel of the model can run out before a connect or a `select`. -/
def RunEvent.mayEnd (a : RunEvent) (st : Status) : Bool :=
  match a, st with
  | RunEvent.wait _ _ false, Status.returned => true
  | RunEvent.stopCheck true, Status.returned => true
  | RunEvent.wait _ _ true, Status.running => true
  | RunEvent.sendAVLData _ none, Status.running => true
  | _, _ => false

/-- A connection that accepts the identifier and on which the first data
packet cannot be written. -/
def brokenConn : Conn :=
  { events := [], writeFails := [false, true], inbound := [some [1]] }

/-- A connection whose server answers the identifier with 0x00. -/
def rejectingConn : Conn :=
  { events := [], writeFails := [], inbound := [some [0]] }

/-- The identifier "123456789012345". -/
def sampleIMEI : List Byte := [49, 50, 51, 52, 53, 54, 55, 56, 57, 48, 49, 50, 51, 52, 53]

/-- Step `b` comes right after step `a` in the order of `Run`. -/
def RunEvent.Follows (a b : RunEvent) : Prop := a.mayFollow b = true

/-- Whether the send loop may stop right after a step, and how: it returns
after a failed send or when its `select` takes the stop case; the fuel of the
model can run out before a `select`. -/
def RunEvent.mayEndLoop (a : RunEvent) (st : Status) : Bool :=
  match a, st with
  | RunEvent.sendAVLData _ (some _), Status.returned => true
  | RunEvent.timer _ TimerOutcome.stop, Status.returned => true
  | RunEvent.sendAVLData _ none, Status.running => true
  | _, _ => false

/-- Whether a step is a connect attempt. -/
def RunEvent.isConnect : RunEvent → Bool
  | RunEvent.connect _ _ _ => true
  | _ => false

/-- Whether a step is a connect attempt that opened a connection. -/
def RunEvent.isOpened : RunEvent → Bool
  | RunEvent.connect _ _ true => true
  | _ => false

/-- Whether a connection answers the identifier with anything but acceptance:
the read fails or times out, or the byte read is not 0x01. -/
def Conn.rejectsIMEI (c : Conn) : Bool :=
  match c.inbound with
  | [] => true
  | none :: _ => true
  | some bs :: _ => bs.headD 0 != 0x01

/-- A run in which the first data packet cannot be written and stop is
signalled during the wait that follows. -/
def brokenSession : Session :=
  Session.start sampleIMEI amd64Indefinite (fun _ => scenarioReport)
    [some brokenConn, none] false (some 3) []

/-- The steps of `brokenSession`. -/
def brokenSteps : List RunEvent :=
  [RunEvent.connect false false true, RunEvent.sendIMEI false none,
    RunEvent.next false SendCause.first 0,
    RunEvent.sendAVLData false (some TrackerError.sendAVLData),
    RunEvent.close CloseSite.afterSendLoop true, RunEvent.stopCheck false,
    RunEvent.wait 5 false false]

/-- A run whose server answers the identifier with 0x00, and whose next
dial fails. -/
def rejectedSession : Session :=
  Session.start sampleIMEI amd64Indefinite (fun _ => scenarioReport)
    [some rejectingConn, none] false none []

/-- The steps of two rounds of `rejectedSession`. -/
def rejectedSteps : List RunEvent :=
  [RunEvent.connect false false true,
    RunEvent.sendIMEI false (some (TrackerError.imeiRejected 0)),
    RunEvent.close CloseSite.authFailure true, RunEvent.wait 5 false true,
    RunEvent.connect false false false, RunEvent.wait 5 false true]

/-! ## Package `device`: the state of the connection along the trace -/

/-- Whether `conn` is non-nil after a step, given whether it was before: a
successful connect sets it, `Close` leaves it nil. -/
def RunEvent.connAfter (e : RunEvent) (wasOpen : Bool) : Bool :=
  match e with
  | RunEvent.connect _ _ ok => wasOpen || ok
  | RunEvent.close _ _ => false
  | _ => wasOpen

/-- Whether `conn` is non-nil after a list of steps. -/
def RunEvent.connAfterAll : Bool → List RunEvent → Bool
  | wasOpen, [] => wasOpen
  | wasOpen, e :: rest => RunEvent.connAfterAll (e.connAfter wasOpen) rest

/-- Whether the `connOpen` or `wasOpen` flag a step carries agrees with the
state of `conn` before the step. -/
def RunEvent.flagOk (e : RunEvent) (wasOpen : Bool) : Bool :=
  match e with
  | RunEvent.connect _ o _ => o == wasOpen
  | RunEvent.close _ w => w == wasOpen
  | _ => true

/-- Whether the flags of all steps of a list agree with the state of `conn`,
followed from step to step. -/
def RunEvent.flagsOk : Bool → List RunEvent → Bool
  | _, [] => true
  | wasOpen, e :: rest => e.flagOk wasOpen && RunEvent.flagsOk (e.connAfter wasOpen) rest

/-- Whether a step is a `Close` of an open connection. -/
def RunEvent.isClosing : RunEvent → Bool
  | RunEvent.close _ true => true
  | _ => false

/-- Whether a step is a connect attempt or a `Close`. -/
def RunEvent.touchesConn : RunEvent → Bool
  | RunEvent.connect _ _ _ => true
  | RunEvent.close _ _ => true
  | _ => false

/-- The steps `evs` lead from session `s` to session `s1`, and the state of
the connection follows them: the flags of the steps agree with `conn`; `conn` is
non-nil at the end exactly when the steps leave it so; and every `Close` of an
open connection has put one connection on the list of closed connections, with
the connection's own `Close` as the last operation on it. -/
def Session.Replays (s s1 : Session) (evs : List RunEvent) : Prop :=
  s1.trace = s.trace ++ evs ∧
  RunEvent.flagsOk s.tracker.conn.isSome evs = true ∧
  s1.tracker.conn.isSome = RunEvent.connAfterAll s.tracker.conn.isSome evs ∧
  ∃ closedNow : List Conn, s1.closed = s.closed ++ closedNow ∧
    closedNow.length = (evs.filter RunEvent.isClosing).length ∧
    ∀ c ∈ closedNow, c.events.getLast? = some ConnEvent.close

/-! ## Package `device`: the session, with the stop channel closed at any moment

`close(stop)` runs in another goroutine, so the stop channel can be closed not
only while `Run` is blocked in an operation but also between two steps: right
after `Next` has returned, right after a `select` has taken a timer case, and
right after the stop check has taken its `default` case. In the methods below
each of these points is a call of `pass`, so `signalIn` counts them along with
the blocking operations. At every other point between two steps, closing the
channel has the effect of closing it during the operation before. -/

/-- The method sendOne, with the stop channel closed at any moment. -/
def Session.sendOneAsync (s : Session) (cause : SendCause) : Session × Option Bool :=
  let gps := s.gen s.genCalls
  let s1 := ({ s.log (RunEvent.next s.stopped cause s.genCalls) with
    genCalls := s.genCalls + 1 }).pass
  let record := EncodeAVLRecord s.impl gps
  let packet := BuildAVLPacket [record]
  match s1.tracker.SendAVLData packet with
  | none => (s1, none)
  | some (t, _, err) =>
    (({ s1.log (RunEvent.sendAVLData s1.stopped err) with tracker := t }).pass,
      some err.isNone)

/-- The method waitOrStop, with the stop channel closed at any moment: after
the `select` has taken the timer case, the channel can still be closed before
the caller takes its next step. -/
def Session.waitOrStopAsync (s : Session) (seconds : Nat) : Session × Bool :=
  if s.stopped then (s.log (RunEvent.wait seconds true false), false)
  else
    let s1 := s.pass
    if s1.stopped then (s1.log (RunEvent.wait seconds false false), false)
    else ((s1.log (RunEvent.wait seconds false true)).pass, true)

/-- The `for { select { ... } }` of sendLoop, with the stop channel closed at
any moment: after the `select` has taken the ticker case, the channel can still
be closed before `sendOne` begins. -/
def Session.sendLoopFromAsync : Nat → Session → Session × Status
  | 0, s => (s, Status.running)
  | fuel + 1, s =>
    if s.stopped then
      if s.pendingTicks.headD false then
        let s1 := { s.log (RunEvent.timer true TimerOutcome.pendingTick) with
          pendingTicks := s.pendingTicks.tail }
        match s1.sendOneAsync SendCause.pendingTick with
        | (s2, none) => (s2, Status.panicked)
        | (s2, some false) => (s2, Status.returned)
        | (s2, some true) => Session.sendLoopFromAsync fuel s2
      else
        ({ s.log (RunEvent.timer true TimerOutcome.stop) with
          pendingTicks := s.pendingTicks.tail }, Status.returned)
    else
      let s1 := s.pass
      if s1.stopped then (s1.log (RunEvent.timer false TimerOutcome.stop), Status.returned)
      else
        match (s1.log (RunEvent.timer false TimerOutcome.tick)).pass.sendOneAsync
          SendCause.tick with
        | (s2, none) => (s2, Status.panicked)
        | (s2, some false) => (s2, Status.returned)
        | (s2, some true) => Session.sendLoopFromAsync fuel s2

/-- The method sendLoop, with the stop channel closed at any moment. -/
def Session.sendLoopAsync (fuel : Nat) (s : Session) : Session × Status :=
  match s.sendOneAsync SendCause.first with
  | (s1, none) => (s1, Status.panicked)
  | (s1, some false) => (s1, Status.returned)
  | (s1, some true) => s1.sendLoopFromAsync fuel

/-- One round of the `for` loop of Run, with the stop channel closed at any
moment: after the stop check has taken its `default` case, the channel can
still be closed before `waitOrStop` is called. -/
def Session.runOnceAsync (fuel : Nat) (s : Session) : Session × Option Status :=
  match s.connectAndAuthenticate with
  | none => (s, some Status.panicked)
  | some (s1, some _) =>
    match s1.waitOrStopAsync 5 with
    | (s2, false) => (s2, some Status.returned)
    | (s2, true) => (s2, none)
  | some (s1, none) =>
    match s1.sendLoopAsync fuel with
    | (s2, Status.returned) =>
      let s3 := s2.Close CloseSite.afterSendLoop
      if s3.stopped then (s3.log (RunEvent.stopCheck true), some Status.returned)
      else
        match (s3.log (RunEvent.stopCheck false)).pass.waitOrStopAsync 5 with
        | (s4, false) => (s4, some Status.returned)
        | (s4, true) => (s4, none)
    | (s2, st) => (s2, some st)

/-- The method Run, with the stop channel closed at any moment. `fuel`
bounds the number of rounds of each loop. -/
def Session.RunAsync : Nat → Session → Session × Status
  | 0, s => (s, Status.running)
  | fuel + 1, s =>
    match s.runOnceAsync fuel with
    | (s1, some st) => (s1, st)
    | (s1, none) => Session.RunAsync fuel s1

/-- The order of the steps of `RunAsync`: whether step `b` may come right
after step `a`. A step that follows a wait that elapsed, a tick that was taken
or the call of `Next` may begin with the stop channel closed. -/
def RunEvent.mayFollowAsync (a b : RunEvent) : Bool :=
  match a, b with
  | RunEvent.connect _ _ false, RunEvent.wait 5 sig el => !(sig && el)
  | RunEvent.connect _ _ true, RunEvent.sendIMEI _ _ => true
  | RunEvent.sendIMEI _ (some _), RunEvent.close CloseSite.authFailure true => true
  | RunEvent.sendIMEI _ none, RunEvent.next _ SendCause.first _ => true
  | RunEvent.next sig _ _, RunEvent.sendAVLData sig1 _ => !sig || sig1
  | RunEvent.sendAVLData _ none, RunEvent.timer false TimerOutcome.tick => true
  | RunEvent.sendAVLData _ none, RunEvent.timer true TimerOutcome.pendingTick => true
  | RunEvent.sendAVLData _ none, RunEvent.timer _ TimerOutcome.stop => true
  | RunEvent.sendAVLData _ (some _), RunEvent.close CloseSite.afterSendLoop true => true
  | RunEvent.timer false TimerOutcome.tick, RunEvent.next _ SendCause.tick _ => true
  | RunEvent.timer true TimerOutcome.pendingTick,
      RunEvent.next true SendCause.pendingTick _ => true
  | RunEvent.timer _ TimerOutcome.stop, RunEvent.close CloseSite.afterSendLoop true => true
  | RunEvent.close CloseSite.authFailure _, RunEvent.wait 5 sig el => !(sig && el)
  | RunEvent.close CloseSite.afterSendLoop _, RunEvent.stopCheck _ => true
  | RunEvent.stopCheck false, RunEvent.wait 5 sig el => !(sig && el)
  | RunEvent.wait _ false true, RunEvent.connect _ _ _ => true
  | _, _ => false

/-- Step `b` comes right after step `a` in the order of `RunAsync`. -/
def RunEvent.FollowsAsync (a b : RunEvent) : Prop := a.mayFollowAsync b = true

/-- The instant 2023-11-14 22:13:20 UTC. -/
def sampleNow : Time := { unixNano := 1700000000000000000 }

/-- Thirty clock readings, one second after `sampleNow` each. -/
def sampleClock : List Time := List.replicate 30 { unixNano := 1700000001000000000 }

/-- The timestamps of a list of reports in whole minutes after `sampleNow`. -/
def minutesAfterSampleNow (reports : List GPSData) : List Int :=
  reports.map (fun r => (r.Timestamp.unixNano - sampleNow.unixNano) / Minute)

/-! # Theorems -/

/-! ## Checksum -/

theorem crcShift_eq_crc16ArcBit (x : Nat) : crcShift x = crc16ArcBit x := by
  unfold crcShift crc16ArcBit
  rw [Nat.and_one_is_mod, Nat.shiftRight_eq_div_pow]
  rcases Nat.mod_two_eq_zero_or_one x with h | h <;> simp [h, polynomial]

theorem crc16ArcBit_eq (x : Nat) :
    crc16ArcBit x = (x / 2) ^^^ (if x % 2 = 1 then 0xA001 else 0) := by
  unfold crc16ArcBit
  rcases Nat.mod_two_eq_zero_or_one x with h | h <;> simp [h]

theorem xor_left_comm3 (a b c : Nat) : a ^^^ (b ^^^ c) = b ^^^ (a ^^^ c) := by
  rw [← Nat.xor_assoc, Nat.xor_comm a b, Nat.xor_assoc]

/-- The bit step is linear over XOR. -/
theorem crc16ArcBit_xor (x y : Nat) :
    crc16ArcBit (x ^^^ y) = crc16ArcBit x ^^^ crc16ArcBit y := by
  simp only [crc16ArcBit_eq, Nat.xor_div_two, Nat.xor_mod_two_eq]
  have hadd : (x + y) % 2 = (x % 2 + y % 2) % 2 := Nat.add_mod x y 2
  rw [hadd]
  rcases Nat.mod_two_eq_zero_or_one x with hx | hx <;>
  rcases Nat.mod_two_eq_zero_or_one y with hy | hy <;>
  simp [hx, hy, Nat.xor_assoc, xor_left_comm3 40961]
  exact Nat.xor_comm _ _

theorem crc16ArcBit_iterate_xor (k x y : Nat) :
    crc16ArcBit^[k] (x ^^^ y) = crc16ArcBit^[k] x ^^^ crc16ArcBit^[k] y := by
  induction k generalizing x y with
  | zero => rfl
  | succ k ih => simp only [Function.iterate_succ, Function.comp_apply, crc16ArcBit_xor, ih]

/-- A register whose low `k` bits are clear just moves right in `k` bit steps. -/
theorem crc16ArcBit_iterate_shiftLeft (k h : Nat) : crc16ArcBit^[k] (h <<< k) = h := by
  induction k with
  | zero => simp
  | succ k ih =>
    rw [Function.iterate_succ, Function.comp_apply, crc16ArcBit_eq]
    have h1 : h <<< (k + 1) = 2 * (h <<< k) := by
      simp only [Nat.shiftLeft_eq, pow_succ]; ring
    rw [h1]
    simpa using ih

theorem split_low_bits (k x : Nat) : x = ((x >>> k) <<< k) ^^^ (x % 2 ^ k) := by
  apply Nat.eq_of_testBit_eq
  intro i
  simp only [Nat.testBit_xor, Nat.testBit_shiftLeft, Nat.testBit_shiftRight,
    Nat.testBit_mod_two_pow]
  by_cases h : i < k
  · simp [h, Nat.not_le.mpr h]
  · have h2 : k ≤ i := Nat.le_of_not_lt h
    simp [h, h2, Nat.add_sub_cancel' h2]

theorem crc16Table_getD (i : Nat) (h : i < 256) :
    crc16Table.getD i 0 = crc16ArcBit^[8] i := by
  have hfun : crcShift = crc16ArcBit := funext crcShift_eq_crc16ArcBit
  simp [crc16Table, crc16TableEntry, hfun, List.getD_eq_getElem?_getD, List.getElem?_map,
    List.getElem?_range h]

/-- One table lookup does the work of eight bit steps. -/
theorem crcUpdate_eq (crc : Nat) (b : Byte) : crcUpdate crc b = crc16ArcByte crc b := by
  have hlo : crc % 256 < 2 ^ 8 := Nat.mod_lt _ (by decide)
  have hidx : (crc % 256) ^^^ b.val < 256 := Nat.xor_lt_two_pow hlo b.isLt
  unfold crcUpdate crc16ArcByte
  rw [crc16Table_getD _ hidx]
  conv_rhs =>
    rw [split_low_bits 8 crc, Nat.xor_assoc, crc16ArcBit_iterate_xor,
      crc16ArcBit_iterate_shiftLeft]
  rfl

theorem CalculateCRC16_eq_fold (data : List Byte) : CalculateCRC16 data = crc16Arc data := by
  unfold CalculateCRC16 crc16Arc
  congr 1
  funext crc b
  exact crcUpdate_eq crc b

set_option maxRecDepth 100000 in
theorem crc16Arc_check_value :
    crc16Arc [0x31, 0x32, 0x33, 0x34, 0x35, 0x36, 0x37, 0x38, 0x39] = 0xBB3D := by
  decide

/-- C1: for every byte sequence the table-driven `CalculateCRC16` equals the
reference bit-by-bit CRC-16/ARC (reflected polynomial 0xA001, initial value 0,
no final XOR), and on the ASCII bytes of "123456789" it gives 0xBB3D. -/
theorem CalculateCRC16_eq_crc16Arc :
    (∀ b : List Byte, CalculateCRC16 b = crc16Arc b) ∧
    CalculateCRC16 [0x31, 0x32, 0x33, 0x34, 0x35, 0x36, 0x37, 0x38, 0x39] = 0xBB3D := by
  refine ⟨CalculateCRC16_eq_fold, ?_⟩
  rw [CalculateCRC16_eq_fold]
  exact crc16Arc_check_value

theorem crc16ArcBit_lt (x : Nat) (h : x < 65536) : crc16ArcBit x < 65536 := by
  unfold crc16ArcBit
  have h2 : x / 2 < 2 ^ 16 := by omega
  split
  · exact Nat.xor_lt_two_pow h2 (by decide)
  · omega

theorem crc16ArcBit_iterate_lt (k x : Nat) (h : x < 65536) : crc16ArcBit^[k] x < 65536 := by
  induction k generalizing x with
  | zero => simpa using h
  | succ k ih =>
    rw [Function.iterate_succ, Function.comp_apply]
    exact ih _ (crc16ArcBit_lt x h)

theorem crc16ArcByte_lt (crc : Nat) (b : Byte) (h : crc < 65536) :
    crc16ArcByte crc b < 65536 := by
  unfold crc16ArcByte
  apply crc16ArcBit_iterate_lt
  have hb : b.val < 2 ^ 16 := lt_trans b.isLt (by decide)
  exact Nat.xor_lt_two_pow (n := 16) h hb

theorem foldl_crc16ArcByte_lt (data : List Byte) (crc : Nat) (h : crc < 65536) :
    data.foldl crc16ArcByte crc < 65536 := by
  induction data generalizing crc with
  | nil => simpa using h
  | cons b bs ih => exact ih _ (crc16ArcByte_lt crc b h)

/-- The checksum fits sixteen bits. -/
theorem CalculateCRC16_lt (data : List Byte) : CalculateCRC16 data < 65536 := by
  rw [CalculateCRC16_eq_fold]
  exact foldl_crc16ArcByte_lt data 0 (by decide)

/-! ## Big-endian fields -/

theorem beUint_PutUint16 (v : Nat) (h : v < 65536) : beUint (PutUint16 v) = v := by
  simp only [beUint, PutUint16, toByte, List.foldl, Nat.shiftRight_eq_div_pow]
  omega

theorem beUint_PutUint32 (v : Nat) (h : v < 4294967296) : beUint (PutUint32 v) = v := by
  simp only [beUint, PutUint32, toByte, List.foldl, Nat.shiftRight_eq_div_pow]
  omega

theorem beUint_PutUint64 (v : Nat) (h : v < 18446744073709551616) :
    beUint (PutUint64 v) = v := by
  simp only [beUint, PutUint64, toByte, List.foldl, Nat.shiftRight_eq_div_pow]
  omega

theorem PutUint32_length (v : Nat) : (PutUint32 v).length = 4 := rfl

theorem PutUint32_take_two (v : Nat) (h : v < 65536) : (PutUint32 v).take 2 = [0, 0] := by
  have h1 : v >>> 24 = 0 := by rw [Nat.shiftRight_eq_div_pow]; omega
  have h2 : v >>> 16 = 0 := by rw [Nat.shiftRight_eq_div_pow]; omega
  simp [PutUint32, h1, h2, toByte]

/-! ## Packet framer -/

theorem foldl_append_data (records : List AVLRecord) (init : List Byte) :
    records.foldl (fun d r => d ++ r.Data) init =
      init ++ (records.map (fun r => r.Data)).flatten := by
  induction records generalizing init with
  | nil => simp
  | cons r rs ih => simp [ih]

/-- The packet is the preamble, the length field, the payload span and the
checksum field, in this order. -/
theorem BuildAVLPacket_eq (records : List AVLRecord) :
    BuildAVLPacket records =
      [0, 0, 0, 0] ++ PutUint32 ((payloadSpan records).length % 4294967296) ++
        payloadSpan records ++ PutUint32 (CalculateCRC16 (payloadSpan records)) := by
  simp [BuildAVLPacket, payloadSpan, foldl_append_data]

theorem payloadSpan_length (records : List AVLRecord) :
    (payloadSpan records).length = 2 + (records.map (fun r => r.Data.length)).sum + 1 := by
  simp [payloadSpan, List.length_flatten, Function.comp_def]
  omega

theorem BuildAVLPacket_length (records : List AVLRecord) :
    (BuildAVLPacket records).length = (payloadSpan records).length + 12 := by
  rw [BuildAVLPacket_eq]
  simp [PutUint32_length]
  omega

theorem BuildAVLPacket_payload (rs : List AVLRecord) :
    ((BuildAVLPacket rs).drop 8).take ((BuildAVLPacket rs).length - 12) = payloadSpan rs := by
  rw [BuildAVLPacket_length, BuildAVLPacket_eq]
  have h8 : ([0, 0, 0, 0] ++ PutUint32 ((payloadSpan rs).length % 4294967296) : List Byte).length
      = 8 := by simp [PutUint32_length]
  rw [List.append_assoc, List.drop_append_of_le_length (le_of_eq h8.symm),
    List.drop_of_length_le (le_of_eq h8), List.nil_append, Nat.add_sub_cancel,
    List.take_left']
  rfl

theorem BuildAVLPacket_trailer (rs : List AVLRecord) :
    (BuildAVLPacket rs).drop ((BuildAVLPacket rs).length - 4) =
      PutUint32 (CalculateCRC16 (payloadSpan rs)) := by
  rw [BuildAVLPacket_length, BuildAVLPacket_eq]
  have h : ([0, 0, 0, 0] ++ PutUint32 ((payloadSpan rs).length % 4294967296) ++
      payloadSpan rs : List Byte).length = (payloadSpan rs).length + 12 - 4 := by
    simp [PutUint32_length]; omega
  rw [← h, List.drop_left]

theorem BuildAVLPacket_lengthField (rs : List AVLRecord) :
    ((BuildAVLPacket rs).drop 4).take 4 =
      PutUint32 ((payloadSpan rs).length % 4294967296) := by
  rw [BuildAVLPacket_eq]
  simp [PutUint32]

/-- C2: the last four bytes of the packet, read as a big-endian unsigned
integer, are `CalculateCRC16` recomputed over the payload span (the bytes
between the length field and the last four bytes, which run from the codec
identifier to the second record count), and the upper two of them are zero.
This holds for every sequence of records, the non-empty ones included. -/
theorem BuildAVLPacket_checksum_matches (rs : List AVLRecord) :
    beUint ((BuildAVLPacket rs).drop ((BuildAVLPacket rs).length - 4)) =
        CalculateCRC16 (((BuildAVLPacket rs).drop 8).take ((BuildAVLPacket rs).length - 12)) ∧
      ((BuildAVLPacket rs).drop 8).take ((BuildAVLPacket rs).length - 12) =
        [0x08, toByte rs.length] ++ (rs.map (fun r => r.Data)).flatten ++ [toByte rs.length] ∧
      ((BuildAVLPacket rs).drop ((BuildAVLPacket rs).length - 4)).take 2 = [0, 0] := by
  have hcrc := CalculateCRC16_lt (payloadSpan rs)
  rw [BuildAVLPacket_payload, BuildAVLPacket_trailer]
  refine ⟨beUint_PutUint32 _ (by omega), rfl, PutUint32_take_two _ hcrc⟩

theorem BuildAVLPacket_lengthField_value (rs : List AVLRecord) :
    beUint (((BuildAVLPacket rs).drop 4).take 4) =
      (2 + (rs.map (fun r => r.Data.length)).sum + 1) % 4294967296 := by
  rw [BuildAVLPacket_lengthField, beUint_PutUint32 _ (Nat.mod_lt _ (by decide)),
    payloadSpan_length]

theorem single_record_length_sum (n : Nat) :
    (([AVLRecord.mk (List.replicate n 0)] : List AVLRecord).map
      (fun r => r.Data.length)).sum = n := by
  simp

/-- C3, as stated, fails: for one record of 4294967293 bytes the payload has
`2 ^ 32` bytes and the length field, a `uint32`, holds 0. -/
theorem BuildAVLPacket_lengthField_wraps :
    ([AVLRecord.mk (List.replicate 4294967293 0)] : List AVLRecord) ≠ [] ∧
    beUint (((BuildAVLPacket [AVLRecord.mk (List.replicate 4294967293 0)]).drop 4).take 4) ≠
      2 + (([AVLRecord.mk (List.replicate 4294967293 0)] : List AVLRecord).map
        (fun r => r.Data.length)).sum + 1 := by
  refine ⟨List.cons_ne_nil _ _, ?_⟩
  rw [BuildAVLPacket_lengthField_value, single_record_length_sum 4294967293]
  omega

/-- C3, amended: for records whose payload length `2 + (sum of the record
lengths) + 1` is below `2 ^ 32`, bytes 4..7 of the packet, read as a big-endian
unsigned integer, equal that length, which is the number of bytes from the
codec identifier to the second record count (the packet length minus 12). -/
theorem BuildAVLPacket_lengthField_exact (rs : List AVLRecord)
    (h : 2 + (rs.map (fun r => r.Data.length)).sum + 1 < 4294967296) :
    beUint (((BuildAVLPacket rs).drop 4).take 4) =
        2 + (rs.map (fun r => r.Data.length)).sum + 1 ∧
      beUint (((BuildAVLPacket rs).drop 4).take 4) = (BuildAVLPacket rs).length - 12 ∧
      (((BuildAVLPacket rs).drop 8).take ((BuildAVLPacket rs).length - 12)).length =
        (BuildAVLPacket rs).length - 12 := by
  rw [BuildAVLPacket_lengthField_value, Nat.mod_eq_of_lt h, BuildAVLPacket_payload,
    BuildAVLPacket_length, payloadSpan_length]
  refine ⟨rfl, by omega, by omega⟩

/-- C3, witness: one 30-byte record gives a length field of 33. -/
theorem BuildAVLPacket_lengthField_exact_witness :
    2 + (([AVLRecord.mk (List.replicate 30 0)] : List AVLRecord).map
        (fun r => r.Data.length)).sum + 1 = 33 ∧
    beUint (((BuildAVLPacket [AVLRecord.mk (List.replicate 30 0)]).drop 4).take 4) = 33 := by
  have h := BuildAVLPacket_lengthField_exact [AVLRecord.mk (List.replicate 30 0)]
    (by rw [single_record_length_sum 30]; decide)
  rw [single_record_length_sum 30] at h ⊢
  exact ⟨rfl, h.1⟩

/-- C4: for at most 255 records the packet is exactly four zero bytes, the
four-byte length field, the byte 0x08, a byte equal to the number of records,
the records' bytes in the order given, that count byte again, and the four-byte
checksum field; the codec byte is at offset 8. -/
theorem BuildAVLPacket_layout (rs : List AVLRecord) (h : rs.length ≤ 255) :
    ∃ count : Byte, count.val = rs.length ∧
      BuildAVLPacket rs =
        [0, 0, 0, 0] ++
        PutUint32 ((2 + (rs.map (fun r => r.Data.length)).sum + 1) % 4294967296) ++
        [0x08] ++ [count] ++ (rs.map (fun r => r.Data)).flatten ++ [count] ++
        PutUint32 (CalculateCRC16
          ([0x08] ++ [count] ++ (rs.map (fun r => r.Data)).flatten ++ [count])) ∧
      (BuildAVLPacket rs)[8]? = some 0x08 := by
  refine ⟨toByte rs.length, ?_, ?_, ?_⟩
  · show rs.length % 256 = rs.length
    omega
  · rw [BuildAVLPacket_eq, payloadSpan_length]
    simp [payloadSpan]
  · rw [BuildAVLPacket_eq]
    simp [PutUint32, payloadSpan]

/-- C4, witness: a packet of two records. -/
theorem BuildAVLPacket_layout_witness :
    ([AVLRecord.mk [1, 2], AVLRecord.mk [3]] : List AVLRecord).length ≤ 255 ∧
    ∃ count : Byte, count.val = 2 ∧
      BuildAVLPacket [AVLRecord.mk [1, 2], AVLRecord.mk [3]] =
        [0, 0, 0, 0] ++ PutUint32 6 ++ [0x08] ++ [count] ++ [1, 2, 3] ++ [count] ++
        PutUint32 (CalculateCRC16 ([0x08] ++ [count] ++ [1, 2, 3] ++ [count])) := by
  refine ⟨by decide, ?_⟩
  obtain ⟨c, hc, hp, _⟩ :=
    BuildAVLPacket_layout [AVLRecord.mk [1, 2], AVLRecord.mk [3]] (by decide)
  exact ⟨c, hc, hp⟩

/-! ## Record encoder -/

theorem buildGPSElement_length (impl : Float64 → Int) (gps : GPSData) :
    (buildGPSElement impl gps).length = 15 := by
  simp [buildGPSElement, PutUint32, PutUint16]

theorem EncodeAVLRecord_eq (impl : Float64 → Int) (gps : GPSData) :
    (EncodeAVLRecord impl gps).Data =
      PutUint64 (toUint64 gps.Timestamp.UnixMilli) ++ [gps.Priority] ++
        buildGPSElement impl gps ++ [0, 0, 0, 0, 0, 0] := by
  simp [EncodeAVLRecord, buildTimestamp, buildIOElement]

/-- C5: every position report, whatever its field values, encodes to a
record of exactly 30 bytes. -/
theorem EncodeAVLRecord_length (impl : Float64 → Int) (gps : GPSData) :
    (EncodeAVLRecord impl gps).Data.length = 30 := by
  rw [EncodeAVLRecord_eq]
  simp [PutUint64, buildGPSElement_length]

theorem toUint64_lt (x : Int) : toUint64 x < 18446744073709551616 := by
  unfold toUint64
  omega

theorem toUint64_wrapInt64 (x : Int) :
    (toUint64 (wrapInt64 x) : Int) = x % 18446744073709551616 := by
  unfold toUint64 wrapInt64
  omega

theorem toUint16_lt (x : Int) : toUint16 x < 65536 := by
  unfold toUint16
  omega

theorem toUint16_cast (x : Int) : (toUint16 x : Int) = x % 65536 := by
  unfold toUint16
  omega

theorem EncodeAVLRecord_gpsBlock (impl : Float64 → Int) (gps : GPSData) :
    ((EncodeAVLRecord impl gps).Data.drop 9).take 15 = buildGPSElement impl gps := by
  have h9 : (PutUint64 (toUint64 gps.Timestamp.UnixMilli) ++ [gps.Priority]).length = 9 := rfl
  rw [EncodeAVLRecord_eq, List.append_assoc (_ ++ _), List.drop_left' h9]
  exact List.take_left' (buildGPSElement_length impl gps)

/-- C8: the record is the timestamp in bytes 0..7 (the count of whole
milliseconds since the Unix epoch as an unsigned 64-bit big-endian integer),
the priority unchanged in byte 8, the 15-byte GPS block in bytes 9..23, and
six zero bytes in bytes 24..29. -/
theorem EncodeAVLRecord_layout (impl : Float64 → Int) (gps : GPSData) :
    (beUint ((EncodeAVLRecord impl gps).Data.take 8) : Int) =
        (gps.Timestamp.unixNano / 1000000) % 18446744073709551616 ∧
      ((EncodeAVLRecord impl gps).Data.take 8).length = 8 ∧
      (EncodeAVLRecord impl gps).Data[8]? = some gps.Priority ∧
      ((EncodeAVLRecord impl gps).Data.drop 9).take 15 = buildGPSElement impl gps ∧
      (buildGPSElement impl gps).length = 15 ∧
      (EncodeAVLRecord impl gps).Data.drop 24 = [0, 0, 0, 0, 0, 0] := by
  have hlen := buildGPSElement_length impl gps
  have h8 : (PutUint64 (toUint64 gps.Timestamp.UnixMilli)).length = 8 := rfl
  have htake : (EncodeAVLRecord impl gps).Data.take 8 =
      PutUint64 (toUint64 gps.Timestamp.UnixMilli) := by
    rw [EncodeAVLRecord_eq, List.append_assoc, List.append_assoc]
    exact List.take_left' h8
  have h9 : (PutUint64 (toUint64 gps.Timestamp.UnixMilli) ++ [gps.Priority]).length = 9 := rfl
  have h24 : (PutUint64 (toUint64 gps.Timestamp.UnixMilli) ++ [gps.Priority] ++
      buildGPSElement impl gps).length = 24 := by
    rw [List.length_append, h9, hlen]
  refine ⟨?_, ?_, ?_, ?_, hlen, ?_⟩
  · rw [htake, beUint_PutUint64 _ (toUint64_lt _)]
    exact toUint64_wrapInt64 _
  · rw [htake, h8]
  · rw [EncodeAVLRecord_eq]
    simp [PutUint64]
  · exact EncodeAVLRecord_gpsBlock impl gps
  · rw [EncodeAVLRecord_eq, List.drop_left' h24]

theorem buildGPSElement_eq (impl : Float64 → Int) (gps : GPSData) :
    ∃ coords : List Byte, coords.length = 8 ∧
      buildGPSElement impl gps =
        coords ++ (PutUint16 (toUint16 gps.Altitude) ++ PutUint16 (toUint16 gps.Heading) ++
          [intToByte gps.Satellites] ++ PutUint16 (toUint16 gps.Speed)) := by
  refine ⟨PutUint32 (toUint32 (int32OfFloat64 impl (gps.Longitude.mul (Float64.finite 10000000))))
    ++ PutUint32 (toUint32 (int32OfFloat64 impl (gps.Latitude.mul (Float64.finite 10000000)))),
    rfl, ?_⟩
  simp [buildGPSElement]

/-- C9: encoding is total and wraps the integer fields to their width: after
the eight coordinate bytes the GPS block holds the altitude modulo 65536 in
bytes 8..9, the heading modulo 65536 in bytes 10..11, the satellite count
modulo 256 in byte 12 and the speed modulo 65536 in bytes 13..14, each
big-endian and as the non-negative residue; the block is bytes 9..23 of the
record. -/
theorem buildGPSElement_wraps (impl : Float64 → Int) (gps : GPSData) :
    (buildGPSElement impl gps).length = 15 ∧
      ((EncodeAVLRecord impl gps).Data.drop 9).take 15 = buildGPSElement impl gps ∧
      (beUint (((buildGPSElement impl gps).drop 8).take 2) : Int) = gps.Altitude % 65536 ∧
      (beUint (((buildGPSElement impl gps).drop 10).take 2) : Int) = gps.Heading % 65536 ∧
      (beUint (((buildGPSElement impl gps).drop 12).take 1) : Int) = gps.Satellites % 256 ∧
      (beUint (((buildGPSElement impl gps).drop 13).take 2) : Int) = gps.Speed % 65536 := by
  obtain ⟨coords, hc, heq⟩ := buildGPSElement_eq impl gps
  refine ⟨buildGPSElement_length impl gps, EncodeAVLRecord_gpsBlock impl gps, ?_⟩
  rw [heq]
  have d8 : ∀ l : List Byte, (coords ++ l).drop 8 = l := fun l => List.drop_left' hc
  have d10 : ∀ a b : Byte, ∀ l : List Byte, (coords ++ a :: b :: l).drop 10 = l := by
    intro a b l
    have : (coords ++ a :: b :: l).drop (8 + 2) = l := by
      rw [← List.drop_drop, d8]; rfl
    exact this
  have d12 : ∀ a b c d : Byte, ∀ l : List Byte,
      (coords ++ a :: b :: c :: d :: l).drop 12 = l := by
    intro a b c d l
    have : (coords ++ a :: b :: c :: d :: l).drop (8 + 4) = l := by
      rw [← List.drop_drop, d8]; rfl
    exact this
  have d13 : ∀ a b c d e : Byte, ∀ l : List Byte,
      (coords ++ a :: b :: c :: d :: e :: l).drop 13 = l := by
    intro a b c d e l
    have : (coords ++ a :: b :: c :: d :: e :: l).drop (8 + 5) = l := by
      rw [← List.drop_drop, d8]; rfl
    exact this
  have hsat : (beUint [intToByte gps.Satellites] : Int) = gps.Satellites % 256 := by
    simp only [beUint, intToByte, toByte, List.foldl]
    omega
  refine ⟨?_, ?_, ?_, ?_⟩
  · rw [d8]
    show (beUint (PutUint16 (toUint16 gps.Altitude)) : Int) = _
    rw [beUint_PutUint16 _ (toUint16_lt _), toUint16_cast]
  · simp only [PutUint16, List.cons_append, List.nil_append, d10]
    show (beUint (PutUint16 (toUint16 gps.Heading)) : Int) = _
    rw [beUint_PutUint16 _ (toUint16_lt _), toUint16_cast]
  · simp only [PutUint16, List.cons_append, List.nil_append, d12]
    exact hsat
  · simp only [PutUint16, List.cons_append, List.nil_append, d13]
    show (beUint (PutUint16 (toUint16 gps.Speed)) : Int) = _
    rw [beUint_PutUint16 _ (toUint16_lt _), toUint16_cast]

/-! ## Authentication message -/

/-- C10: for a 15-byte identifier, `SendIMEI` on an open connection writes
the 17 bytes `0x00 0x0F` followed by the identifier, unchanged, as the first
operation it performs on the connection (so before any read), and performs no
other write. -/
theorem SendIMEI_message (t : Tracker) (c : Conn) (hc : t.conn = some c)
    (hlen : t.IMEI.length = 15) :
    ∃ (t1 : Tracker) (c1 : Conn) (err : Option TrackerError) (rest : List ConnEvent),
      t.SendIMEI = some (t1, err) ∧ t1.conn = some c1 ∧
      c1.events = c.events ++ ConnEvent.write ([0x00, 0x0F] ++ t.IMEI) :: rest ∧
      ([0x00, 0x0F] ++ t.IMEI : List Byte).length = 17 ∧
      ∀ e ∈ rest, e.isWrite = false := by
  have hmsg : PutUint16 (t.IMEI.length % 65536) ++ t.IMEI = [0x00, 0x0F] ++ t.IMEI := by
    rw [hlen]; rfl
  have h17 : ([0x00, 0x0F] ++ t.IMEI : List Byte).length = 17 := by
    simp [hlen]
  unfold Tracker.SendIMEI
  rw [hc]
  simp only [hmsg, Conn.Write]
  cases hw : c.writeFails.headD false with
  | true =>
    exact ⟨_, _, _, [], rfl, rfl, rfl, h17, by simp⟩
  | false =>
    simp only [Conn.SetReadDeadline, Conn.Read, Bool.false_eq_true, if_false]
    rcases hin : c.inbound with _ | ⟨x, tl⟩
    · exact ⟨_, _, _, [ConnEvent.setReadDeadline (some 10), ConnEvent.read 1], rfl, rfl,
        by simp, h17, by simp [ConnEvent.isWrite]⟩
    · cases x with
      | none =>
        exact ⟨_, _, _, [ConnEvent.setReadDeadline (some 10), ConnEvent.read 1], rfl, rfl,
          by simp, h17, by simp [ConnEvent.isWrite]⟩
      | some bs =>
        simp only
        split_ifs <;>
        exact ⟨_, _, _, [ConnEvent.setReadDeadline (some 10), ConnEvent.read 1,
          ConnEvent.setReadDeadline none], rfl, rfl, by simp, h17,
          by simp [ConnEvent.isWrite]⟩

/-- C10, witness: the identifier "123456789012345" on a fresh connection
whose peer answers 0x01. -/
theorem SendIMEI_message_witness :
    (49 :: 50 :: 51 :: 52 :: 53 :: 54 :: 55 :: 56 :: 57 :: 48 :: 49 :: 50 :: 51 :: 52 ::
        [(53 : Byte)]).length = 15 ∧
    ∃ (t1 : Tracker) (c1 : Conn) (err : Option TrackerError) (rest : List ConnEvent),
      Tracker.SendIMEI
          { Server := "localhost:5027",
            IMEI := [49, 50, 51, 52, 53, 54, 55, 56, 57, 48, 49, 50, 51, 52, 53],
            Verbose := false,
            conn := some { events := [], writeFails := [], inbound := [some [1]] } } =
        some (t1, err) ∧ t1.conn = some c1 ∧
      c1.events = [] ++ ConnEvent.write ([0x00, 0x0F] ++
          [49, 50, 51, 52, 53, 54, 55, 56, 57, 48, 49, 50, 51, 52, 53]) :: rest ∧
      ([0x00, 0x0F] ++ [49, 50, 51, 52, 53, 54, 55, 56, 57, 48, 49, 50, 51, 52, 53] :
        List Byte).length = 17 ∧
      ∀ e ∈ rest, e.isWrite = false :=
  ⟨rfl, SendIMEI_message
    { Server := "localhost:5027",
      IMEI := [49, 50, 51, 52, 53, 54, 55, 56, 57, 48, 49, 50, 51, 52, 53],
      Verbose := false,
      conn := some { events := [], writeFails := [], inbound := [some [1]] } }
    { events := [], writeFails := [], inbound := [some [1]] } rfl rfl⟩

/-! ## `float64` rounding and truncation -/

theorem roundHalfEven_ge (x : ℚ) (k : Int) (h : (k : ℚ) ≤ x) : k ≤ roundHalfEven x := by
  have hf : k ≤ ⌊x⌋ := Int.le_floor.mpr h
  unfold roundHalfEven
  simp only
  split_ifs <;> omega

theorem roundHalfEven_le (x : ℚ) (k : Int) (h : x ≤ (k : ℚ)) : roundHalfEven x ≤ k := by
  have hf : ⌊x⌋ ≤ k := Int.floor_le_floor h |>.trans (le_of_eq (Int.floor_intCast k))
  unfold roundHalfEven
  simp only
  by_cases hr : x - (⌊x⌋ : ℚ) < 1 / 2
  · rw [if_pos hr]; exact hf
  · have hlt : (⌊x⌋ : ℚ) < k := by linarith
    have hlt2 : ⌊x⌋ < k := by exact_mod_cast hlt
    rw [if_neg hr]
    split_ifs <;> omega

theorem f64Quantum_pos (q : ℚ) : 0 < f64Quantum q := by
  unfold f64Quantum
  positivity

/-- Below `2 ^ (53 - j)` in size, the grid of multiples of `2 ^ (-j)` is a
sub-grid of the binary64 values: its step is a power-of-two multiple of the
spacing. -/
theorem f64Quantum_divides (j : Nat) (hj : j ≤ 53) (q : ℚ) (hq0 : q ≠ 0)
    (hq : |q| < (2 : ℚ) ^ (53 - j)) :
    ∃ n : Nat, f64Quantum q * (2 : ℚ) ^ n = 1 / (2 : ℚ) ^ j := by
  have habs : 0 < |q| := abs_pos.mpr hq0
  have hlog : Int.log 2 |q| < ((53 - j : Nat) : Int) := by
    apply (Int.lt_zpow_iff_log_lt (by norm_num) habs).mp
    rw [zpow_natCast]
    exact_mod_cast hq
  have he : max (Int.log 2 |q|) (-1022) ≤ 52 - (j : Int) := by
    apply max_le <;> omega
  refine ⟨(52 - (j : Int) - max (Int.log 2 |q|) (-1022)).toNat, ?_⟩
  unfold f64Quantum
  have h2 : (2 : ℚ) ≠ 0 := by norm_num
  rw [← zpow_natCast, ← zpow_add₀ h2, Int.toNat_of_nonneg (by omega), one_div,
    ← zpow_natCast, ← zpow_neg]
  congr 1
  ring

/-- On a grid that the binary64 values refine, rounding never crosses a grid
point: bounds of the exact value by grid points carry over to the rounded one. -/
theorem f64Round_bracket (j : Nat) (hj : j ≤ 53) (q : ℚ) (hq : |q| < (2 : ℚ) ^ (53 - j)) :
    ∃ r : ℚ, f64Round q = Float64.finite r ∧
      ∀ k : Int, ((k : ℚ) / 2 ^ j ≤ q → (k : ℚ) / 2 ^ j ≤ r) ∧
        (q ≤ (k : ℚ) / 2 ^ j → r ≤ (k : ℚ) / 2 ^ j) := by
  by_cases hq0 : q = 0
  · refine ⟨0, by simp [f64Round, hq0], fun k => ?_⟩
    rw [hq0]
    exact ⟨id, id⟩
  · obtain ⟨n, hn⟩ := f64Quantum_divides j hj q hq0 hq
    have hu := f64Quantum_pos q
    have hgrid : ∀ k : Int, (k : ℚ) / 2 ^ j = ((k * 2 ^ n : Int) : ℚ) * f64Quantum q := by
      intro k
      push_cast
      rw [div_eq_mul_one_div, ← hn]
      ring
    have hbr : ∀ k : Int,
        ((k : ℚ) / 2 ^ j ≤ q →
          (k : ℚ) / 2 ^ j ≤ (roundHalfEven (q / f64Quantum q) : ℚ) * f64Quantum q) ∧
        (q ≤ (k : ℚ) / 2 ^ j →
          (roundHalfEven (q / f64Quantum q) : ℚ) * f64Quantum q ≤ (k : ℚ) / 2 ^ j) := by
      intro k
      rw [hgrid k]
      constructor
      · intro h
        have h1 : ((k * 2 ^ n : Int) : ℚ) ≤ q / f64Quantum q := (le_div_iff₀ hu).mpr h
        have h2 := roundHalfEven_ge _ _ h1
        exact mul_le_mul_of_nonneg_right (by exact_mod_cast h2) hu.le
      · intro h
        have h1 : q / f64Quantum q ≤ ((k * 2 ^ n : Int) : ℚ) := (div_le_iff₀ hu).mpr h
        have h2 := roundHalfEven_le _ _ h1
        exact mul_le_mul_of_nonneg_right (by exact_mod_cast h2) hu.le
    refine ⟨(roundHalfEven (q / f64Quantum q) : ℚ) * f64Quantum q, ?_, hbr⟩
    have hpow : (2 : ℚ) ^ (53 - j) = ((2 ^ 53 : Int) : ℚ) / 2 ^ j := by
      have h53 : ((2 ^ 53 : Int) : ℚ) = (2 : ℚ) ^ 53 := by norm_num
      rw [h53, eq_div_iff (by positivity), ← pow_add, Nat.sub_add_cancel hj]
    have hneg : -((2 : ℚ) ^ (53 - j)) = ((-(2 ^ 53) : Int) : ℚ) / 2 ^ j := by
      rw [hpow]; push_cast; ring
    have hlo := (hbr (-(2 ^ 53))).1 (by rw [← hneg]; exact (abs_lt.mp hq).1.le)
    have hhi := (hbr (2 ^ 53)).2 (by rw [← hpow]; exact (abs_lt.mp hq).2.le)
    rw [← hneg] at hlo
    rw [← hpow] at hhi
    have hsmall : (2 : ℚ) ^ (53 - j) < 2 ^ 1024 :=
      pow_lt_pow_right₀ (by norm_num) (by omega)
    have hr : ¬ (2 : ℚ) ^ 1024 ≤ |(roundHalfEven (q / f64Quantum q) : ℚ) * f64Quantum q| := by
      rw [not_le]
      exact lt_of_le_of_lt (abs_le.mpr ⟨hlo, hhi⟩) hsmall
    simp only [f64Round, hq0, if_false, hr]

/-- A value with at most `j` fractional bits and below `2 ^ (53 - j)` in size
is a binary64 value: rounding returns it unchanged. -/
theorem f64Round_exact (j : Nat) (hj : j ≤ 53) (k : Int)
    (hq : |(k : ℚ) / 2 ^ j| < (2 : ℚ) ^ (53 - j)) :
    f64Round ((k : ℚ) / 2 ^ j) = Float64.finite ((k : ℚ) / 2 ^ j) := by
  obtain ⟨r, hr, hbr⟩ := f64Round_bracket j hj _ hq
  rw [hr]
  congr 1
  exact le_antisymm ((hbr k).2 le_rfl) ((hbr k).1 le_rfl)

theorem truncate_ge (r : ℚ) (a : Int) (h : (a : ℚ) ≤ r) : a ≤ truncate r := by
  have h1 : a ≤ ⌊r⌋ := Int.le_floor.mpr h
  have h2 : ⌊r⌋ ≤ ⌈r⌉ := Int.floor_le_ceil r
  unfold truncate
  split_ifs <;> omega

theorem truncate_le (r : ℚ) (b : Int) (h : r ≤ (b : ℚ)) : truncate r ≤ b := by
  have h1 : ⌈r⌉ ≤ b := Int.ceil_le.mpr h
  have h2 : ⌊r⌋ ≤ ⌈r⌉ := Int.floor_le_ceil r
  unfold truncate
  split_ifs <;> omega

theorem beInt32_PutUint32 (t : Int) (hlo : -2147483648 ≤ t) (hhi : t < 2147483648) :
    beInt32 (PutUint32 (toUint32 t)) = t := by
  have hlt : toUint32 t < 4294967296 := by unfold toUint32; omega
  unfold beInt32
  rw [beUint_PutUint32 _ hlt]
  unfold toUint32
  split_ifs <;> omega

/-- A coordinate in the valid range, scaled by 10,000,000 in binary64 and
converted to `int32`: the product is finite, the conversion is the truncation
of the product (the implementation's choice is not consulted), the result lies
between the floor and the ceiling of the exact product, and its four bytes
decode to it. -/
theorem scaled_coordinate (impl : Float64 → Int) (x : ℚ) (hx : |x| ≤ 180) :
    ∃ p : ℚ, (Float64.finite x).mul (Float64.finite 10000000) = Float64.finite p ∧
      int32OfFloat64 impl (Float64.finite p) = truncate p ∧
      ⌊x * 10000000⌋ ≤ truncate p ∧ truncate p ≤ ⌈x * 10000000⌉ ∧
      beInt32 (PutUint32 (toUint32 (truncate p))) = truncate p := by
  have hxb := abs_le.mp hx
  have hq : |x * 10000000| < (2 : ℚ) ^ (53 - 0) := by
    rw [abs_lt]
    constructor <;> norm_num <;> linarith
  obtain ⟨r, hr, hbr⟩ := f64Round_bracket 0 (by decide) (x * 10000000) hq
  simp only [pow_zero, div_one] at hbr
  have hlo : ((-1800000000 : Int) : ℚ) ≤ r := (hbr (-1800000000)).1 (by push_cast; linarith)
  have hhi : r ≤ ((1800000000 : Int) : ℚ) := (hbr 1800000000).2 (by push_cast; linarith)
  have hfl : ((⌊x * 10000000⌋ : Int) : ℚ) ≤ r := (hbr _).1 (Int.floor_le _)
  have hce : r ≤ ((⌈x * 10000000⌉ : Int) : ℚ) := (hbr _).2 (Int.le_ceil _)
  have t1 := truncate_ge r _ hlo
  have t2 := truncate_le r _ hhi
  refine ⟨r, hr, ?_, truncate_ge r _ hfl, truncate_le r _ hce,
    beInt32_PutUint32 _ (by omega) (by omega)⟩
  unfold int32OfFloat64
  simp only
  rw [if_pos ⟨by omega, by omega⟩]

theorem EncodeAVLRecord_lonField (impl : Float64 → Int) (gps : GPSData) :
    ((EncodeAVLRecord impl gps).Data.drop 9).take 4 =
      PutUint32 (toUint32 (int32OfFloat64 impl (gps.Longitude.mul (Float64.finite 10000000)))) := by
  rw [EncodeAVLRecord_eq]
  simp [PutUint64, buildGPSElement, PutUint32]

theorem EncodeAVLRecord_latField (impl : Float64 → Int) (gps : GPSData) :
    ((EncodeAVLRecord impl gps).Data.drop 13).take 4 =
      PutUint32 (toUint32 (int32OfFloat64 impl (gps.Latitude.mul (Float64.finite 10000000)))) := by
  rw [EncodeAVLRecord_eq]
  simp [PutUint64, buildGPSElement, PutUint32]

/-- An integer between the floor and the ceiling of `x` is less than one away
from `x`. -/
theorem abs_sub_lt_one_of_floor_ceil (x : ℚ) (t : Int) (h1 : ⌊x⌋ ≤ t) (h2 : t ≤ ⌈x⌉) :
    |(t : ℚ) - x| < 1 := by
  have hc : ⌈x⌉ ≤ ⌊x⌋ + 1 := Int.ceil_le_floor_add_one x
  have hfl : (⌊x⌋ : ℚ) ≤ x := Int.floor_le x
  have hfl2 : x < (⌊x⌋ : ℚ) + 1 := Int.lt_floor_add_one x
  have hce : x ≤ (⌈x⌉ : ℚ) := Int.le_ceil x
  have hce2 : (⌈x⌉ : ℚ) < x + 1 := Int.ceil_lt_add_one x
  rw [abs_lt]
  rcases (by omega : t = ⌊x⌋ ∨ t = ⌈x⌉) with h | h <;> rw [h] <;> constructor <;> linarith

/-- The facts about the two coordinate fields of a record that the claims on
the coordinates rest on. -/
theorem coordinate_fields (impl : Float64 → Int) (gps : GPSData) (x y : ℚ)
    (hlon : gps.Longitude = Float64.finite x) (hlat : gps.Latitude = Float64.finite y)
    (hx : |x| ≤ 180) (hy : |y| ≤ 90) :
    ∃ px py : ℚ,
      gps.Longitude.mul (Float64.finite 10000000) = Float64.finite px ∧
      gps.Latitude.mul (Float64.finite 10000000) = Float64.finite py ∧
      beInt32 (((EncodeAVLRecord impl gps).Data.drop 9).take 4) = truncate px ∧
      beInt32 (((EncodeAVLRecord impl gps).Data.drop 13).take 4) = truncate py ∧
      (⌊x * 10000000⌋ ≤ truncate px ∧ truncate px ≤ ⌈x * 10000000⌉) ∧
      (⌊y * 10000000⌋ ≤ truncate py ∧ truncate py ≤ ⌈y * 10000000⌉) := by
  obtain ⟨px, hpx, hix, hfx, hcx, hbx⟩ := scaled_coordinate impl x hx
  obtain ⟨py, hpy, hiy, hfy, hcy, hby⟩ :=
    scaled_coordinate impl y (le_trans hy (by norm_num))
  refine ⟨px, py, by rw [hlon]; exact hpx, by rw [hlat]; exact hpy, ?_, ?_,
    ⟨hfx, hcx⟩, ⟨hfy, hcy⟩⟩
  · rw [EncodeAVLRecord_lonField, hlon, hpx, hix]
    exact hbx
  · rw [EncodeAVLRecord_latField, hlat, hpy, hiy]
    exact hby

/-- C6, as stated, fails: at longitude `2 ^ (-24)` degrees, a binary64 value
in range, the scaled value is 0.596..., whose nearest integer is 1, while bytes
9..12 of the record encode 0. -/
theorem EncodeAVLRecord_longitude_not_rounded :
    reportNearMeridian.Longitude = Float64.finite (1 / 16777216) ∧
    f64Round (1 / 16777216) = Float64.finite (1 / 16777216) ∧
    |(1 / 16777216 : ℚ)| ≤ 180 ∧
    round ((1 / 16777216 : ℚ) * 10000000) = 1 ∧
    beInt32 (((EncodeAVLRecord amd64Indefinite reportNearMeridian).Data.drop 9).take 4) = 0 ∧
    beInt32 (((EncodeAVLRecord amd64Indefinite reportNearMeridian).Data.drop 9).take 4) ≠
      round ((1 / 16777216 : ℚ) * 10000000) := by
  have hrep : f64Round (1 / 16777216) = Float64.finite (1 / 16777216) := by
    have h := f64Round_exact 24 (by decide) 1 (by rw [abs_lt]; constructor <;> norm_num)
    have e : ((1 : Int) : ℚ) / 2 ^ 24 = 1 / 16777216 := by norm_num
    rwa [e] at h
  have hround : round ((1 / 16777216 : ℚ) * 10000000) = 1 := by
    rw [round_eq, Int.floor_eq_iff]
    constructor <;> norm_num
  have hprod : (Float64.finite (1 / 16777216)).mul (Float64.finite 10000000) =
      Float64.finite (78125 / 131072) := by
    have h := f64Round_exact 17 (by decide) 78125 (by rw [abs_lt]; constructor <;> norm_num)
    have e : ((78125 : Int) : ℚ) / 2 ^ 17 = 1 / 16777216 * 10000000 := by norm_num
    rw [e] at h
    show f64Round (1 / 16777216 * 10000000) = _
    rw [h]
    congr 1
    norm_num
  have htr : truncate (78125 / 131072) = 0 := by
    unfold truncate
    rw [if_pos (by norm_num), Int.floor_eq_iff]
    constructor <;> norm_num
  have hval :
      beInt32 (((EncodeAVLRecord amd64Indefinite reportNearMeridian).Data.drop 9).take 4) = 0 := by
    obtain ⟨px, py, hpx, _, hbx, _, _, _⟩ :=
      coordinate_fields amd64Indefinite reportNearMeridian (1 / 16777216) 0 rfl rfl
        (by rw [abs_le]; constructor <;> norm_num) (by norm_num)
    have hpx2 : px = 78125 / 131072 := by
      have h2 : reportNearMeridian.Longitude.mul (Float64.finite 10000000) =
          Float64.finite (78125 / 131072) := hprod
      rw [hpx] at h2
      exact Float64.finite.inj h2
    rw [hbx, hpx2, htr]
  refine ⟨rfl, hrep, by rw [abs_le]; constructor <;> norm_num, hround, hval, ?_⟩
  rw [hval, hround]
  decide

/-- C6, amended: for a report whose latitude and longitude are finite and
in the valid range, bytes 9..12 of the record are the four-byte big-endian
two's-complement encoding of the binary64 product longitude × 10,000,000 with
its fraction discarded (truncated towards zero, not rounded to nearest), and
bytes 13..16 that of the latitude; the encoded integer lies between the floor
and the ceiling of the exact product. -/
theorem EncodeAVLRecord_coordinates_truncated (impl : Float64 → Int) (gps : GPSData)
    (x y : ℚ) (hlon : gps.Longitude = Float64.finite x)
    (hlat : gps.Latitude = Float64.finite y) (hx : |x| ≤ 180) (hy : |y| ≤ 90) :
    ∃ px py : ℚ,
      gps.Longitude.mul (Float64.finite 10000000) = Float64.finite px ∧
      gps.Latitude.mul (Float64.finite 10000000) = Float64.finite py ∧
      (((EncodeAVLRecord impl gps).Data.drop 9).take 4).length = 4 ∧
      beInt32 (((EncodeAVLRecord impl gps).Data.drop 9).take 4) = truncate px ∧
      (((EncodeAVLRecord impl gps).Data.drop 13).take 4).length = 4 ∧
      beInt32 (((EncodeAVLRecord impl gps).Data.drop 13).take 4) = truncate py ∧
      (⌊x * 10000000⌋ ≤ truncate px ∧ truncate px ≤ ⌈x * 10000000⌉) ∧
      (⌊y * 10000000⌋ ≤ truncate py ∧ truncate py ≤ ⌈y * 10000000⌉) := by
  obtain ⟨px, py, hpx, hpy, hbx, hby, hrx, hry⟩ :=
    coordinate_fields impl gps x y hlon hlat hx hy
  refine ⟨px, py, hpx, hpy, ?_, hbx, ?_, hby, hrx, hry⟩
  · rw [EncodeAVLRecord_lonField]; rfl
  · rw [EncodeAVLRecord_latField]; rfl

/-- C6, witness: the report of the specification's scenario. -/
theorem EncodeAVLRecord_coordinates_truncated_witness :
    |(-740060 / 10000 : ℚ)| ≤ 180 ∧ |(407128 / 10000 : ℚ)| ≤ 90 ∧
    ∃ px py : ℚ,
      scenarioReport.Longitude.mul (Float64.finite 10000000) = Float64.finite px ∧
      scenarioReport.Latitude.mul (Float64.finite 10000000) = Float64.finite py ∧
      beInt32 (((EncodeAVLRecord amd64Indefinite scenarioReport).Data.drop 9).take 4) =
        truncate px ∧
      beInt32 (((EncodeAVLRecord amd64Indefinite scenarioReport).Data.drop 13).take 4) =
        truncate py := by
  have hx : |(-740060 / 10000 : ℚ)| ≤ 180 := by rw [abs_le]; constructor <;> norm_num
  have hy : |(407128 / 10000 : ℚ)| ≤ 90 := by rw [abs_le]; constructor <;> norm_num
  obtain ⟨px, py, h1, h2, _, h3, _, h4, _, _⟩ :=
    EncodeAVLRecord_coordinates_truncated amd64Indefinite scenarioReport
      (-740060 / 10000) (407128 / 10000) rfl rfl hx hy
  exact ⟨hx, hy, px, py, h1, h2, h3, h4⟩

/-- C7, as stated, fails: at latitude `-3 * 2 ^ (-25)` degrees, a binary64
value in range, the scaled value is -0.894..., bytes 13..16 encode 0, and the
decoded latitude 0 is about 8.94e-8 degrees away, more than 5e-8. -/
theorem EncodeAVLRecord_latitude_error_exceeds :
    reportNearEquator.Latitude = Float64.finite (-3 / 33554432) ∧
    f64Round (-3 / 33554432) = Float64.finite (-3 / 33554432) ∧
    |(-3 / 33554432 : ℚ)| ≤ 90 ∧
    beInt32 (((EncodeAVLRecord amd64Indefinite reportNearEquator).Data.drop 13).take 4) = 0 ∧
    ¬ |(beInt32 (((EncodeAVLRecord amd64Indefinite reportNearEquator).Data.drop 13).take 4) : ℚ)
        / 10000000 - (-3 / 33554432)| ≤ 5 / 100000000 := by
  have hrep : f64Round (-3 / 33554432) = Float64.finite (-3 / 33554432) := by
    have h := f64Round_exact 25 (by decide) (-3) (by rw [abs_lt]; constructor <;> norm_num)
    have e : ((-3 : Int) : ℚ) / 2 ^ 25 = -3 / 33554432 := by norm_num
    rwa [e] at h
  have hprod : (Float64.finite (-3 / 33554432)).mul (Float64.finite 10000000) =
      Float64.finite (-234375 / 262144) := by
    have h := f64Round_exact 18 (by decide) (-234375)
      (by rw [abs_lt]; constructor <;> norm_num)
    have e : ((-234375 : Int) : ℚ) / 2 ^ 18 = -3 / 33554432 * 10000000 := by norm_num
    rw [e] at h
    show f64Round (-3 / 33554432 * 10000000) = _
    rw [h]
    congr 1
    norm_num
  have htr : truncate (-234375 / 262144) = 0 := by
    unfold truncate
    rw [if_neg (by norm_num), Int.ceil_eq_iff]
    constructor <;> norm_num
  have hval :
      beInt32 (((EncodeAVLRecord amd64Indefinite reportNearEquator).Data.drop 13).take 4) = 0 := by
    obtain ⟨px, py, _, hpy, _, hby, _, _⟩ :=
      coordinate_fields amd64Indefinite reportNearEquator 0 (-3 / 33554432) rfl rfl
        (by norm_num) (by rw [abs_le]; constructor <;> norm_num)
    have hpy2 : py = -234375 / 262144 := by
      have h2 : reportNearEquator.Latitude.mul (Float64.finite 10000000) =
          Float64.finite (-234375 / 262144) := hprod
      rw [hpy] at h2
      exact Float64.finite.inj h2
    rw [hby, hpy2, htr]
  refine ⟨rfl, hrep, by rw [abs_le]; constructor <;> norm_num, hval, ?_⟩
  rw [hval, not_le, abs_of_pos (by norm_num)]
  norm_num

/-- C7, amended: for a report whose latitude and longitude are finite and
in the valid range, decoding the four-byte longitude and latitude fields as
big-endian signed integers and dividing by 10,000,000 gives values less than
1e-7 degrees away from the original longitude and latitude. -/
theorem EncodeAVLRecord_coordinates_roundtrip (impl : Float64 → Int) (gps : GPSData)
    (x y : ℚ) (hlon : gps.Longitude = Float64.finite x)
    (hlat : gps.Latitude = Float64.finite y) (hx : |x| ≤ 180) (hy : |y| ≤ 90) :
    |(beInt32 (((EncodeAVLRecord impl gps).Data.drop 9).take 4) : ℚ) / 10000000 - x|
        < 1 / 10000000 ∧
    |(beInt32 (((EncodeAVLRecord impl gps).Data.drop 13).take 4) : ℚ) / 10000000 - y|
        < 1 / 10000000 := by
  obtain ⟨px, py, _, _, hbx, hby, hrx, hry⟩ :=
    coordinate_fields impl gps x y hlon hlat hx hy
  have scale : ∀ (t : Int) (z : ℚ), |(t : ℚ) - z * 10000000| < 1 →
      |(t : ℚ) / 10000000 - z| < 1 / 10000000 := by
    intro t z h
    have e : (t : ℚ) / 10000000 - z = ((t : ℚ) - z * 10000000) / 10000000 := by ring
    rw [e, abs_div, abs_of_pos (by norm_num : (0 : ℚ) < 10000000)]
    exact div_lt_div_of_pos_right h (by norm_num)
  rw [hbx, hby]
  exact ⟨scale _ _ (abs_sub_lt_one_of_floor_ceil _ _ hrx.1 hrx.2),
    scale _ _ (abs_sub_lt_one_of_floor_ceil _ _ hry.1 hry.2)⟩

/-- C7, witness: the report of the specification's scenario. -/
theorem EncodeAVLRecord_coordinates_roundtrip_witness :
    |(-740060 / 10000 : ℚ)| ≤ 180 ∧ |(407128 / 10000 : ℚ)| ≤ 90 ∧
    |(beInt32 (((EncodeAVLRecord amd64Indefinite scenarioReport).Data.drop 9).take 4) : ℚ)
        / 10000000 - (-740060 / 10000)| < 1 / 10000000 ∧
    |(beInt32 (((EncodeAVLRecord amd64Indefinite scenarioReport).Data.drop 13).take 4) : ℚ)
        / 10000000 - 407128 / 10000| < 1 / 10000000 := by
  have hx : |(-740060 / 10000 : ℚ)| ≤ 180 := by rw [abs_le]; constructor <;> norm_num
  have hy : |(407128 / 10000 : ℚ)| ≤ 90 := by rw [abs_le]; constructor <;> norm_num
  exact ⟨hx, hy, EncodeAVLRecord_coordinates_roundtrip amd64Indefinite scenarioReport
    (-740060 / 10000) (407128 / 10000) rfl rfl hx hy⟩

/-! ## Packet framer: more than 255 records -/

theorem flatten_replicate_singleton (n : Nat) (x : Byte) :
    ((List.replicate n (AVLRecord.mk [x])).map (fun r => r.Data)).flatten
      = List.replicate n x := by
  induction n with
  | zero => rfl
  | succ n ih => simp [List.replicate_succ, ih]

theorem sum_replicate_singleton (n : Nat) (x : Byte) :
    ((List.replicate n (AVLRecord.mk [x])).map (fun r => r.Data.length)).sum = n := by
  induction n with
  | zero => rfl
  | succ n ih => simp [List.replicate_succ, ih]; omega

/-- C18: the number of records is neither rejected nor bounded: for every
sequence of records both count bytes of the packet hold the number of records
modulo 256, around all the records' bytes; for 256 one-byte records both count
bytes are 0 while the packet holds all 256 bytes and a length field of 259. -/
theorem BuildAVLPacket_count_wraps :
    (∀ rs : List AVLRecord, ∃ count : Byte, count.val = rs.length % 256 ∧
      BuildAVLPacket rs =
        [0, 0, 0, 0] ++
        PutUint32 ((2 + (rs.map (fun r => r.Data.length)).sum + 1) % 4294967296) ++
        [0x08] ++ [count] ++ (rs.map (fun r => r.Data)).flatten ++ [count] ++
        PutUint32 (CalculateCRC16
          ([0x08] ++ [count] ++ (rs.map (fun r => r.Data)).flatten ++ [count]))) ∧
    (List.replicate 256 (AVLRecord.mk [0x2A])).length = 256 ∧
    BuildAVLPacket (List.replicate 256 (AVLRecord.mk [0x2A])) =
      [0, 0, 0, 0] ++ PutUint32 259 ++ [0x08] ++ [0] ++ List.replicate 256 0x2A ++ [0] ++
      PutUint32 (CalculateCRC16 ([0x08] ++ [0] ++ List.replicate 256 0x2A ++ [0])) := by
  have hgen : ∀ rs : List AVLRecord,
      BuildAVLPacket rs =
        [0, 0, 0, 0] ++
        PutUint32 ((2 + (rs.map (fun r => r.Data.length)).sum + 1) % 4294967296) ++
        [0x08] ++ [toByte rs.length] ++ (rs.map (fun r => r.Data)).flatten ++
        [toByte rs.length] ++
        PutUint32 (CalculateCRC16
          ([0x08] ++ [toByte rs.length] ++ (rs.map (fun r => r.Data)).flatten ++
            [toByte rs.length])) := by
    intro rs
    rw [BuildAVLPacket_eq, payloadSpan_length]
    simp [payloadSpan]
  refine ⟨fun rs => ⟨toByte rs.length, rfl, hgen rs⟩, List.length_replicate _ _, ?_⟩
  rw [hgen, flatten_replicate_singleton, sum_replicate_singleton, List.length_replicate]
  rfl

/-! ## Acknowledgment -/

/-- C12, the code on a reply that arrives in two pieces: the server has sent
`00 00 00 01`, whose big-endian value is 1, as three bytes and then one;
`SendAVLData` does a single read, returns without error, and reports 0 accepted
records, leaving the fourth byte unread. -/
theorem SendAVLData_short_read (packet : List Byte) :
    splitAckConn.pendingBytes.take 4 = [0, 0, 0, 1] ∧
    beUint (splitAckConn.pendingBytes.take 4) = 1 ∧
    ∃ t1 : Tracker,
      Tracker.SendAVLData
        { Server := "localhost:5027", IMEI := [], Verbose := false, conn := some splitAckConn }
        packet = some (t1, 0, none) ∧
      t1.conn.map (fun c => c.inbound) = some [some [1]] ∧
      t1.conn.map (fun c => c.events) =
        some [ConnEvent.write packet, ConnEvent.setReadDeadline (some 10), ConnEvent.read 4,
          ConnEvent.setReadDeadline none] :=
  ⟨rfl, rfl, _, rfl, rfl, rfl⟩

/-! ## Start-up validation -/

/-- C19, the code on an identifier of fifteen letters: the identifier
`abcdefghijklmno` holds no digit at all, and the start-up checks pass it on. -/
theorem validateFlags_accepts_letters :
    lettersFlags.imei.length = 15 ∧
    lettersFlags.imei.all isDigit = false ∧
    validateFlags lettersFlags = Except.ok lettersFlags.imei := by
  refine ⟨rfl, by decide, rfl⟩

/-! ## Generators -/

/-- The report a Buffer with the given settings returns for a timestamp. -/
theorem Buffer.Next_report (b : Buffer) (now : Time) :
    (b.Next now).2 =
      { Timestamp := (b.queue[b.index]?).getD now, Latitude := b.Lat, Longitude := b.Lon,
        Altitude := b.Altitude, Speed := 0, Heading := b.Heading, Satellites := 12,
        Priority := 0 } := by
  unfold Buffer.Next
  by_cases h : b.index < b.queue.length
  · simp [h, List.getD_eq_getElem?_getD]
  · simp [h, List.getElem?_eq_none (Nat.le_of_not_lt h)]

theorem Buffer.Next_state (b : Buffer) (now : Time) :
    (b.Next now).1 =
      { b with index := if b.index < b.queue.length then b.index + 1 else b.index } := by
  unfold Buffer.Next
  by_cases h : b.index < b.queue.length <;> simp [h]

/-- The report of the call number `i` (from 0) in a row of calls: the queued
timestamp at position `index + i` if there is one, else the clock reading. -/
theorem Buffer.calls_getElem? (clock : List Time) (b : Buffer) (i : Nat) :
    (b.calls clock)[i]? = (clock[i]?).map (fun now =>
      { Timestamp := (b.queue[b.index + i]?).getD now, Latitude := b.Lat, Longitude := b.Lon,
        Altitude := b.Altitude, Speed := 0, Heading := b.Heading, Satellites := 12,
        Priority := 0 }) := by
  induction clock generalizing b i with
  | nil => simp [Buffer.calls]
  | cons now later ih =>
    cases i with
    | zero => simp [Buffer.calls, Buffer.Next_report]
    | succ i =>
      simp only [Buffer.calls, List.getElem?_cons_succ]
      rw [ih, Buffer.Next_state]
      by_cases h : b.index < b.queue.length
      · simp only [h, if_true]
        rw [show b.index + 1 + i = b.index + (i + 1) by omega]
      · simp only [h, if_false]
        rw [List.getElem?_eq_none (by omega : b.queue.length ≤ b.index + i),
          List.getElem?_eq_none (by omega : b.queue.length ≤ b.index + (i + 1))]

theorem NewBuffer_queue_getElem? (now : Time) (lat lon : Float64) (altitude heading : Int)
    (i : Nat) :
    (NewBuffer now lat lon altitude heading).queue[i]? =
      if i < 30 then some (now.Add (-((29 - (i : Int)) * (10 * Minute)))) else none := by
  show ((List.range 30).map (fun i : Nat =>
    now.Add (-(((30 : Nat) : Int) - 1 - (i : Int)) * (10 * Minute))))[i]? = _
  rw [List.getElem?_map]
  by_cases h : i < 30
  · rw [List.getElem?_range h, if_pos h, Option.map_some']
    congr 2
    ring
  · rw [List.getElem?_eq_none (by simpa using h), if_neg h]
    rfl

/-- C15: the call number `i` (from 0) of `Next` on a fresh Buffer returns
the configured latitude, longitude, altitude and heading with speed 0, twelve
satellites and priority 0; for `i < 30` its timestamp is
`now - (29 - i) * 10 minutes`, and from the 31st call on it is the clock
reading of that call. -/
theorem Buffer_calls_timestamps (now : Time) (lat lon : Float64) (altitude heading : Int)
    (clock : List Time) (i : Nat) (t : Time) (hi : clock[i]? = some t) :
    ∃ r : GPSData, ((NewBuffer now lat lon altitude heading).calls clock)[i]? = some r ∧
      r.Latitude = lat ∧ r.Longitude = lon ∧ r.Altitude = altitude ∧ r.Heading = heading ∧
      r.Speed = 0 ∧ r.Satellites = 12 ∧ r.Priority = 0 ∧
      (i < 30 → r.Timestamp.unixNano = now.unixNano - (29 - (i : Int)) * (10 * Minute)) ∧
      (30 ≤ i → r.Timestamp = t) := by
  refine ⟨_, by rw [Buffer.calls_getElem?, hi]; rfl, rfl, rfl, rfl, rfl, rfl, rfl, rfl, ?_, ?_⟩
  · intro h
    have hq := NewBuffer_queue_getElem? now lat lon altitude heading i
    rw [if_pos h] at hq
    have h0 : (NewBuffer now lat lon altitude heading).index = 0 := rfl
    simp only [h0, Nat.zero_add, hq, Option.getD_some, Time.Add]
    ring
  · intro h
    have hq := NewBuffer_queue_getElem? now lat lon altitude heading i
    rw [if_neg (by omega)] at hq
    have h0 : (NewBuffer now lat lon altitude heading).index = 0 := rfl
    simp only [h0, Nat.zero_add, hq, Option.getD_none]

/-- C15, witness: the first call on a Buffer created at `sampleNow` returns
the instant 290 minutes before. -/
theorem Buffer_calls_timestamps_witness :
    sampleClock[0]? = some { unixNano := 1700000001000000000 } ∧
    ∃ r : GPSData,
      ((NewBuffer sampleNow (Float64.finite 0) (Float64.finite 0) 100 0).calls sampleClock)[0]?
        = some r ∧
      r.Timestamp.unixNano = 1700000000000000000 - 290 * Minute ∧
      r.Altitude = 100 ∧ r.Satellites = 12 := by
  refine ⟨rfl, ?_⟩
  obtain ⟨r, hr, _, _, ha, _, _, hs, _, ht, _⟩ :=
    Buffer_calls_timestamps sampleNow (Float64.finite 0) (Float64.finite 0) 100 0
      sampleClock 0 { unixNano := 1700000001000000000 } rfl
  refine ⟨r, hr, ?_, ha, hs⟩
  rw [ht (by decide)]
  simp [sampleNow, Minute]

/-- C16, the code at `sampleNow`: the thirty timestamps a RecentFirst returns
are, in minutes relative to now, 0, -280, -270, ..., -10 and then 0 again: the
first and the thirtieth call both return now, and the oldest buffered instant,
290 minutes before now, which a Buffer returns first, is never returned. -/
theorem RecentFirst_calls_repeat_now :
    minutesAfterSampleNow
        ((NewRecentFirst sampleNow (Float64.finite 0) (Float64.finite 0) 100 0).calls
          sampleClock) =
      [0, -280, -270, -260, -250, -240, -230, -220, -210, -200, -190, -180, -170, -160, -150,
        -140, -130, -120, -110, -100, -90, -80, -70, -60, -50, -40, -30, -20, -10, 0] ∧
    minutesAfterSampleNow
        ((NewBuffer sampleNow (Float64.finite 0) (Float64.finite 0) 100 0).calls sampleClock) =
      [-290, -280, -270, -260, -250, -240, -230, -220, -210, -200, -190, -180, -170, -160,
        -150, -140, -130, -120, -110, -100, -90, -80, -70, -60, -50, -40, -30, -20, -10, 0] := by
  constructor <;> decide

/-! ## Session: the methods one by one -/

theorem Tracker.SendIMEI_open (t : Tracker) (c : Conn) (h : t.conn = some c) :
    ∃ (c1 : Conn) (err : Option TrackerError),
      t.SendIMEI = some ({ t with conn := some c1 }, err) := by
  unfold Tracker.SendIMEI
  rw [h]
  simp only [Conn.Write]
  cases c.writeFails.headD false with
  | true => exact ⟨_, _, rfl⟩
  | false =>
    simp only [Conn.SetReadDeadline, Conn.Read, Bool.false_eq_true, if_false]
    rcases c.inbound with _ | ⟨x, tl⟩
    · exact ⟨_, _, rfl⟩
    · cases x with
      | none => exact ⟨_, _, rfl⟩
      | some bs =>
        simp only
        split_ifs <;> exact ⟨_, _, rfl⟩

theorem Tracker.SendAVLData_open (t : Tracker) (c : Conn) (packet : List Byte)
    (h : t.conn = some c) :
    ∃ (c1 : Conn) (accepted : Int) (err : Option TrackerError),
      t.SendAVLData packet = some ({ t with conn := some c1 }, accepted, err) := by
  unfold Tracker.SendAVLData
  rw [h]
  simp only [Conn.Write]
  cases c.writeFails.headD false with
  | true => exact ⟨_, _, _, rfl⟩
  | false =>
    simp only [Conn.SetReadDeadline, Conn.Read, Bool.false_eq_true, if_false]
    rcases c.inbound with _ | ⟨x, tl⟩
    · exact ⟨_, _, _, rfl⟩
    · cases x with
      | none => exact ⟨_, _, _, rfl⟩
      | some bs => exact ⟨_, _, _, rfl⟩

@[simp] theorem Session.pass_trace (s : Session) : s.pass.trace = s.trace := by
  unfold Session.pass; split <;> rfl

@[simp] theorem Session.pass_tracker (s : Session) : s.pass.tracker = s.tracker := by
  unfold Session.pass; split <;> rfl

@[simp] theorem Session.pass_genCalls (s : Session) : s.pass.genCalls = s.genCalls := by
  unfold Session.pass; split <;> rfl

@[simp] theorem Session.pass_closed (s : Session) : s.pass.closed = s.closed := by
  unfold Session.pass; split <;> rfl

/-- What connectAndAuthenticate does, in its three outcomes: the dial fails;
the dial succeeds and the authentication fails, after which the connection is
closed; both succeed. It never panics. -/
theorem Session.connectAndAuthenticate_spec (s : Session) :
    (∃ s1, s.connectAndAuthenticate = some (s1, some TrackerError.connect) ∧
      s1.trace = s.trace ++ [RunEvent.connect s.stopped s.tracker.conn.isSome false] ∧
      s1.tracker = s.tracker ∧ s1.genCalls = s.genCalls ∧ s1.closed = s.closed) ∨
    (∃ s1 err sig, s.connectAndAuthenticate = some (s1, some err) ∧
      s1.trace = s.trace ++ [RunEvent.connect s.stopped s.tracker.conn.isSome true,
        RunEvent.sendIMEI sig (some err), RunEvent.close CloseSite.authFailure true] ∧
      s1.tracker.conn = none ∧ s1.genCalls = s.genCalls ∧
      s1.closed.length = s.closed.length + 1) ∨
    (∃ s1 sig, s.connectAndAuthenticate = some (s1, none) ∧
      s1.trace = s.trace ++ [RunEvent.connect s.stopped s.tracker.conn.isSome true,
        RunEvent.sendIMEI sig none] ∧
      s1.tracker.conn.isSome = true ∧ s1.genCalls = s.genCalls ∧ s1.closed = s.closed) := by
  unfold Session.connectAndAuthenticate Session.Connect
  rcases hd : s.dials.headD none with _ | c
  · left
    exact ⟨_, rfl, by simp [Tracker.Connect, Session.log], by simp [Tracker.Connect],
      by simp [Session.log], by simp [Session.log]⟩
  · right
    simp only [Tracker.Connect, Option.isNone_none]
    obtain ⟨c1, err, h⟩ := Tracker.SendIMEI_open { s.tracker with conn := some c } c rfl
    cases err with
    | some e =>
      left
      simp only [h]
      refine ⟨_, e, (s.log (RunEvent.connect s.stopped s.tracker.conn.isSome true)).pass.stopped,
        rfl, ?_, ?_, ?_, ?_⟩ <;>
        simp [Session.Close, Session.log, Tracker.Close]
    | none =>
      right
      simp only [h]
      refine ⟨_, (s.log (RunEvent.connect s.stopped s.tracker.conn.isSome true)).pass.stopped,
        rfl, ?_, ?_, ?_, ?_⟩ <;> simp [Session.log]

theorem Session.sendOne_spec (s : Session) (cause : SendCause)
    (h : s.tracker.conn.isSome = true) :
    ∃ s1 err, s.sendOne cause = (s1, some (Option.isNone err)) ∧
      s1.trace = s.trace ++ [RunEvent.next s.stopped cause s.genCalls,
        RunEvent.sendAVLData s.stopped err] ∧
      s1.tracker.conn.isSome = true ∧ s1.closed = s.closed := by
  obtain ⟨c, hc⟩ := Option.isSome_iff_exists.mp h
  unfold Session.sendOne
  obtain ⟨c1, acc, err, hs⟩ := Tracker.SendAVLData_open
    ({ s.log (RunEvent.next s.stopped cause s.genCalls) with
      genCalls := s.genCalls + 1 } : Session).tracker c
    (BuildAVLPacket [EncodeAVLRecord s.impl (s.gen s.genCalls)]) hc
  simp only [hs]
  exact ⟨_, err, rfl, by simp [Session.log], by simp [Session.log], by simp [Session.log]⟩

theorem Session.waitOrStop_spec (s : Session) (seconds : Nat) :
    (s.waitOrStop seconds).1.trace =
        s.trace ++ [RunEvent.wait seconds s.stopped (s.waitOrStop seconds).2] ∧
      (s.stopped = true → (s.waitOrStop seconds).2 = false) ∧
      ((s.waitOrStop seconds).2 = true → (s.waitOrStop seconds).1.stopped = false) ∧
      (s.waitOrStop seconds).1.tracker = s.tracker ∧
      (s.waitOrStop seconds).1.closed = s.closed := by
  unfold Session.waitOrStop
  cases hs : s.stopped with
  | true => simp [Session.log]
  | false => simp

theorem RunEvent.Follows_iff (a b : RunEvent) : a.Follows b ↔ a.mayFollow b = true := Iff.rfl

/-- The rounds of the send loop: the steps they add follow the order of `Run`
from a successful send on, the loop ends as it may, and the connection stays
open. -/
theorem Session.sendLoopFrom_spec (fuel : Nat) (s : Session) (sig0 : Bool)
    (h : s.tracker.conn.isSome = true) :
    ∃ evs last, (s.sendLoopFrom fuel).1.trace = s.trace ++ evs ∧
      List.Chain RunEvent.Follows (RunEvent.sendAVLData sig0 none) evs ∧
      (RunEvent.sendAVLData sig0 none :: evs).getLast? = some last ∧
      last.mayEndLoop (s.sendLoopFrom fuel).2 = true ∧
      (s.sendLoopFrom fuel).1.tracker.conn.isSome = true ∧
      (s.sendLoopFrom fuel).1.closed = s.closed ∧
      ∀ e ∈ evs, e.isConnect = false := by
  induction fuel generalizing s sig0 with
  | zero =>
    exact ⟨[], _, by simp [Session.sendLoopFrom], List.Chain.nil, rfl, rfl, h, rfl, by simp⟩
  | succ fuel ih =>
    unfold Session.sendLoopFrom
    cases hst : s.stopped with
    | true =>
      simp only [if_true]
      cases hp : s.pendingTicks.headD false with
      | false =>
        refine ⟨[RunEvent.timer true TimerOutcome.stop], _, by simp [Session.log], ?_, rfl, rfl,
          by simpa [Session.log] using h, by simp [Session.log], by simp [RunEvent.isConnect]⟩
        exact List.Chain.cons rfl List.Chain.nil
      | true =>
        simp only [if_true]
        obtain ⟨s2, err, hs2, htr, hconn, hcl⟩ := Session.sendOne_spec
          ({ s.log (RunEvent.timer true TimerOutcome.pendingTick) with
            pendingTicks := s.pendingTicks.tail }) SendCause.pendingTick
          (by simpa [Session.log] using h)
        rw [hs2]
        have hstop : ({ s.log (RunEvent.timer true TimerOutcome.pendingTick) with
            pendingTicks := s.pendingTicks.tail } : Session).stopped = true := by
          simpa [Session.log] using hst
        rw [hstop] at htr
        cases err with
        | some e =>
          refine ⟨[RunEvent.timer true TimerOutcome.pendingTick,
            RunEvent.next true SendCause.pendingTick s.genCalls, RunEvent.sendAVLData true (some e)], _,
            by simp [htr, Session.log], ?_, rfl, rfl, hconn, by simp [hcl, Session.log],
            by simp [RunEvent.isConnect]⟩
          exact List.Chain.cons rfl (List.Chain.cons rfl (List.Chain.cons rfl List.Chain.nil))
        | none =>
          obtain ⟨evs, last, h1, h2, h3, h4, h5, h6, h7⟩ := ih s2 true hconn
          refine ⟨[RunEvent.timer true TimerOutcome.pendingTick,
            RunEvent.next true SendCause.pendingTick s.genCalls] ++ RunEvent.sendAVLData true none :: evs,
            last, by simp [h1, htr, Session.log], ?_, ?_, h4, h5,
            by simp [h6, hcl, Session.log], ?_⟩
          · rw [List.chain_split]
            exact ⟨List.Chain.cons rfl (List.Chain.cons rfl (List.Chain.cons rfl List.Chain.nil)),
              h2⟩
          · simpa using h3
          · intro e he
            simp only [List.cons_append, List.nil_append, List.mem_cons] at he
            rcases he with rfl | rfl | rfl | he
            · rfl
            · rfl
            · rfl
            · exact h7 e he
    | false =>
      simp only [Bool.false_eq_true, if_false]
      cases hps : s.pass.stopped with
      | true =>
        refine ⟨[RunEvent.timer false TimerOutcome.stop], _, by simp [Session.log], ?_, rfl, rfl,
          by simpa [Session.log] using h, by simp [Session.log], by simp [RunEvent.isConnect]⟩
        exact List.Chain.cons rfl List.Chain.nil
      | false =>
        simp only [Bool.false_eq_true, if_false]
        obtain ⟨s2, err, hs2, htr, hconn, hcl⟩ := Session.sendOne_spec
          (s.pass.log (RunEvent.timer false TimerOutcome.tick)) SendCause.tick
          (by simpa [Session.log] using h)
        rw [hs2]
        have hstop : (s.pass.log (RunEvent.timer false TimerOutcome.tick)).stopped = false := by
          simpa [Session.log] using hps
        rw [hstop] at htr
        cases err with
        | some e =>
          refine ⟨[RunEvent.timer false TimerOutcome.tick,
            RunEvent.next false SendCause.tick s.genCalls, RunEvent.sendAVLData false (some e)], _,
            by simp [htr, Session.log], ?_, rfl, rfl, hconn, by simp [hcl, Session.log],
            by simp [RunEvent.isConnect]⟩
          exact List.Chain.cons rfl (List.Chain.cons rfl (List.Chain.cons rfl List.Chain.nil))
        | none =>
          obtain ⟨evs, last, h1, h2, h3, h4, h5, h6, h7⟩ := ih s2 false hconn
          refine ⟨[RunEvent.timer false TimerOutcome.tick,
            RunEvent.next false SendCause.tick s.genCalls] ++ RunEvent.sendAVLData false none :: evs,
            last, by simp [h1, htr, Session.log], ?_, ?_, h4, h5,
            by simp [h6, hcl, Session.log], ?_⟩
          · rw [List.chain_split]
            exact ⟨List.Chain.cons rfl (List.Chain.cons rfl (List.Chain.cons rfl List.Chain.nil)),
              h2⟩
          · simpa using h3
          · intro e he
            simp only [List.cons_append, List.nil_append, List.mem_cons] at he
            rcases he with rfl | rfl | rfl | he
            · rfl
            · rfl
            · rfl
            · exact h7 e he

theorem chain'_snoc {l : List RunEvent} {x y : RunEvent}
    (h : List.Chain' RunEvent.Follows l) (hl : l.getLast? = some x) (hr : x.Follows y) :
    List.Chain' RunEvent.Follows (l ++ [y]) ∧ (l ++ [y]).getLast? = some y := by
  refine ⟨h.append (List.chain'_singleton y) ?_, List.getLast?_concat l⟩
  intro a ha b hb
  rw [hl] at ha
  simp only [List.head?_cons, Option.mem_def, Option.some.injEq] at ha hb
  rw [← ha, ← hb]
  exact hr

/-- The send loop as a whole, entered after a successful authentication. -/
theorem Session.sendLoop_spec (fuel : Nat) (s : Session) (sig0 : Bool)
    (h : s.tracker.conn.isSome = true) :
    ∃ evs last, (s.sendLoop fuel).1.trace = s.trace ++ evs ∧
      List.Chain' RunEvent.Follows (RunEvent.sendIMEI sig0 none :: evs) ∧
      (RunEvent.sendIMEI sig0 none :: evs).getLast? = some last ∧
      last.mayEndLoop (s.sendLoop fuel).2 = true ∧
      (s.sendLoop fuel).1.tracker.conn.isSome = true ∧
      (s.sendLoop fuel).1.closed = s.closed ∧
      ∀ e ∈ evs, e.isConnect = false := by
  unfold Session.sendLoop
  obtain ⟨s1, err, hs1, htr, hconn, hcl⟩ := Session.sendOne_spec s SendCause.first h
  rw [hs1]
  cases err with
  | some e =>
    refine ⟨[RunEvent.next s.stopped SendCause.first s.genCalls,
      RunEvent.sendAVLData s.stopped (some e)], _, htr, ?_, rfl, rfl, hconn, hcl,
      by simp [RunEvent.isConnect]⟩
    refine List.Chain.cons rfl (List.Chain.cons ?_ List.Chain.nil)
    simp [RunEvent.Follows, RunEvent.mayFollow]
  | none =>
    simp only [Option.isNone_none]
    obtain ⟨evs, last, h1, h2, h3, h4, h5, h6, h7⟩ :=
      Session.sendLoopFrom_spec fuel s1 s.stopped hconn
    refine ⟨RunEvent.next s.stopped SendCause.first s.genCalls ::
      RunEvent.sendAVLData s.stopped none :: evs, last, by simp [h1, htr], ?_, ?_, h4, h5,
      by rw [h6, hcl], ?_⟩
    · refine List.Chain.cons rfl (List.Chain.cons ?_ h2)
      simp [RunEvent.Follows, RunEvent.mayFollow]
    · simpa using h3
    · intro e he
      simp only [List.mem_cons] at he
      rcases he with rfl | rfl | he
      · rfl
      · rfl
      · exact h7 e he

/-- One round of the loop of `Run`: it begins with a connect attempt, the
steps follow the order of `Run`, and the round ends as it may: by going round
again after a wait that elapsed, with the stop channel still open, or by ending
`Run`. No connect attempt comes later in the round. A round begun without a
connection leaves none behind unless the fuel ran out inside it, and closes the
connection it opened. -/
theorem Session.runOnce_spec (fuel : Nat) (s : Session) :
    ∃ ok evs last,
      (s.runOnce fuel).1.trace =
        s.trace ++ RunEvent.connect s.stopped s.tracker.conn.isSome ok :: evs ∧
      List.Chain' RunEvent.Follows
        (RunEvent.connect s.stopped s.tracker.conn.isSome ok :: evs) ∧
      (RunEvent.connect s.stopped s.tracker.conn.isSome ok :: evs).getLast? = some last ∧
      (match (s.runOnce fuel).2 with
        | none => (∃ sec sig, last = RunEvent.wait sec sig true) ∧
            (s.runOnce fuel).1.stopped = false
        | some st => last.mayEnd st = true) ∧
      (∀ e ∈ evs, e.isConnect = false) ∧
      (s.tracker.conn = none → (s.runOnce fuel).2 ≠ some Status.running →
        (s.runOnce fuel).1.tracker.conn = none ∧
        (s.runOnce fuel).1.closed.length = s.closed.length + (if ok then 1 else 0)) := by
  unfold Session.runOnce
  rcases Session.connectAndAuthenticate_spec s with
    ⟨s1, hca, htr, htk, _, hcl⟩ | ⟨s1, err, sig, hca, htr, hconn, _, hcl⟩ |
    ⟨s1, sig, hca, htr, hconn, _, hcl⟩
  · -- the dial failed
    simp only [hca]
    obtain ⟨hw1, hw2, hw3, hw4, hw5⟩ := Session.waitOrStop_spec s1 5
    rcases hw : s1.waitOrStop 5 with ⟨s2, el⟩
    rw [hw] at hw1 hw2 hw3 hw4 hw5
    simp only at hw1 hw2 hw3 hw4 hw5
    have hf : (RunEvent.connect s.stopped s.tracker.conn.isSome false).Follows
        (RunEvent.wait 5 s1.stopped el) := by
      cases hs : s1.stopped <;> cases hel : el <;>
        simp_all [RunEvent.Follows, RunEvent.mayFollow]
    cases el with
    | false =>
      exact ⟨false, [RunEvent.wait 5 s1.stopped false], RunEvent.wait 5 s1.stopped false,
        by simp [hw1, htr], List.Chain.cons hf List.Chain.nil, rfl, rfl,
        by simp [RunEvent.isConnect], fun h0 _ => by simp [hw4, hw5, htk, h0, hcl]⟩
    | true =>
      exact ⟨false, [RunEvent.wait 5 s1.stopped true], RunEvent.wait 5 s1.stopped true,
        by simp [hw1, htr], List.Chain.cons hf List.Chain.nil, rfl, ⟨⟨_, _, rfl⟩, hw3 rfl⟩,
        by simp [RunEvent.isConnect], fun h0 _ => by simp [hw4, hw5, htk, h0, hcl]⟩
  · -- the authentication failed
    simp only [hca]
    obtain ⟨hw1, hw2, hw3, hw4, hw5⟩ := Session.waitOrStop_spec s1 5
    rcases hw : s1.waitOrStop 5 with ⟨s2, el⟩
    rw [hw] at hw1 hw2 hw3 hw4 hw5
    simp only at hw1 hw2 hw3 hw4 hw5
    have hf : (RunEvent.close CloseSite.authFailure true).Follows
        (RunEvent.wait 5 s1.stopped el) := by
      cases hs : s1.stopped <;> cases hel : el <;>
        simp_all [RunEvent.Follows, RunEvent.mayFollow]
    cases el with
    | false =>
      exact ⟨true, [RunEvent.sendIMEI sig (some err),
        RunEvent.close CloseSite.authFailure true, RunEvent.wait 5 s1.stopped false],
        RunEvent.wait 5 s1.stopped false, by simp [hw1, htr],
        List.Chain.cons rfl (List.Chain.cons rfl (List.Chain.cons hf List.Chain.nil)), rfl,
        rfl, by simp [RunEvent.isConnect], fun _ _ => by simp [hw4, hw5, hconn, hcl]⟩
    | true =>
      exact ⟨true, [RunEvent.sendIMEI sig (some err),
        RunEvent.close CloseSite.authFailure true, RunEvent.wait 5 s1.stopped true],
        RunEvent.wait 5 s1.stopped true, by simp [hw1, htr],
        List.Chain.cons rfl (List.Chain.cons rfl (List.Chain.cons hf List.Chain.nil)), rfl,
        ⟨⟨_, _, rfl⟩, hw3 rfl⟩, by simp [RunEvent.isConnect],
        fun _ _ => by simp [hw4, hw5, hconn, hcl]⟩
  · -- streaming
    simp only [hca]
    obtain ⟨evs, last, h1, h2, h3, h4, h5, h6, h7⟩ := Session.sendLoop_spec fuel s1 sig hconn
    have hc0 : List.Chain' RunEvent.Follows
        (RunEvent.connect s.stopped s.tracker.conn.isSome true ::
          RunEvent.sendIMEI sig none :: evs) := List.Chain.cons rfl h2
    have hl0 : (RunEvent.connect s.stopped s.tracker.conn.isSome true ::
        RunEvent.sendIMEI sig none :: evs).getLast? = some last := by
      rw [List.getLast?_cons_cons]; exact h3
    rcases hsl : s1.sendLoop fuel with ⟨s2, st⟩
    rw [hsl] at h1 h4 h5 h6
    simp only at h1 h4 h5 h6
    cases st with
    | panicked => cases last <;> simp [RunEvent.mayEndLoop] at h4
    | running =>
      refine ⟨true, RunEvent.sendIMEI sig none :: evs, last, by simp [h1, htr], hc0, hl0, ?_,
        ?_, ?_⟩
      · cases last <;> simp [RunEvent.mayEndLoop] at h4
        rename_i a b
        cases b <;> simp_all [RunEvent.mayEnd]
      · intro e he
        rcases List.mem_cons.mp he with rfl | he
        · rfl
        · exact h7 e he
      · intro _ hne
        exact absurd rfl hne
    | returned =>
      have hfc : last.Follows (RunEvent.close CloseSite.afterSendLoop true) := by
        cases last <;> simp [RunEvent.mayEndLoop] at h4
        · rename_i a b
          cases b <;> simp_all [RunEvent.Follows, RunEvent.mayFollow]
        · rename_i a b
          cases b <;> simp_all [RunEvent.Follows, RunEvent.mayFollow]
      obtain ⟨hc1, hl1⟩ := chain'_snoc hc0 hl0 hfc
      have hcs : (s2.Close CloseSite.afterSendLoop).trace =
          s2.trace ++ [RunEvent.close CloseSite.afterSendLoop true] := by
        simp [Session.Close, Session.log, h5]
      have hcn : (s2.Close CloseSite.afterSendLoop).tracker.conn = none := by
        obtain ⟨c, hc⟩ := Option.isSome_iff_exists.mp h5
        simp [Session.Close, Session.log, Tracker.Close, hc]
      have hcc : (s2.Close CloseSite.afterSendLoop).closed.length = s.closed.length + 1 := by
        obtain ⟨c, hc⟩ := Option.isSome_iff_exists.mp h5
        simp [Session.Close, Session.log, Tracker.Close, hc, h6, hcl]
      have hmem : ∀ (l : List RunEvent), (∀ e ∈ l, e.isConnect = false) →
          ∀ e ∈ (RunEvent.sendIMEI sig none :: evs) ++ l, e.isConnect = false := by
        intro l hl e he
        rcases List.mem_append.mp he with he | he
        · rcases List.mem_cons.mp he with rfl | he
          · rfl
          · exact h7 e he
        · exact hl e he
      simp only
      cases hst : (s2.Close CloseSite.afterSendLoop).stopped with
      | true =>
        simp only [if_true]
        obtain ⟨hc2, hl2⟩ := chain'_snoc hc1 hl1
          (show (RunEvent.close CloseSite.afterSendLoop true).Follows (RunEvent.stopCheck true)
            from rfl)
        refine ⟨true, (RunEvent.sendIMEI sig none :: evs) ++
          [RunEvent.close CloseSite.afterSendLoop true, RunEvent.stopCheck true],
          RunEvent.stopCheck true, by simp [Session.log, hcs, h1, htr], by simpa using hc2, by simpa using hl2, rfl,
          hmem _ (by simp [RunEvent.isConnect]), ?_⟩
        intro _ _
        exact ⟨by simpa [Session.log] using hcn, by simpa [Session.log] using hcc⟩
      | false =>
        simp only [Bool.false_eq_true, if_false]
        obtain ⟨hc2, hl2⟩ := chain'_snoc hc1 hl1
          (show (RunEvent.close CloseSite.afterSendLoop true).Follows (RunEvent.stopCheck false)
            from rfl)
        obtain ⟨hw1, hw2, hw3, hw4, hw5⟩ := Session.waitOrStop_spec
          ((s2.Close CloseSite.afterSendLoop).log (RunEvent.stopCheck false)) 5
        rcases hw : ((s2.Close CloseSite.afterSendLoop).log
          (RunEvent.stopCheck false)).waitOrStop 5 with ⟨s4, el⟩
        rw [hw] at hw1 hw2 hw3 hw4 hw5
        simp only at hw1 hw2 hw3 hw4 hw5
        have hst2 : ((s2.Close CloseSite.afterSendLoop).log
            (RunEvent.stopCheck false)).stopped = false := by
          simpa [Session.log] using hst
        rw [hst2] at hw1
        obtain ⟨hc3, hl3⟩ := chain'_snoc hc2 hl2
          (show (RunEvent.stopCheck false).Follows (RunEvent.wait 5 false el) from rfl)
        cases el with
        | false =>
          exact ⟨true, (RunEvent.sendIMEI sig none :: evs) ++
            [RunEvent.close CloseSite.afterSendLoop true, RunEvent.stopCheck false,
              RunEvent.wait 5 false false], RunEvent.wait 5 false false,
            by simp [hw1, Session.log, hcs, h1, htr], by simpa using hc3,
            by simpa using hl3, rfl, hmem _ (by simp [RunEvent.isConnect]),
            fun _ _ => by simp [hw4, hw5, Session.log, hcn, hcc]⟩
        | true =>
          exact ⟨true, (RunEvent.sendIMEI sig none :: evs) ++
            [RunEvent.close CloseSite.afterSendLoop true, RunEvent.stopCheck false,
              RunEvent.wait 5 false true], RunEvent.wait 5 false true,
            by simp [hw1, Session.log, hcs, h1, htr], by simpa using hc3,
            by simpa using hl3, ⟨⟨_, _, rfl⟩, hw3 rfl⟩,
            hmem _ (by simp [RunEvent.isConnect]),
            fun _ _ => by simp [hw4, hw5, Session.log, hcn, hcc]⟩

theorem RunEvent.isOpened_of_not_isConnect (e : RunEvent) (h : e.isConnect = false) :
    e.isOpened = false := by
  cases e <;> simp_all [RunEvent.isConnect, RunEvent.isOpened]

/-- The steps of `Run`, whatever the fuel: they follow the order of `Run`,
begin with a connect attempt, and end as `Run` may end; `Run` never panics. A
run begun without a connection makes every connect attempt without one, and
when it returns it holds no connection and has closed as many connections as
it opened. -/
theorem Session.Run_spec (fuel : Nat) (s : Session) :
    ∃ evs, (s.Run fuel).1.trace = s.trace ++ evs ∧
      List.Chain' RunEvent.Follows evs ∧
      (evs = [] → (s.Run fuel).2 = Status.running) ∧
      (∀ last, evs.getLast? = some last → last.mayEnd (s.Run fuel).2 = true) ∧
      (∀ e, evs.head? = some e →
        ∃ ok, e = RunEvent.connect s.stopped s.tracker.conn.isSome ok) ∧
      (s.tracker.conn = none →
        (∀ e ∈ evs, ∀ sig o ok, e = RunEvent.connect sig o ok → o = false) ∧
        ((s.Run fuel).2 = Status.returned →
          (s.Run fuel).1.tracker.conn = none ∧
          (s.Run fuel).1.closed.length =
            s.closed.length + (evs.filter RunEvent.isOpened).length)) := by
  induction fuel generalizing s with
  | zero =>
    refine ⟨[], by simp [Session.Run], List.chain'_nil, fun _ => rfl, by simp, by simp, ?_⟩
    intro _
    exact ⟨by simp, fun h => by simp [Session.Run] at h⟩
  | succ fuel ih =>
    obtain ⟨ok, evs1, last1, h1, h2, h3, h4, h5, h6⟩ := Session.runOnce_spec fuel s
    unfold Session.Run
    rcases hr : s.runOnce fuel with ⟨s1, r⟩
    rw [hr] at h1 h4 h6
    simp only at h1 h4 h6
    have hfil : (evs1.filter RunEvent.isOpened) = [] := by
      rw [List.filter_eq_nil_iff]
      intro e he
      rw [RunEvent.isOpened_of_not_isConnect e (h5 e he)]
      simp
    cases r with
    | some st =>
      simp only
      refine ⟨RunEvent.connect s.stopped s.tracker.conn.isSome ok :: evs1, h1, h2,
        fun h => by simp at h, ?_, ?_, ?_⟩
      · intro last hl
        rw [h3] at hl
        rw [← Option.some.inj hl]
        exact h4
      · intro e he
        exact ⟨ok, by simpa using he.symm⟩
      · intro h0
        refine ⟨?_, ?_⟩
        · intro e he sig o ok1 heq
          rcases List.mem_cons.mp he with rfl | he
          · injection heq with _ ho _
            rw [← ho, h0]; rfl
          · have := h5 e he
            rw [heq] at this
            simp [RunEvent.isConnect] at this
        · intro hst
          have hne : some st ≠ some Status.running := by rw [hst]; simp
          obtain ⟨hc, hcl⟩ := h6 h0 hne
          refine ⟨hc, ?_⟩
          rw [hcl, List.filter_cons, hfil]
          cases ok <;> simp [RunEvent.isOpened]
    | none =>
      simp only
      obtain ⟨⟨sec, sig, hlast⟩, hstop⟩ := h4
      obtain ⟨evs2, g1, g2, g3, g4, g5, g6⟩ := ih s1
      refine ⟨(RunEvent.connect s.stopped s.tracker.conn.isSome ok :: evs1) ++ evs2,
        by rw [g1, h1, List.append_assoc], ?_, fun h => by simp at h, ?_, ?_, ?_⟩
      · refine h2.append g2 ?_
        intro a ha b hb
        rw [h3] at ha
        obtain ⟨ok2, hb2⟩ := g5 b hb
        simp only [Option.mem_def, Option.some.injEq] at ha
        rw [← ha, hlast, hb2, hstop]
        rfl
      · intro last hl
        rw [List.getLast?_append] at hl
        cases hg : evs2.getLast? with
        | some l2 =>
          rw [hg] at hl
          simp only [Option.or_some, Option.some.injEq] at hl
          rw [← hl]
          exact g4 l2 hg
        | none =>
          rw [hg, h3] at hl
          simp only [Option.none_or, Option.some.injEq] at hl
          have he2 : evs2 = [] := List.getLast?_eq_none_iff.mp hg
          rw [g3 he2, ← hl, hlast]
          rfl
      · intro e he
        exact ⟨ok, by simpa using he.symm⟩
      · intro h0
        have hne : (none : Option Status) ≠ some Status.running := by simp
        obtain ⟨hc, hcl⟩ := h6 h0 hne
        obtain ⟨k1, k2⟩ := g6 hc
        refine ⟨?_, ?_⟩
        · intro e he sig o ok1 heq
          rcases List.mem_append.mp he with he | he
          · rcases List.mem_cons.mp he with rfl | he
            · injection heq with _ ho _
              rw [← ho, h0]; rfl
            · have := h5 e he
              rw [heq] at this
              simp [RunEvent.isConnect] at this
          · exact k1 e he sig o ok1 heq
        · intro hst
          obtain ⟨kc, kl⟩ := k2 hst
          refine ⟨kc, ?_⟩
          rw [kl, hcl, List.filter_append, List.filter_cons, hfil]
          cases ok
          · simp [RunEvent.isOpened]
          · simp [RunEvent.isOpened]; omega

/-! ## Session: reading the trace -/

theorem chain'_getElem? {l : List RunEvent} (h : List.Chain' RunEvent.Follows l) (i : Nat)
    (a b : RunEvent) (ha : l[i]? = some a) (hb : l[i + 1]? = some b) : a.Follows b := by
  induction l generalizing i with
  | nil => simp at ha
  | cons x t ih =>
    cases t with
    | nil => simp at hb
    | cons y t =>
      rw [List.chain'_cons] at h
      cases i with
      | zero =>
        simp only [List.getElem?_cons_zero, Option.some.injEq, zero_add,
          List.getElem?_cons_succ] at ha hb
        rw [← ha, ← hb]
        exact h.1
      | succ i =>
        simp only [List.getElem?_cons_succ] at ha hb
        exact ih h.2 i ha (by simpa using hb)

theorem getLast?_of_getElem? {l : List RunEvent} (i : Nat) (a : RunEvent)
    (ha : l[i]? = some a) (hb : l[i + 1]? = none) : l.getLast? = some a := by
  have h1 : i < l.length := (List.getElem?_eq_some_iff.mp ha).1
  have h2 : l.length ≤ i + 1 := List.getElem?_eq_none_iff.mp hb
  rw [List.getLast?_eq_getElem?, ← ha]
  congr 1
  omega

theorem RunEvent.follows_failedAuth {sig : Bool} {err : TrackerError} {b : RunEvent}
    (h : (RunEvent.sendIMEI sig (some err)).Follows b) :
    b = RunEvent.close CloseSite.authFailure true := by
  cases b <;> simp [RunEvent.Follows, RunEvent.mayFollow] at h
  rename_i site w
  cases site <;> cases w <;> simp_all [RunEvent.mayFollow]

theorem RunEvent.follows_closeAuth {w : Bool} {b : RunEvent}
    (h : (RunEvent.close CloseSite.authFailure w).Follows b) :
    ∃ sg el, b = RunEvent.wait 5 sg el := by
  cases b <;> simp [RunEvent.Follows, RunEvent.mayFollow] at h
  rename_i sec sg el
  by_cases h5 : sec = 5
  · subst h5; exact ⟨_, _, rfl⟩
  · simp [RunEvent.mayFollow, h5] at h

theorem RunEvent.follows_wait {sec : Nat} {sg el : Bool} {b : RunEvent}
    (h : (RunEvent.wait sec sg el).Follows b) :
    el = true ∧ ∃ o ok, b = RunEvent.connect false o ok := by
  cases el <;> cases b <;> simp [RunEvent.Follows, RunEvent.mayFollow] at h
  rename_i s2 o ok
  cases s2
  · exact ⟨rfl, _, _, rfl⟩
  · simp [RunEvent.mayFollow] at h

theorem RunEvent.follows_connect {a : RunEvent} {sg o ok : Bool}
    (h : a.Follows (RunEvent.connect sg o ok)) : sg = false := by
  cases a <;> cases sg <;> simp [RunEvent.Follows, RunEvent.mayFollow] at h ⊢

theorem RunEvent.follows_next {a : RunEvent} {c : SendCause} {idx : Nat}
    (h : a.Follows (RunEvent.next true c idx)) : c = SendCause.first ∨ c = SendCause.pendingTick := by
  cases c
  · exact Or.inl rfl
  · cases a <;> simp [RunEvent.Follows, RunEvent.mayFollow] at h
  · exact Or.inr rfl

theorem RunEvent.follows_waitSignalled {a : RunEvent} {sec : Nat} {el : Bool}
    (h : a.Follows (RunEvent.wait sec true el)) : el = false := by
  cases el
  · rfl
  · by_cases h5 : sec = 5
    · subst h5
      cases a <;> simp [RunEvent.Follows, RunEvent.mayFollow] at h
      · rename_i x y z; cases z <;> simp at h
      · rename_i x y; cases x <;> simp at h
    · cases a <;> simp [RunEvent.Follows, RunEvent.mayFollow, h5] at h

theorem RunEvent.follows_timerSignalled {a : RunEvent} {o : TimerOutcome}
    (h : a.Follows (RunEvent.timer true o)) : o = TimerOutcome.pendingTick ∨ o = TimerOutcome.stop := by
  cases o
  · cases a <;> simp [RunEvent.Follows, RunEvent.mayFollow] at h
  · exact Or.inl rfl
  · exact Or.inr rfl

theorem RunEvent.not_mayEnd {a : RunEvent} {st : Status}
    (ha : (∃ sig err, a = RunEvent.sendAVLData sig (some err)) ∨
      (∃ sig err, a = RunEvent.sendIMEI sig err) ∨ (∃ site w, a = RunEvent.close site w) ∨
      a = RunEvent.stopCheck false ∨ (∃ sg c i, a = RunEvent.next sg c i) ∨
      (∃ sg o ok, a = RunEvent.connect sg o ok) ∨ (∃ sg o, a = RunEvent.timer sg o)) :
    a.mayEnd st = false := by
  rcases ha with ⟨_, _, rfl⟩ | ⟨_, _, rfl⟩ | ⟨_, _, rfl⟩ | rfl | ⟨_, _, _, rfl⟩ | ⟨_, _, _, rfl⟩ |
    ⟨_, _, rfl⟩ <;> cases st <;> simp [RunEvent.mayEnd]

/-- The steps a run adds to the trace, read off `Run_spec`. -/
theorem Session.Run_events (fuel : Nat) (s : Session) (evs : List RunEvent)
    (htr : (s.Run fuel).1.trace = s.trace ++ evs) :
    List.Chain' RunEvent.Follows evs ∧
      (∀ last, evs.getLast? = some last → last.mayEnd (s.Run fuel).2 = true) ∧
      (∀ e, evs.head? = some e →
        ∃ ok, e = RunEvent.connect s.stopped s.tracker.conn.isSome ok) ∧
      (s.tracker.conn = none →
        (∀ e ∈ evs, ∀ sig o ok, e = RunEvent.connect sig o ok → o = false) ∧
        ((s.Run fuel).2 = Status.returned →
          (s.Run fuel).1.tracker.conn = none ∧
          (s.Run fuel).1.closed.length =
            s.closed.length + (evs.filter RunEvent.isOpened).length)) := by
  obtain ⟨evs1, h1, h2, _, h4, h5, h6⟩ := Session.Run_spec fuel s
  have : evs = evs1 := List.append_cancel_left (htr.symm.trans h1)
  subst this
  exact ⟨h2, h4, h5, h6⟩

/-- After any step of a run comes either nothing, and then the run may end
there, or a step that may follow it. -/
theorem Session.Run_step (fuel : Nat) (s : Session) (evs : List RunEvent)
    (htr : (s.Run fuel).1.trace = s.trace ++ evs) (i : Nat) (a : RunEvent)
    (ha : evs[i]? = some a) :
    (evs[i + 1]? = none ∧ a.mayEnd (s.Run fuel).2 = true) ∨
      ∃ b, evs[i + 1]? = some b ∧ a.Follows b := by
  obtain ⟨h2, h4, _, _⟩ := Session.Run_events fuel s evs htr
  cases hb : evs[i + 1]? with
  | none => exact Or.inl ⟨rfl, h4 a (getLast?_of_getElem? i a ha hb)⟩
  | some b => exact Or.inr ⟨b, rfl, chain'_getElem? h2 i a b ha hb⟩

/-- Before any step of a run but the first comes a step that it may follow;
the first step is a connect attempt. -/
theorem Session.Run_pred (fuel : Nat) (s : Session) (evs : List RunEvent)
    (htr : (s.Run fuel).1.trace = s.trace ++ evs) (i : Nat) (b : RunEvent)
    (hb : evs[i]? = some b) :
    (i = 0 ∧ ∃ ok, b = RunEvent.connect s.stopped s.tracker.conn.isSome ok) ∨
      ∃ j a, i = j + 1 ∧ evs[j]? = some a ∧ a.Follows b := by
  obtain ⟨h2, _, h5, _⟩ := Session.Run_events fuel s evs htr
  cases i with
  | zero =>
    left
    refine ⟨rfl, h5 b ?_⟩
    rw [List.head?_eq_getElem?]
    exact hb
  | succ j =>
    right
    have hj : j < evs.length := by
      have := (List.getElem?_eq_some_iff.mp hb).1
      omega
    exact ⟨j, evs[j], rfl, List.getElem?_eq_getElem hj,
      chain'_getElem? h2 j _ b (List.getElem?_eq_getElem hj) hb⟩

/-! ## Session: the state of the connection along the trace -/

theorem RunEvent.connAfterAll_append (o : Bool) (l1 l2 : List RunEvent) :
    RunEvent.connAfterAll o (l1 ++ l2) =
      RunEvent.connAfterAll (RunEvent.connAfterAll o l1) l2 := by
  induction l1 generalizing o with
  | nil => rfl
  | cons e t ih => simp [RunEvent.connAfterAll, ih]

theorem RunEvent.flagsOk_append (o : Bool) (l1 l2 : List RunEvent) :
    RunEvent.flagsOk o (l1 ++ l2) =
      (RunEvent.flagsOk o l1 && RunEvent.flagsOk (RunEvent.connAfterAll o l1) l2) := by
  induction l1 generalizing o with
  | nil => simp [RunEvent.flagsOk, RunEvent.connAfterAll]
  | cons e t ih => simp [RunEvent.flagsOk, RunEvent.connAfterAll, ih, Bool.and_assoc]

theorem Session.Replays.trans {s s1 s2 : Session} {e1 e2 : List RunEvent}
    (h1 : s.Replays s1 e1) (h2 : s1.Replays s2 e2) : s.Replays s2 (e1 ++ e2) := by
  obtain ⟨a1, a2, a3, n1, a4, a5, a6⟩ := h1
  obtain ⟨b1, b2, b3, n2, b4, b5, b6⟩ := h2
  refine ⟨by rw [b1, a1, List.append_assoc], ?_, ?_, n1 ++ n2, ?_, ?_, ?_⟩
  · rw [RunEvent.flagsOk_append, a2, ← a3, b2]; rfl
  · rw [RunEvent.connAfterAll_append, ← a3, b3]
  · rw [b4, a4, List.append_assoc]
  · rw [List.filter_append, List.length_append, List.length_append, a5, b5]
  · intro c hc
    rcases List.mem_append.mp hc with hc | hc
    · exact a6 c hc
    · exact b6 c hc

/-- Steps that are neither a connect attempt nor a `Close` leave the
connection as it is. -/
theorem Session.Replays.of_quiet {s s1 : Session} {evs : List RunEvent}
    (htr : s1.trace = s.trace ++ evs) (hq : ∀ e ∈ evs, e.touchesConn = false)
    (hc : s1.tracker.conn.isSome = s.tracker.conn.isSome) (hcl : s1.closed = s.closed) :
    s.Replays s1 evs := by
  have key : ∀ (l : List RunEvent), (∀ e ∈ l, e.touchesConn = false) → ∀ o : Bool,
      RunEvent.flagsOk o l = true ∧ RunEvent.connAfterAll o l = o ∧
        l.filter RunEvent.isClosing = [] := by
    intro l
    induction l with
    | nil => intro _ o; simp [RunEvent.flagsOk, RunEvent.connAfterAll]
    | cons e t ih =>
      intro h o
      have he := h e (List.mem_cons_self _ _)
      obtain ⟨k1, k2, k3⟩ := ih (fun x hx => h x (List.mem_cons_of_mem _ hx)) o
      cases e <;> simp_all [RunEvent.touchesConn, RunEvent.flagsOk, RunEvent.connAfterAll,
        RunEvent.flagOk, RunEvent.connAfter, RunEvent.isClosing]
  obtain ⟨k1, k2, k3⟩ := key evs hq s.tracker.conn.isSome
  exact ⟨htr, k1, by rw [k2, hc], [], by rw [hcl]; simp, by rw [k3]; rfl, by simp⟩

theorem Session.pass_stopped (s : Session) (h : s.stopped = true) : s.pass.stopped = true := by
  unfold Session.pass
  split <;> simp [h]

theorem Session.waitOrStopAsync_spec (s : Session) (seconds : Nat) :
    (s.waitOrStopAsync seconds).1.trace =
        s.trace ++ [RunEvent.wait seconds s.stopped (s.waitOrStopAsync seconds).2] ∧
      (s.stopped = true → (s.waitOrStopAsync seconds).2 = false) := by
  unfold Session.waitOrStopAsync
  cases hs : s.stopped with
  | true => simp [Session.log]
  | false =>
    cases hp : s.pass.stopped <;> simp [Session.log, hp]

theorem Session.pass_of_signalIn_none (s : Session) (h : s.signalIn = none) : s.pass = s := by
  unfold Session.pass
  rw [h]

theorem Session.sendOneAsync_eq (s : Session) (cause : SendCause) (h : s.signalIn = none) :
    s.sendOneAsync cause = s.sendOne cause ∧ (s.sendOne cause).1.signalIn = none := by
  have h1 : ({ s.log (RunEvent.next s.stopped cause s.genCalls) with
      genCalls := s.genCalls + 1 } : Session).signalIn = none := by
    simpa [Session.log] using h
  unfold Session.sendOneAsync Session.sendOne
  simp only [Session.pass_of_signalIn_none _ h1]
  rcases ({ s.log (RunEvent.next s.stopped cause s.genCalls) with
      genCalls := s.genCalls + 1 } : Session).tracker.SendAVLData
      (BuildAVLPacket [EncodeAVLRecord s.impl (s.gen s.genCalls)]) with _ | ⟨t, acc, err⟩
  · exact ⟨trivial, h1⟩
  · have h2 : ({ ({ s.log (RunEvent.next s.stopped cause s.genCalls) with
        genCalls := s.genCalls + 1 } : Session).log (RunEvent.sendAVLData
          ({ s.log (RunEvent.next s.stopped cause s.genCalls) with
            genCalls := s.genCalls + 1 } : Session).stopped err) with
        tracker := t } : Session).signalIn = none := by
      simpa [Session.log] using h
    simp only [Session.pass_of_signalIn_none _ h2]
    exact ⟨trivial, h2⟩

theorem Session.waitOrStopAsync_eq (s : Session) (seconds : Nat) (h : s.signalIn = none) :
    s.waitOrStopAsync seconds = s.waitOrStop seconds ∧
      (s.waitOrStop seconds).1.signalIn = none := by
  have h1 : (s.log (RunEvent.wait seconds false true)).signalIn = none := by
    simpa [Session.log] using h
  unfold Session.waitOrStopAsync Session.waitOrStop
  simp only [Session.pass_of_signalIn_none _ h, Session.pass_of_signalIn_none _ h1]
  cases hs : s.stopped <;> simp [Session.log, h, hs]

theorem Session.sendLoopFromAsync_eq (fuel : Nat) (s : Session) (h : s.signalIn = none) :
    s.sendLoopFromAsync fuel = s.sendLoopFrom fuel ∧
      (s.sendLoopFrom fuel).1.signalIn = none := by
  induction fuel generalizing s with
  | zero => exact ⟨rfl, h⟩
  | succ fuel ih =>
    unfold Session.sendLoopFromAsync Session.sendLoopFrom
    cases hst : s.stopped with
    | true =>
      simp only [if_true]
      cases hp : s.pendingTicks.headD false with
      | false => exact ⟨rfl, by simpa [Session.log] using h⟩
      | true =>
        simp only [if_true]
        have h1 : ({ s.log (RunEvent.timer true TimerOutcome.pendingTick) with
            pendingTicks := s.pendingTicks.tail } : Session).signalIn = none := by
          simpa [Session.log] using h
        obtain ⟨e1, e2⟩ := Session.sendOneAsync_eq _ SendCause.pendingTick h1
        rw [e1]
        rcases hs : Session.sendOne ({ s.log (RunEvent.timer true TimerOutcome.pendingTick) with
            pendingTicks := s.pendingTicks.tail }) SendCause.pendingTick with ⟨s2, r⟩
        rw [hs] at e2
        rcases r with _ | _ | _
        · exact ⟨rfl, e2⟩
        · exact ⟨rfl, e2⟩
        · exact ih s2 e2
    | false =>
      simp only [Bool.false_eq_true, if_false, Session.pass_of_signalIn_none _ h, hst]
      have h1 : (s.log (RunEvent.timer false TimerOutcome.tick)).signalIn = none := by
        simpa [Session.log] using h
      simp only [Session.pass_of_signalIn_none _ h1]
      obtain ⟨e1, e2⟩ := Session.sendOneAsync_eq _ SendCause.tick h1
      rw [e1]
      rcases hs : Session.sendOne (s.log (RunEvent.timer false TimerOutcome.tick))
        SendCause.tick with ⟨s2, r⟩
      rw [hs] at e2
      rcases r with _ | _ | _
      · exact ⟨rfl, e2⟩
      · exact ⟨rfl, e2⟩
      · exact ih s2 e2

theorem Session.sendLoopAsync_eq (fuel : Nat) (s : Session) (h : s.signalIn = none) :
    s.sendLoopAsync fuel = s.sendLoop fuel ∧ (s.sendLoop fuel).1.signalIn = none := by
  unfold Session.sendLoopAsync Session.sendLoop
  obtain ⟨e1, e2⟩ := Session.sendOneAsync_eq s SendCause.first h
  rw [e1]
  rcases hs : s.sendOne SendCause.first with ⟨s1, r⟩
  rw [hs] at e2
  rcases r with _ | _ | _
  · exact ⟨rfl, e2⟩
  · exact ⟨rfl, e2⟩
  · exact Session.sendLoopFromAsync_eq fuel s1 e2

theorem Session.connectAndAuthenticate_signalIn (s s1 : Session) (e : Option TrackerError)
    (h : s.connectAndAuthenticate = some (s1, e)) (hs : s.signalIn = none) :
    s1.signalIn = none := by
  have hp : (s.log (RunEvent.connect s.stopped s.tracker.conn.isSome
      (s.tracker.Connect (s.dials.headD none)).2.isNone)).pass.signalIn = none := by
    rw [Session.pass_of_signalIn_none _ (by simpa [Session.log] using hs)]
    simpa [Session.log] using hs
  unfold Session.connectAndAuthenticate Session.Connect at h
  rcases hd : s.dials.headD none with _ | c
  · rw [hd] at h hp
    simp only [Tracker.Connect, Option.some.injEq, Prod.mk.injEq] at h
    rw [← h.1]
    simpa [Tracker.Connect] using hp
  · rw [hd] at h hp
    simp only [Tracker.Connect, Option.isNone_none] at h hp
    obtain ⟨c1, err, hse⟩ := Tracker.SendIMEI_open { s.tracker with conn := some c } c rfl
    cases err with
    | some e1 =>
      simp only [hse, Option.some.injEq, Prod.mk.injEq] at h
      rw [← h.1]
      have h2 : ({ ({ (s.log (RunEvent.connect s.stopped s.tracker.conn.isSome true)).pass with
            tracker := { s.tracker with conn := some c }, dials := s.dials.tail } : Session).log
          (RunEvent.sendIMEI (s.log (RunEvent.connect s.stopped s.tracker.conn.isSome
            true)).pass.stopped (some e1)) with
          tracker := { s.tracker with conn := some c1 } } : Session).signalIn = none := by
        simpa [Session.log] using hp
      have := Session.pass_of_signalIn_none _ h2
      simp only [Session.Close, Session.log] at this ⊢
      rw [this]
      simpa [Session.log] using hp
    | none =>
      simp only [hse, Option.some.injEq, Prod.mk.injEq] at h
      rw [← h.1]
      have h2 : ({ ({ (s.log (RunEvent.connect s.stopped s.tracker.conn.isSome true)).pass with
            tracker := { s.tracker with conn := some c }, dials := s.dials.tail } : Session).log
          (RunEvent.sendIMEI (s.log (RunEvent.connect s.stopped s.tracker.conn.isSome
            true)).pass.stopped none) with
          tracker := { s.tracker with conn := some c1 } } : Session).signalIn = none := by
        simpa [Session.log] using hp
      rw [Session.pass_of_signalIn_none _ h2]
      exact h2

theorem Session.runOnceAsync_eq (fuel : Nat) (s : Session) (h : s.signalIn = none) :
    s.runOnceAsync fuel = s.runOnce fuel ∧ (s.runOnce fuel).1.signalIn = none := by
  unfold Session.runOnceAsync Session.runOnce
  rcases hca : s.connectAndAuthenticate with _ | ⟨s1, err⟩
  · exact ⟨rfl, h⟩
  have h1 := Session.connectAndAuthenticate_signalIn s s1 err hca h
  cases err with
  | some e =>
    simp only
    obtain ⟨e1, e2⟩ := Session.waitOrStopAsync_eq s1 5 h1
    rw [e1]
    rcases hw : s1.waitOrStop 5 with ⟨s2, el⟩
    rw [hw] at e2
    cases el <;> exact ⟨rfl, e2⟩
  | none =>
    simp only
    obtain ⟨e1, e2⟩ := Session.sendLoopAsync_eq fuel s1 h1
    rw [e1]
    rcases hsl : s1.sendLoop fuel with ⟨s2, st⟩
    rw [hsl] at e2
    simp only at e2
    cases st with
    | panicked => exact ⟨rfl, e2⟩
    | running => exact ⟨rfl, e2⟩
    | returned =>
      simp only
      have h3 : (s2.Close CloseSite.afterSendLoop).signalIn = none := by
        simpa [Session.Close, Session.log] using e2
      cases hst : (s2.Close CloseSite.afterSendLoop).stopped with
      | true => exact ⟨rfl, by simpa [Session.log] using h3⟩
      | false =>
        simp only [Bool.false_eq_true, if_false]
        have h4 : ((s2.Close CloseSite.afterSendLoop).log
            (RunEvent.stopCheck false)).signalIn = none := by
          simpa [Session.log] using h3
        rw [Session.pass_of_signalIn_none _ h4]
        obtain ⟨e3, e4⟩ := Session.waitOrStopAsync_eq _ 5 h4
        rw [e3]
        rcases hw : ((s2.Close CloseSite.afterSendLoop).log
          (RunEvent.stopCheck false)).waitOrStop 5 with ⟨s4, el⟩
        rw [hw] at e4
        cases el <;> exact ⟨rfl, e4⟩

/-- When the stop channel is never closed after the start of the run, it
makes no difference whether it could have been closed at any moment or only
during a blocking operation: `RunAsync` and `Run` are the same run. -/
theorem Session.RunAsync_eq_Run (fuel : Nat) (s : Session) (h : s.signalIn = none) :
    s.RunAsync fuel = s.Run fuel := by
  induction fuel generalizing s with
  | zero => rfl
  | succ fuel ih =>
    unfold Session.RunAsync Session.Run
    obtain ⟨e1, e2⟩ := Session.runOnceAsync_eq fuel s h
    rw [e1]
    rcases hr : s.runOnce fuel with ⟨s1, r⟩
    rw [hr] at e2
    cases r with
    | some st => rfl
    | none => exact ih s1 e2

/-! ## Session: the order of the steps with the stop signal at any moment -/

theorem Session.sendOneAsync_open (s : Session) (cause : SendCause)
    (h : s.tracker.conn.isSome = true) :
    ∃ s1 sg err, s.sendOneAsync cause = (s1, some (Option.isNone err)) ∧
      s1.trace = s.trace ++ [RunEvent.next s.stopped cause s.genCalls,
        RunEvent.sendAVLData sg err] ∧
      (s.stopped = true → sg = true) ∧
      s1.tracker.conn.isSome = true ∧ s1.closed = s.closed := by
  obtain ⟨c, hc⟩ := Option.isSome_iff_exists.mp h
  unfold Session.sendOneAsync
  obtain ⟨c1, acc, err, hs⟩ := Tracker.SendAVLData_open
    (({ s.log (RunEvent.next s.stopped cause s.genCalls) with
      genCalls := s.genCalls + 1 } : Session).pass).tracker c
    (BuildAVLPacket [EncodeAVLRecord s.impl (s.gen s.genCalls)])
    (by simpa [Session.log] using hc)
  simp only [hs]
  refine ⟨_, (({ s.log (RunEvent.next s.stopped cause s.genCalls) with
      genCalls := s.genCalls + 1 } : Session).pass).stopped, err, rfl, by simp [Session.log],
    ?_, by simp [Session.log], by simp [Session.log]⟩
  intro hst
  exact Session.pass_stopped _ (by simpa [Session.log] using hst)

theorem RunEvent.followsAsync_send (sg sg1 : Bool) (cause : SendCause) (idx : Nat)
    (err : Option TrackerError) (h : sg = true → sg1 = true) :
    (RunEvent.next sg cause idx).FollowsAsync (RunEvent.sendAVLData sg1 err) := by
  cases sg <;> cases sg1 <;> simp_all [RunEvent.FollowsAsync, RunEvent.mayFollowAsync]

/-- The rounds of the send loop when the stop channel can be closed at any
moment: the steps they add follow the order of `RunAsync` from a successful
send on, the loop ends as it may, and the connection stays open. -/
theorem Session.sendLoopFromAsync_chain (fuel : Nat) (s : Session) (sig0 : Bool)
    (h : s.tracker.conn.isSome = true) :
    ∃ evs last, (s.sendLoopFromAsync fuel).1.trace = s.trace ++ evs ∧
      List.Chain RunEvent.FollowsAsync (RunEvent.sendAVLData sig0 none) evs ∧
      (RunEvent.sendAVLData sig0 none :: evs).getLast? = some last ∧
      last.mayEndLoop (s.sendLoopFromAsync fuel).2 = true ∧
      (s.sendLoopFromAsync fuel).1.tracker.conn.isSome = true ∧
      (s.sendLoopFromAsync fuel).1.closed = s.closed ∧
      ∀ e ∈ evs, e.touchesConn = false := by
  induction fuel generalizing s sig0 with
  | zero =>
    exact ⟨[], _, by simp [Session.sendLoopFromAsync], List.Chain.nil, rfl, rfl, h, rfl,
      by simp⟩
  | succ fuel ih =>
    unfold Session.sendLoopFromAsync
    cases hst : s.stopped with
    | true =>
      simp only [if_true]
      cases hp : s.pendingTicks.headD false with
      | false =>
        refine ⟨[RunEvent.timer true TimerOutcome.stop], _, by simp [Session.log], ?_, rfl, rfl,
          by simpa [Session.log] using h, by simp [Session.log],
          by simp [RunEvent.touchesConn]⟩
        exact List.Chain.cons rfl List.Chain.nil
      | true =>
        simp only [if_true]
        obtain ⟨s2, sg, err, hs2, htr, hsg, hconn, hcl⟩ := Session.sendOneAsync_open
          ({ s.log (RunEvent.timer true TimerOutcome.pendingTick) with
            pendingTicks := s.pendingTicks.tail }) SendCause.pendingTick
          (by simpa [Session.log] using h)
        rw [hs2]
        have hstop : ({ s.log (RunEvent.timer true TimerOutcome.pendingTick) with
            pendingTicks := s.pendingTicks.tail } : Session).stopped = true := by
          simpa [Session.log] using hst
        rw [hstop] at htr
        have hsend := RunEvent.followsAsync_send true sg SendCause.pendingTick s.genCalls err
          (fun _ => hsg hstop)
        cases err with
        | some e =>
          refine ⟨[RunEvent.timer true TimerOutcome.pendingTick,
            RunEvent.next true SendCause.pendingTick s.genCalls,
            RunEvent.sendAVLData sg (some e)], _,
            by simp [htr, Session.log], ?_, rfl, rfl, hconn, by simp [hcl, Session.log],
            by simp [RunEvent.touchesConn]⟩
          exact List.Chain.cons rfl (List.Chain.cons rfl (List.Chain.cons hsend List.Chain.nil))
        | none =>
          obtain ⟨evs, last, h1, h2, h3, h4, h5, h6, h7⟩ := ih s2 sg hconn
          refine ⟨[RunEvent.timer true TimerOutcome.pendingTick,
            RunEvent.next true SendCause.pendingTick s.genCalls] ++
              RunEvent.sendAVLData sg none :: evs,
            last, by simp [h1, htr, Session.log], ?_, ?_, h4, h5,
            by simp [h6, hcl, Session.log], ?_⟩
          · rw [List.chain_split]
            exact ⟨List.Chain.cons rfl (List.Chain.cons rfl
              (List.Chain.cons hsend List.Chain.nil)), h2⟩
          · simpa using h3
          · intro e he
            simp only [List.cons_append, List.nil_append, List.mem_cons] at he
            rcases he with rfl | rfl | rfl | he
            · rfl
            · rfl
            · rfl
            · exact h7 e he
    | false =>
      simp only [Bool.false_eq_true, if_false]
      cases hps : s.pass.stopped with
      | true =>
        refine ⟨[RunEvent.timer false TimerOutcome.stop], _, by simp [Session.log], ?_, rfl,
          rfl, by simpa [Session.log] using h, by simp [Session.log],
          by simp [RunEvent.touchesConn]⟩
        exact List.Chain.cons rfl List.Chain.nil
      | false =>
        simp only [Bool.false_eq_true, if_false]
        obtain ⟨s2, sg, err, hs2, htr, hsg, hconn, hcl⟩ := Session.sendOneAsync_open
          (s.pass.log (RunEvent.timer false TimerOutcome.tick)).pass SendCause.tick
          (by simpa [Session.log] using h)
        rw [hs2]
        generalize hb : (s.pass.log (RunEvent.timer false TimerOutcome.tick)).pass.stopped = b
          at htr hsg
        have hsend := RunEvent.followsAsync_send b sg SendCause.tick s.genCalls err hsg
        have htick : (RunEvent.timer false TimerOutcome.tick).FollowsAsync
            (RunEvent.next b SendCause.tick s.genCalls) := by
          cases b <;> rfl
        cases err with
        | some e =>
          refine ⟨[RunEvent.timer false TimerOutcome.tick,
            RunEvent.next b SendCause.tick s.genCalls, RunEvent.sendAVLData sg (some e)], _,
            by simp [htr, Session.log], ?_, rfl, rfl, hconn, by simp [hcl, Session.log],
            by simp [RunEvent.touchesConn]⟩
          exact List.Chain.cons rfl (List.Chain.cons htick
            (List.Chain.cons hsend List.Chain.nil))
        | none =>
          obtain ⟨evs, last, h1, h2, h3, h4, h5, h6, h7⟩ := ih s2 sg hconn
          refine ⟨[RunEvent.timer false TimerOutcome.tick,
            RunEvent.next b SendCause.tick s.genCalls] ++ RunEvent.sendAVLData sg none :: evs,
            last, by simp [h1, htr, Session.log], ?_, ?_, h4, h5,
            by simp [h6, hcl, Session.log], ?_⟩
          · rw [List.chain_split]
            exact ⟨List.Chain.cons rfl (List.Chain.cons htick
              (List.Chain.cons hsend List.Chain.nil)), h2⟩
          · simpa using h3
          · intro e he
            simp only [List.cons_append, List.nil_append, List.mem_cons] at he
            rcases he with rfl | rfl | rfl | he
            · rfl
            · rfl
            · rfl
            · exact h7 e he

theorem chain'_snoc_async {l : List RunEvent} {x y : RunEvent}
    (h : List.Chain' RunEvent.FollowsAsync l) (hl : l.getLast? = some x)
    (hr : x.FollowsAsync y) :
    List.Chain' RunEvent.FollowsAsync (l ++ [y]) ∧ (l ++ [y]).getLast? = some y := by
  refine ⟨h.append (List.chain'_singleton y) ?_, List.getLast?_concat l⟩
  intro a ha b hb
  rw [hl] at ha
  simp only [List.head?_cons, Option.mem_def, Option.some.injEq] at ha hb
  rw [← ha, ← hb]
  exact hr

/-- The send loop as a whole when the stop channel can be closed at any
moment, entered after a successful authentication. -/
theorem Session.sendLoopAsync_chain (fuel : Nat) (s : Session) (sig0 : Bool)
    (h : s.tracker.conn.isSome = true) :
    ∃ evs last, (s.sendLoopAsync fuel).1.trace = s.trace ++ evs ∧
      List.Chain' RunEvent.FollowsAsync (RunEvent.sendIMEI sig0 none :: evs) ∧
      (RunEvent.sendIMEI sig0 none :: evs).getLast? = some last ∧
      last.mayEndLoop (s.sendLoopAsync fuel).2 = true ∧
      (s.sendLoopAsync fuel).1.tracker.conn.isSome = true ∧
      (s.sendLoopAsync fuel).1.closed = s.closed ∧
      ∀ e ∈ evs, e.touchesConn = false := by
  unfold Session.sendLoopAsync
  obtain ⟨s1, sg, err, hs1, htr, hsg, hconn, hcl⟩ :=
    Session.sendOneAsync_open s SendCause.first h
  rw [hs1]
  have hsend := RunEvent.followsAsync_send s.stopped sg SendCause.first s.genCalls err hsg
  cases err with
  | some e =>
    refine ⟨[RunEvent.next s.stopped SendCause.first s.genCalls,
      RunEvent.sendAVLData sg (some e)], _, htr, ?_, rfl, rfl, hconn, hcl,
      by simp [RunEvent.touchesConn]⟩
    exact List.Chain.cons rfl (List.Chain.cons hsend List.Chain.nil)
  | none =>
    simp only [Option.isNone_none]
    obtain ⟨evs, last, h1, h2, h3, h4, h5, h6, h7⟩ :=
      Session.sendLoopFromAsync_chain fuel s1 sg hconn
    refine ⟨RunEvent.next s.stopped SendCause.first s.genCalls ::
      RunEvent.sendAVLData sg none :: evs, last, by simp [h1, htr], ?_, ?_, h4, h5,
      by rw [h6, hcl], ?_⟩
    · exact List.Chain.cons rfl (List.Chain.cons hsend h2)
    · simpa using h3
    · intro e he
      simp only [List.mem_cons] at he
      rcases he with rfl | rfl | he
      · rfl
      · rfl
      · exact h7 e he

theorem RunEvent.followsAsync_wait (a : RunEvent) (sg el : Bool) (h : (sg && el) = false)
    (ha : (∃ sgc o, a = RunEvent.connect sgc o false) ∨
      (∃ w, a = RunEvent.close CloseSite.authFailure w) ∨ a = RunEvent.stopCheck false) :
    a.FollowsAsync (RunEvent.wait 5 sg el) := by
  rcases ha with ⟨sgc, o, rfl⟩ | ⟨w, rfl⟩ | rfl <;> cases sg <;> cases el <;>
    simp_all [RunEvent.FollowsAsync, RunEvent.mayFollowAsync]

theorem RunEvent.followsAsync_close_of_mayEndLoop (last : RunEvent)
    (h : last.mayEndLoop Status.returned = true) :
    last.FollowsAsync (RunEvent.close CloseSite.afterSendLoop true) := by
  cases last <;> simp [RunEvent.mayEndLoop] at h
  · rename_i a b
    cases b <;> simp_all [RunEvent.FollowsAsync, RunEvent.mayFollowAsync]
  · rename_i a b
    cases b <;> simp_all [RunEvent.FollowsAsync, RunEvent.mayFollowAsync]

theorem RunEvent.mayEnd_of_mayEndLoop (last : RunEvent)
    (h : last.mayEndLoop Status.running = true) : last.mayEnd Status.running = true := by
  cases last <;> simp [RunEvent.mayEndLoop] at h
  rename_i a b
  cases b <;> simp_all [RunEvent.mayEnd]

theorem RunEvent.not_mayEndLoop_panicked (last : RunEvent) :
    last.mayEndLoop Status.panicked = false := by
  cases last <;> simp [RunEvent.mayEndLoop]

/-- A backoff wait at the end of a round of `RunAsync`: it follows the steps
before it in the order of `RunAsync`, and the round goes round again after a
wait that elapsed and ends the run after a wait that stop cut short. -/
theorem Session.waitOrStopAsync_chain (s1 : Session) (a : RunEvent)
    (ha : ∀ sg el, (sg && el) = false → a.FollowsAsync (RunEvent.wait 5 sg el))
    (pre : List RunEvent) (hpre : List.Chain' RunEvent.FollowsAsync pre)
    (hlast : pre.getLast? = some a) :
    ∃ last, (s1.waitOrStopAsync 5).1.trace = s1.trace ++ [last] ∧
      List.Chain' RunEvent.FollowsAsync (pre ++ [last]) ∧
      (pre ++ [last]).getLast? = some last ∧
      (match (if (s1.waitOrStopAsync 5).2 then (none : Option Status)
          else some Status.returned) with
        | none => ∃ sec, last = RunEvent.wait sec false true
        | some st => last.mayEnd st = true) := by
  obtain ⟨hw1, hw2⟩ := Session.waitOrStopAsync_spec s1 5
  rcases hw : s1.waitOrStopAsync 5 with ⟨s2, el⟩
  rw [hw] at hw1 hw2
  simp only at hw1 hw2
  have hse : (s1.stopped && el) = false := by
    cases hs : s1.stopped with
    | false => rfl
    | true => rw [hw2 hs]; rfl
  obtain ⟨hc, hl⟩ := chain'_snoc_async hpre hlast (ha s1.stopped el hse)
  refine ⟨RunEvent.wait 5 s1.stopped el, hw1, hc, hl, ?_⟩
  cases el with
  | false => rfl
  | true =>
    refine ⟨5, ?_⟩
    cases hs : s1.stopped with
    | false => rfl
    | true => rw [hs] at hse; simp at hse

theorem Session.waitOrStopAsync_result (s1 : Session) :
    (match s1.waitOrStopAsync 5 with
      | (s2, false) => (s2, some Status.returned)
      | (s2, true) => (s2, (none : Option Status))) =
      ((s1.waitOrStopAsync 5).1,
        if (s1.waitOrStopAsync 5).2 then (none : Option Status) else some Status.returned) := by
  rcases s1.waitOrStopAsync 5 with ⟨s2, el⟩
  cases el <;> rfl

/-- One round of the loop of `RunAsync`: it begins with a connect attempt,
the steps follow the order of `RunAsync`, and the round ends as it may: by
going round again after a wait that elapsed, or by ending the run. -/
theorem Session.runOnceAsync_chain (fuel : Nat) (s : Session) :
    ∃ ok evs last,
      (s.runOnceAsync fuel).1.trace =
        s.trace ++ RunEvent.connect s.stopped s.tracker.conn.isSome ok :: evs ∧
      List.Chain' RunEvent.FollowsAsync
        (RunEvent.connect s.stopped s.tracker.conn.isSome ok :: evs) ∧
      (RunEvent.connect s.stopped s.tracker.conn.isSome ok :: evs).getLast? = some last ∧
      (match (s.runOnceAsync fuel).2 with
        | none => ∃ sec, last = RunEvent.wait sec false true
        | some st => last.mayEnd st = true) := by
  unfold Session.runOnceAsync
  rcases Session.connectAndAuthenticate_spec s with
    ⟨s1, hca, htr, htk, _, hcl⟩ | ⟨s1, err, sig, hca, htr, hconn, _, hcl⟩ |
    ⟨s1, sig, hca, htr, hconn, _, hcl⟩
  · -- the dial failed
    simp only [hca]
    obtain ⟨last, w1, w2, w3, w4⟩ := Session.waitOrStopAsync_chain s1
      (RunEvent.connect s.stopped s.tracker.conn.isSome false)
      (fun sg el h => RunEvent.followsAsync_wait _ sg el h (Or.inl ⟨_, _, rfl⟩))
      [RunEvent.connect s.stopped s.tracker.conn.isSome false] (List.chain'_singleton _) rfl
    rw [Session.waitOrStopAsync_result]
    exact ⟨false, [last], last, by simp only; rw [w1, htr]; simp, w2, w3, w4⟩
  · -- the authentication failed
    simp only [hca]
    obtain ⟨last, w1, w2, w3, w4⟩ := Session.waitOrStopAsync_chain s1
      (RunEvent.close CloseSite.authFailure true)
      (fun sg el h => RunEvent.followsAsync_wait _ sg el h (Or.inr (Or.inl ⟨_, rfl⟩)))
      [RunEvent.connect s.stopped s.tracker.conn.isSome true,
        RunEvent.sendIMEI sig (some err), RunEvent.close CloseSite.authFailure true]
      (List.Chain.cons rfl (List.Chain.cons rfl List.Chain.nil)) rfl
    rw [Session.waitOrStopAsync_result]
    exact ⟨true, [RunEvent.sendIMEI sig (some err),
      RunEvent.close CloseSite.authFailure true, last], last,
      by simp only; rw [w1, htr]; simp, w2, w3, w4⟩
  · -- streaming
    simp only [hca]
    obtain ⟨evs, last, h1, h2, h3, h4, h5, h6, h7⟩ :=
      Session.sendLoopAsync_chain fuel s1 sig hconn
    have hc0 : List.Chain' RunEvent.FollowsAsync
        (RunEvent.connect s.stopped s.tracker.conn.isSome true ::
          RunEvent.sendIMEI sig none :: evs) := List.Chain.cons rfl h2
    have hl0 : (RunEvent.connect s.stopped s.tracker.conn.isSome true ::
        RunEvent.sendIMEI sig none :: evs).getLast? = some last := by
      rw [List.getLast?_cons_cons]; exact h3
    rcases hsl : s1.sendLoopAsync fuel with ⟨s2, st⟩
    rw [hsl] at h1 h4 h5 h6
    simp only at h1 h4 h5 h6
    cases st with
    | panicked =>
      rw [RunEvent.not_mayEndLoop_panicked] at h4
      exact absurd h4 (by simp)
    | running =>
      exact ⟨true, RunEvent.sendIMEI sig none :: evs, last, by simp [h1, htr], hc0, hl0,
        RunEvent.mayEnd_of_mayEndLoop last h4⟩
    | returned =>
      have hfc := RunEvent.followsAsync_close_of_mayEndLoop last h4
      obtain ⟨hc1, hl1⟩ := chain'_snoc_async hc0 hl0 hfc
      have hcs : (s2.Close CloseSite.afterSendLoop).trace =
          s2.trace ++ [RunEvent.close CloseSite.afterSendLoop true] := by
        simp [Session.Close, Session.log, h5]
      simp only
      cases hst : (s2.Close CloseSite.afterSendLoop).stopped with
      | true =>
        simp only [if_true]
        obtain ⟨hc2, hl2⟩ := chain'_snoc_async hc1 hl1
          (show (RunEvent.close CloseSite.afterSendLoop true).FollowsAsync
            (RunEvent.stopCheck true) from rfl)
        exact ⟨true, (RunEvent.sendIMEI sig none :: evs) ++
          [RunEvent.close CloseSite.afterSendLoop true, RunEvent.stopCheck true],
          RunEvent.stopCheck true, by simp [Session.log, hcs, h1, htr], by simpa using hc2,
          by simpa using hl2, rfl⟩
      | false =>
        simp only [Bool.false_eq_true, if_false]
        obtain ⟨hc2, hl2⟩ := chain'_snoc_async hc1 hl1
          (show (RunEvent.close CloseSite.afterSendLoop true).FollowsAsync
            (RunEvent.stopCheck false) from rfl)
        obtain ⟨last2, w1, w2, w3, w4⟩ := Session.waitOrStopAsync_chain
          ((s2.Close CloseSite.afterSendLoop).log (RunEvent.stopCheck false)).pass
          (RunEvent.stopCheck false)
          (fun sg el h => RunEvent.followsAsync_wait _ sg el h (Or.inr (Or.inr rfl)))
          _ hc2 hl2
        rw [Session.waitOrStopAsync_result]
        refine ⟨true, (RunEvent.sendIMEI sig none :: evs) ++
          [RunEvent.close CloseSite.afterSendLoop true, RunEvent.stopCheck false, last2],
          last2, ?_, by simpa using w2, by simpa using w3, w4⟩
        simp only
        rw [w1]
        simp [Session.log, hcs, h1, htr]

/-- The steps of `RunAsync`, whatever the fuel: they follow the order of
`RunAsync`, begin with a connect attempt, and end as a run may end; `RunAsync`
never panics. -/
theorem Session.RunAsync_chain (fuel : Nat) (s : Session) :
    ∃ evs, (s.RunAsync fuel).1.trace = s.trace ++ evs ∧
      List.Chain' RunEvent.FollowsAsync evs ∧
      (evs = [] → (s.RunAsync fuel).2 = Status.running) ∧
      (∀ last, evs.getLast? = some last → last.mayEnd (s.RunAsync fuel).2 = true) ∧
      (∀ e, evs.head? = some e →
        ∃ ok, e = RunEvent.connect s.stopped s.tracker.conn.isSome ok) := by
  induction fuel generalizing s with
  | zero =>
    exact ⟨[], by simp [Session.RunAsync], List.chain'_nil, fun _ => rfl, by simp, by simp⟩
  | succ fuel ih =>
    obtain ⟨ok, evs1, last1, h1, h2, h3, h4⟩ := Session.runOnceAsync_chain fuel s
    unfold Session.RunAsync
    rcases hr : s.runOnceAsync fuel with ⟨s1, r⟩
    rw [hr] at h1 h4
    simp only at h1 h4
    cases r with
    | some st =>
      simp only
      refine ⟨RunEvent.connect s.stopped s.tracker.conn.isSome ok :: evs1, h1, h2,
        fun h => by simp at h, ?_, ?_⟩
      · intro last hl
        rw [h3] at hl
        rw [← Option.some.inj hl]
        exact h4
      · intro e he
        exact ⟨ok, by simpa using he.symm⟩
    | none =>
      simp only
      obtain ⟨sec, hlast⟩ := h4
      obtain ⟨evs2, g1, g2, g3, g4, g5⟩ := ih s1
      refine ⟨(RunEvent.connect s.stopped s.tracker.conn.isSome ok :: evs1) ++ evs2,
        by rw [g1, h1, List.append_assoc], ?_, fun h => by simp at h, ?_, ?_⟩
      · refine h2.append g2 ?_
        intro a ha b hb
        rw [h3] at ha
        obtain ⟨ok2, hb2⟩ := g5 b hb
        simp only [Option.mem_def, Option.some.injEq] at ha
        rw [← ha, hlast, hb2]
        rfl
      · intro last hl
        rw [List.getLast?_append] at hl
        cases hg : evs2.getLast? with
        | some l2 =>
          rw [hg] at hl
          simp only [Option.or_some, Option.some.injEq] at hl
          rw [← hl]
          exact g4 l2 hg
        | none =>
          rw [hg, h3] at hl
          simp only [Option.none_or, Option.some.injEq] at hl
          have he2 : evs2 = [] := List.getLast?_eq_none_iff.mp hg
          rw [g3 he2, ← hl, hlast]
          rfl
      · intro e he
        exact ⟨ok, by simpa using he.symm⟩

theorem chain'_getElem?_async {l : List RunEvent} (h : List.Chain' RunEvent.FollowsAsync l)
    (i : Nat) (a b : RunEvent) (ha : l[i]? = some a) (hb : l[i + 1]? = some b) :
    a.FollowsAsync b := by
  induction l generalizing i with
  | nil => simp at ha
  | cons x t ih =>
    cases t with
    | nil => simp at hb
    | cons y t =>
      rw [List.chain'_cons] at h
      cases i with
      | zero =>
        simp only [List.getElem?_cons_zero, Option.some.injEq, zero_add,
          List.getElem?_cons_succ] at ha hb
        rw [← ha, ← hb]
        exact h.1
      | succ i =>
        simp only [List.getElem?_cons_succ] at ha hb
        exact ih h.2 i ha (by simpa using hb)

theorem RunEvent.followsAsync_of_wait {sec : Nat} {sg el : Bool} {b : RunEvent}
    (h : (RunEvent.wait sec sg el).FollowsAsync b) :
    sg = false ∧ el = true ∧ ∃ sg1 o ok, b = RunEvent.connect sg1 o ok := by
  cases sg <;> cases el <;> cases b <;>
    simp [RunEvent.FollowsAsync, RunEvent.mayFollowAsync] at h
  exact ⟨rfl, rfl, _, _, _, rfl⟩

/-- The steps a run adds to the trace when the stop channel can be closed at
any moment: after any step comes either nothing, and then the run may end there,
or a step that may follow it. -/
theorem Session.RunAsync_step (fuel : Nat) (s : Session) (evs : List RunEvent)
    (htr : (s.RunAsync fuel).1.trace = s.trace ++ evs) (i : Nat) (a : RunEvent)
    (ha : evs[i]? = some a) :
    (evs[i + 1]? = none ∧ a.mayEnd (s.RunAsync fuel).2 = true) ∨
      ∃ b, evs[i + 1]? = some b ∧ a.FollowsAsync b := by
  obtain ⟨evs1, h1, h2, _, h4, _⟩ := Session.RunAsync_chain fuel s
  have : evs = evs1 := List.append_cancel_left (htr.symm.trans h1)
  subst this
  cases hb : evs[i + 1]? with
  | none => exact Or.inl ⟨rfl, h4 a (getLast?_of_getElem? i a ha hb)⟩
  | some b => exact Or.inr ⟨b, rfl, chain'_getElem?_async h2 i a b ha hb⟩

theorem Session.sendOneAsync_replays (s : Session) (cause : SendCause)
    (h : s.tracker.conn.isSome = true) :
    ∃ evs, s.Replays (s.sendOneAsync cause).1 evs ∧
      (s.sendOneAsync cause).1.tracker.conn.isSome = true := by
  obtain ⟨s1, sg, err, hs1, htr, _, hconn, hcl⟩ := Session.sendOneAsync_open s cause h
  rw [hs1]
  exact ⟨_, Session.Replays.of_quiet htr (by simp [RunEvent.touchesConn]) (by rw [hconn, h]) hcl,
    hconn⟩

theorem Session.sendLoopFromAsync_replays (fuel : Nat) (s : Session)
    (h : s.tracker.conn.isSome = true) :
    ∃ evs, s.Replays (s.sendLoopFromAsync fuel).1 evs ∧
      (s.sendLoopFromAsync fuel).1.tracker.conn.isSome = true := by
  obtain ⟨evs, _, h1, _, _, _, h5, h6, h7⟩ :=
    Session.sendLoopFromAsync_chain fuel s false h
  exact ⟨evs, Session.Replays.of_quiet h1 h7 (by rw [h5, h]) h6, h5⟩

theorem RunEvent.followsAsync_failedAuth {sig : Bool} {err : TrackerError} {b : RunEvent}
    (h : (RunEvent.sendIMEI sig (some err)).FollowsAsync b) :
    b = RunEvent.close CloseSite.authFailure true := by
  cases b <;> simp [RunEvent.FollowsAsync, RunEvent.mayFollowAsync] at h
  rename_i site w
  cases site <;> cases w <;> simp_all [RunEvent.mayFollowAsync]

theorem RunEvent.followsAsync_closeAuth {w : Bool} {b : RunEvent}
    (h : (RunEvent.close CloseSite.authFailure w).FollowsAsync b) :
    ∃ sg el, b = RunEvent.wait 5 sg el := by
  cases b <;> simp [RunEvent.FollowsAsync, RunEvent.mayFollowAsync] at h
  rename_i sec sg el
  by_cases h5 : sec = 5
  · subst h5; exact ⟨_, _, rfl⟩
  · simp [RunEvent.mayFollowAsync, h5] at h

/-- After a failed authentication the steps are the same when the stop
channel can be closed at any moment: the close, one wait, and then the next
connect attempt or nothing; no data packet is sent and `Next` is not called in
between. -/
theorem Session.RunAsync_after_failed_auth (fuel : Nat) (s : Session) (evs : List RunEvent)
    (htr : (s.RunAsync fuel).1.trace = s.trace ++ evs) (i : Nat) (sig : Bool)
    (err : TrackerError) (hi : evs[i]? = some (RunEvent.sendIMEI sig (some err))) :
    evs[i + 1]? = some (RunEvent.close CloseSite.authFailure true) ∧
      ∃ sg el, evs[i + 2]? = some (RunEvent.wait 5 sg el) ∧
        (evs[i + 3]? = none ∨ ∃ sg1 o ok, evs[i + 3]? = some (RunEvent.connect sg1 o ok)) := by
  rcases Session.RunAsync_step fuel s evs htr i _ hi with ⟨_, he⟩ | ⟨b, hb, hf⟩
  · rw [RunEvent.not_mayEnd (Or.inr (Or.inl ⟨_, _, rfl⟩))] at he
    exact absurd he (by simp)
  have hb1 := RunEvent.followsAsync_failedAuth hf
  subst hb1
  refine ⟨hb, ?_⟩
  rcases Session.RunAsync_step fuel s evs htr (i + 1) _ hb with ⟨_, he⟩ | ⟨w, hw, hf2⟩
  · rw [RunEvent.not_mayEnd (Or.inr (Or.inr (Or.inl ⟨_, _, rfl⟩)))] at he
    exact absurd he (by simp)
  obtain ⟨sg, el, rfl⟩ := RunEvent.followsAsync_closeAuth hf2
  refine ⟨sg, el, hw, ?_⟩
  rcases Session.RunAsync_step fuel s evs htr (i + 2) _ hw with ⟨hn, _⟩ | ⟨e, he, hf3⟩
  · exact Or.inl hn
  · obtain ⟨_, _, sg1, o, ok, rfl⟩ := RunEvent.followsAsync_of_wait hf3
    exact Or.inr ⟨sg1, o, ok, he⟩

/-! ## Session: the claims -/

/-- C17: a run started with no open connection makes every connect attempt
with `conn` nil, so no connection is overwritten; when Run returns, `conn` is
nil again and as many connections have been closed as were opened. Run never
panics. -/
theorem Run_one_connection (fuel : Nat) (s : Session) (evs : List RunEvent)
    (h0 : s.tracker.conn = none) (htr : (s.Run fuel).1.trace = s.trace ++ evs) :
    (∀ (i : Nat) sig o ok, evs[i]? = some (RunEvent.connect sig o ok) → o = false) ∧
    ((s.Run fuel).2 = Status.returned →
      (s.Run fuel).1.tracker.conn = none ∧
      (s.Run fuel).1.closed.length =
        s.closed.length + (evs.filter RunEvent.isOpened).length) ∧
    (s.Run fuel).2 ≠ Status.panicked := by
  obtain ⟨_, h4, _, h6⟩ := Session.Run_events fuel s evs htr
  obtain ⟨k1, k2⟩ := h6 h0
  refine ⟨?_, k2, ?_⟩
  · intro i sig o ok hi
    exact k1 _ (List.mem_iff_getElem?.mpr ⟨i, hi⟩) sig o ok rfl
  · obtain ⟨evs1, g1, _, g3, g4, _, _⟩ := Session.Run_spec fuel s
    intro hp
    cases hl : evs1.getLast? with
    | none =>
      have := g3 (List.getLast?_eq_none_iff.mp hl)
      rw [hp] at this
      exact absurd this (by simp)
    | some l =>
      have := g4 l hl
      rw [hp] at this
      cases l <;> simp [RunEvent.mayEnd] at this

/-- C17, witness: `brokenSession` opens one connection and closes it. -/
theorem Run_one_connection_witness :
    brokenSession.tracker.conn = none ∧
    (brokenSession.Run 3).1.trace = brokenSession.trace ++ brokenSteps ∧
    (brokenSession.Run 3).2 = Status.returned ∧
    (brokenSession.Run 3).1.tracker.conn = none ∧
    (brokenSession.Run 3).1.closed.length = 1 := by
  have htr : (brokenSession.Run 3).1.trace = brokenSession.trace ++ brokenSteps := by decide
  have hret : (brokenSession.Run 3).2 = Status.returned := by decide
  have h := (Run_one_connection 3 brokenSession brokenSteps rfl htr).2.1 hret
  exact ⟨rfl, htr, hret, h.1, h.2⟩

theorem Tracker.SendIMEI_rejected (t : Tracker) (c : Conn) (h : t.conn = some c)
    (hrej : c.rejectsIMEI = true) :
    ∃ (c1 : Conn) (err : TrackerError),
      t.SendIMEI = some ({ t with conn := some c1 }, some err) ∧
      c1.events.filter ConnEvent.isWrite =
        c.events.filter ConnEvent.isWrite ++
          [ConnEvent.write (PutUint16 (t.IMEI.length % 65536) ++ t.IMEI)] := by
  unfold Tracker.SendIMEI
  rw [h]
  simp only [Conn.Write]
  cases c.writeFails.headD false with
  | true => exact ⟨_, _, rfl, by simp [ConnEvent.isWrite]⟩
  | false =>
    simp only [Conn.SetReadDeadline, Conn.Read, Bool.false_eq_true, if_false]
    unfold Conn.rejectsIMEI at hrej
    rcases hin : c.inbound with _ | ⟨x, tl⟩
    · exact ⟨_, _, rfl, by simp [ConnEvent.isWrite]⟩
    · cases x with
      | none => exact ⟨_, _, rfl, by simp [ConnEvent.isWrite]⟩
      | some bs =>
        rw [hin] at hrej
        have hb : (List.take 1 bs ++ List.replicate (1 - bs.length) (0 : Byte)).headD 0 ≠ 1 := by
          cases bs with
          | nil => decide
          | cons b rest => simpa using hrej
        simp only
        rw [if_pos hb]
        exact ⟨_, _, rfl, by simp [ConnEvent.isWrite]⟩

theorem Session.connectAndAuthenticate_of_rejected (s : Session) (c : Conn)
    (hd : s.dials.headD none = some c) (hrej : c.rejectsIMEI = true) :
    ∃ s1 err sig c2, s.connectAndAuthenticate = some (s1, some err) ∧
      s1.tracker.conn = none ∧ s1.genCalls = s.genCalls ∧
      s1.trace = s.trace ++ [RunEvent.connect s.stopped s.tracker.conn.isSome true,
        RunEvent.sendIMEI sig (some err), RunEvent.close CloseSite.authFailure true] ∧
      s1.closed = s.closed ++ [c2] ∧
      c2.events.filter ConnEvent.isWrite =
        c.events.filter ConnEvent.isWrite ++
          [ConnEvent.write (PutUint16 (s.tracker.IMEI.length % 65536) ++ s.tracker.IMEI)] := by
  obtain ⟨c1, err, h, hw⟩ :=
    Tracker.SendIMEI_rejected { s.tracker with conn := some c } c rfl hrej
  unfold Session.connectAndAuthenticate Session.Connect
  simp only [hd, Tracker.Connect, Option.isNone_none]
  simp only [h]
  refine ⟨_, err, (s.log (RunEvent.connect s.stopped s.tracker.conn.isSome true)).pass.stopped,
    { c1 with events := c1.events ++ [ConnEvent.close] }, rfl, ?_, ?_, ?_, ?_, ?_⟩
  · simp [Session.Close, Session.log, Tracker.Close]
  · simp [Session.Close, Session.log]
  · simp [Session.Close, Session.log]
  · simp [Session.Close, Session.log, Tracker.Close]
  · simpa [ConnEvent.isWrite] using hw

theorem Session.Run_of_failed (s s1 : Session) (err : TrackerError)
    (hca : s.connectAndAuthenticate = some (s1, some err)) (fuel : Nat) :
    ∃ rest, (s.Run (fuel + 1)).1.trace = s1.trace ++ rest := by
  unfold Session.Run Session.runOnce
  simp only [hca]
  obtain ⟨hw1, _⟩ := Session.waitOrStop_spec s1 5
  rcases hwait : s1.waitOrStop 5 with ⟨s2, el⟩
  rw [hwait] at hw1
  simp only at hw1
  cases el with
  | false => exact ⟨_, hw1⟩
  | true =>
    obtain ⟨evs2, g1, _⟩ := Session.Run_spec fuel s2
    exact ⟨_, by simp only; rw [g1, hw1, List.append_assoc]⟩

/-- C11: when the server's answer to the identifier is anything but 0x01 (a
failed or timed-out read, or another byte), connectAndAuthenticate returns an
error with the connection closed (`conn` is nil), without a call of `Next`, and
the only write on the closed connection is the identifier message; the round of
Run begins with that failed authentication; and in every run a failed
authentication is followed by the close and one wait, after which the next
step, if any, is the next connect attempt: no data packet is sent and `Next` is
not called in between. -/
theorem connectAndAuthenticate_rejected (s : Session) (c : Conn)
    (hd : s.dials.headD none = some c) (hrej : c.rejectsIMEI = true) :
    (∃ s1 err sig c2, s.connectAndAuthenticate = some (s1, some err) ∧
      s1.tracker.conn = none ∧ s1.genCalls = s.genCalls ∧
      s1.trace = s.trace ++ [RunEvent.connect s.stopped s.tracker.conn.isSome true,
        RunEvent.sendIMEI sig (some err), RunEvent.close CloseSite.authFailure true] ∧
      s1.closed = s.closed ++ [c2] ∧
      c2.events.filter ConnEvent.isWrite =
        c.events.filter ConnEvent.isWrite ++
          [ConnEvent.write (PutUint16 (s.tracker.IMEI.length % 65536) ++ s.tracker.IMEI)] ∧
      ∀ fuel, ∃ rest, (s.Run (fuel + 1)).1.trace = s1.trace ++ rest) ∧
    (∀ fuel evs, (s.Run fuel).1.trace = s.trace ++ evs →
      ∀ (i : Nat) sig err, evs[i]? = some (RunEvent.sendIMEI sig (some err)) →
        evs[i + 1]? = some (RunEvent.close CloseSite.authFailure true) ∧
        ∃ sg el, evs[i + 2]? = some (RunEvent.wait 5 sg el) ∧
          (evs[i + 3]? = none ∨ ∃ o ok, evs[i + 3]? = some (RunEvent.connect false o ok))) := by
  constructor
  · obtain ⟨s1, err, sig, c2, hca, h1, h2, h3, h4, h5⟩ :=
      Session.connectAndAuthenticate_of_rejected s c hd hrej
    exact ⟨s1, err, sig, c2, hca, h1, h2, h3, h4, h5, Session.Run_of_failed s s1 err hca⟩
  · intro fuel evs htr i sig err hi
    rcases Session.Run_step fuel s evs htr i _ hi with ⟨_, he⟩ | ⟨b, hb, hf⟩
    · rw [RunEvent.not_mayEnd (Or.inr (Or.inl ⟨_, _, rfl⟩))] at he
      exact absurd he (by simp)
    have hb1 := RunEvent.follows_failedAuth hf
    subst hb1
    refine ⟨hb, ?_⟩
    rcases Session.Run_step fuel s evs htr (i + 1) _ hb with ⟨_, he⟩ | ⟨w, hw, hf2⟩
    · rw [RunEvent.not_mayEnd (Or.inr (Or.inr (Or.inl ⟨_, _, rfl⟩)))] at he
      exact absurd he (by simp)
    obtain ⟨sg, el, rfl⟩ := RunEvent.follows_closeAuth hf2
    refine ⟨sg, el, hw, ?_⟩
    rcases Session.Run_step fuel s evs htr (i + 2) _ hw with ⟨hn, _⟩ | ⟨e, he, hf3⟩
    · exact Or.inl hn
    · obtain ⟨_, o, ok, rfl⟩ := RunEvent.follows_wait hf3
      exact Or.inr ⟨o, ok, he⟩

/-- C11, witness: the server answers the identifier with 0x00. -/
theorem connectAndAuthenticate_rejected_witness :
    rejectedSession.dials.headD none = some rejectingConn ∧
    rejectingConn.rejectsIMEI = true ∧
    (∃ s1 err, rejectedSession.connectAndAuthenticate = some (s1, some err) ∧
      s1.tracker.conn = none ∧ s1.genCalls = 0) ∧
    (rejectedSession.Run 2).1.trace = rejectedSession.trace ++ rejectedSteps ∧
    rejectedSteps[1]? = some (RunEvent.sendIMEI false (some (TrackerError.imeiRejected 0))) ∧
    rejectedSteps[2]? = some (RunEvent.close CloseSite.authFailure true) := by
  have h := connectAndAuthenticate_rejected rejectedSession rejectingConn rfl rfl
  obtain ⟨s1, err, _, _, h1, h2, h3, _⟩ := h.1
  have htr : (rejectedSession.Run 2).1.trace = rejectedSession.trace ++ rejectedSteps := by
    decide
  exact ⟨rfl, rfl, ⟨s1, err, h1, h2, h3⟩, htr, rfl, (h.2 2 rejectedSteps htr 1 _ _ rfl).1⟩
